import Mathlib

/-!
# KarpelesLab/hid: USB descriptor walker and usbfs transfer engine

A shallow embedding of `usb_linux.go` (with `hid.go` and `usbdef64_linux.go`):
the descriptor parser `walker`, and the HID operations of `usbHandle` seen as
functions that produce the list of ioctl requests handed to the kernel.

Conventions of the embedding

* a byte is a `Fin 256`; a descriptor blob is a `List Byte`;
* Go's unsigned fields (`uint8`, `uint16`, `uint32`) are natural numbers, a
  conversion `uintN(x)` is written `x % 2^N`;
* `epIn`, `epOut`, `Bus`, `Device` are Go `int`s that only ever receive values
  converted from `uint8` or parsed from digit strings, so they are naturals;
* the sink `cb` is observed as the list of candidates it was called with, each
  a snapshot of `*device` taken at the moment of the call, in call order;
* loops run on fuel; `walker` gives the loop one unit of fuel per byte of the
  blob, and every iteration that does not fail consumes at least two bytes.
-/

namespace Hid

/-- One octet of a descriptor blob or of a transfer buffer. -/
abbrev Byte := Fin 256

/-! ## Constants and descriptor layouts (declared outside the three source files) -/

/-- Modelled from the spec: the constant `UsbHidClass`, whose declaration is
missing from the sources ("interface class = HID (class constant = 3)"). -/
def UsbHidClass : Nat := 3

/-- Modelled from the spec: the constant `UsbDescTypeDevice`, missing from the
sources; the standard USB descriptor type DEVICE. -/
def UsbDescTypeDevice : Nat := 1

/-- Modelled from the spec: the constant `UsbDescTypeConfig`, missing from the
sources; the standard USB descriptor type CONFIGURATION. -/
def UsbDescTypeConfig : Nat := 2

/-- Modelled from the spec: the constant `UsbDescTypeInterface`, missing from
the sources; the standard USB descriptor type INTERFACE. -/
def UsbDescTypeInterface : Nat := 4

/-- Modelled from the spec: the constant `UsbDescTypeEndpoint`, missing from
the sources; the standard USB descriptor type ENDPOINT. -/
def UsbDescTypeEndpoint : Nat := 5

/-- Modelled from the spec: the constant `UsbDescTypeReport`, missing from the
sources; the HID report descriptor type (the `0x22` of `HIDReport`). `walker`
only writes this key of the accept map and has no `case` for it. -/
def UsbDescTypeReport : Nat := 0x22

/-- Modelled from the spec: the struct `deviceDesc`, missing from the sources;
the standard 18-byte USB device descriptor, fields in wire order. -/
structure deviceDesc where
  Length : Nat
  DescriptorType : Nat
  USB : Nat
  DeviceClass : Nat
  DeviceSubClass : Nat
  DeviceProtocol : Nat
  MaxPacketSize : Nat
  Vendor : Nat
  Product : Nat
  Revision : Nat
  ManufacturerIndex : Nat
  ProductIndex : Nat
  SerialIndex : Nat
  NumConfigurations : Nat
deriving DecidableEq, Repr

/-- Modelled from the spec: the struct `interfaceDesc`, missing from the
sources; the standard 9-byte USB interface descriptor, fields in wire order. -/
structure interfaceDesc where
  Length : Nat
  DescriptorType : Nat
  Number : Nat
  AltSetting : Nat
  NumEndpoints : Nat
  InterfaceClass : Nat
  InterfaceSubClass : Nat
  InterfaceProtocol : Nat
  InterfaceIndex : Nat
deriving DecidableEq, Repr

/-- Modelled from the spec: the struct `endpointDesc`, missing from the
sources; the standard 7-byte USB endpoint descriptor, fields in wire order. -/
structure endpointDesc where
  Length : Nat
  DescriptorType : Nat
  Address : Nat
  Attributes : Nat
  MaxPacketSize : Nat
  Interval : Nat
deriving DecidableEq, Repr

/-! ## hid.go -/

/-- The struct `Info` of hid.go. -/
structure Info where
  Vendor : Nat
  Product : Nat
  Revision : Nat
  SubClass : Nat
  Protocol : Nat
  Interface : Nat
  Bus : Nat
  Device : Nat
deriving DecidableEq, Repr

/-! ## usb_linux.go: data -/

/-- The struct `usbDevice`: a candidate HID device. -/
structure usbDevice where
  info : Info
  epIn : Nat
  epOut : Nat
  inputPacketSize : Nat
  outputPacketSize : Nat
  path : String
deriving DecidableEq, Repr

/-- The errors `walker` can return. `readFile` is an error of
`ioutil.ReadFile`, `shortRead` is `errors.New("short read")`, `unexpectedEOF`
is what `binary.Read` returns in `cast` when the body is shorter than the
struct. `outOfFuel` is not a Go error: it marks a loop cut off by the fuel of
the embedding. -/
inductive WalkError where
  | readFile
  | shortRead
  | unexpectedEOF
  | outOfFuel
deriving DecidableEq, Repr

/-! ## usb_linux.go: `cast` at the three struct types -/

/-- Little-endian 16-bit value of two bytes. -/
def le16 (lo hi : Byte) : Nat := lo.val + 256 * hi.val

/-- The byte at index `i` of a body known to be long enough. -/
def byteAt (b : List Byte) (i : Nat) : Byte := b.getD i 0

/-- Decoding `cast(body, &devDesc)`: `binary.Read` needs 18 bytes and fails
with `io.ErrUnexpectedEOF` on a shorter body; extra bytes are left unread. -/
def castDevice (b : List Byte) : Option deviceDesc :=
  if b.length < 18 then none
  else some {
    Length := (byteAt b 0).val
    DescriptorType := (byteAt b 1).val
    USB := le16 (byteAt b 2) (byteAt b 3)
    DeviceClass := (byteAt b 4).val
    DeviceSubClass := (byteAt b 5).val
    DeviceProtocol := (byteAt b 6).val
    MaxPacketSize := (byteAt b 7).val
    Vendor := le16 (byteAt b 8) (byteAt b 9)
    Product := le16 (byteAt b 10) (byteAt b 11)
    Revision := le16 (byteAt b 12) (byteAt b 13)
    ManufacturerIndex := (byteAt b 14).val
    ProductIndex := (byteAt b 15).val
    SerialIndex := (byteAt b 16).val
    NumConfigurations := (byteAt b 17).val }

/-- Decoding `cast(body, i)` for `interfaceDesc`: 9 bytes are needed. -/
def castInterface (b : List Byte) : Option interfaceDesc :=
  if b.length < 9 then none
  else some {
    Length := (byteAt b 0).val
    DescriptorType := (byteAt b 1).val
    Number := (byteAt b 2).val
    AltSetting := (byteAt b 3).val
    NumEndpoints := (byteAt b 4).val
    InterfaceClass := (byteAt b 5).val
    InterfaceSubClass := (byteAt b 6).val
    InterfaceProtocol := (byteAt b 7).val
    InterfaceIndex := (byteAt b 8).val }

/-- Decoding `cast(body, e)` for `endpointDesc`: 7 bytes are needed. -/
def castEndpoint (b : List Byte) : Option endpointDesc :=
  if b.length < 7 then none
  else some {
    Length := (byteAt b 0).val
    DescriptorType := (byteAt b 1).val
    Address := (byteAt b 2).val
    Attributes := (byteAt b 3).val
    MaxPacketSize := le16 (byteAt b 4) (byteAt b 5)
    Interval := (byteAt b 6).val }

/-! ## usb_linux.go: `reDevBusDevice` and `strconv.Atoi` -/

/-- Strip the literal `lit` from the front of `s`. -/
def stripLit : List Char → List Char → Option (List Char)
  | [], s => some s
  | _ :: _, [] => none
  | c :: cs, d :: ds => if c = d then stripLit cs ds else none

/-- The pattern `/dev/bus/usb/(\d+)/(\d+)` matched at the very start of `s`:
the two captured digit runs. `\d` is an ASCII digit, `+` is greedy, and a run
of digits can only be followed by `/` when it is maximal. -/
def matchHere (s : List Char) : Option (List Char × List Char) :=
  match stripLit "/dev/bus/usb/".toList s with
  | none => none
  | some s1 =>
    let d1 := s1.takeWhile Char.isDigit
    let s2 := s1.dropWhile Char.isDigit
    if d1 = [] then none
    else
      match s2 with
      | '/' :: s3 =>
        let d2 := s3.takeWhile Char.isDigit
        if d2 = [] then none else some (d1, d2)
      | _ => none

/-- The call `reDevBusDevice.FindStringSubmatch(path)`: the leftmost match of
the unanchored pattern, reduced to its two capture groups. -/
def findStringSubmatch : List Char → Option (List Char × List Char)
  | [] => none
  | c :: cs =>
    match matchHere (c :: cs) with
    | some m => some m
    | none => findStringSubmatch cs

/-- Decimal value of a run of ASCII digits. -/
def digitsValue (ds : List Char) : Nat :=
  ds.foldl (fun acc c => 10 * acc + (c.toNat - '0'.toNat)) 0

/-- The value of `strconv.Atoi` on a non-empty run of digits, its error being
dropped by `bus, _ = strconv.Atoi(...)`: the decimal value, or the largest
`int` (64 bits) when the value is out of range. -/
def atoi (ds : List Char) : Nat := min (digitsValue ds) (2 ^ 63 - 1)

/-- The pair `(bus, dev)` computed in the HID branch of `walker`. -/
def busDev (path : String) : Nat × Nat :=
  match findStringSubmatch path.toList with
  | some (b, d) => (atoi b, atoi d)
  | none => (0, 0)

/-! ## usb_linux.go: `walker` -/

/-- The local variables of `walker` that live across loop iterations, the
buffer `r` apart: the accept map `expected`, `devDesc`, the pending candidate
`device` (`none` is `nil`), and the calls made to `cb` so far. -/
structure WalkState where
  expected : Nat → Bool
  devDesc : deviceDesc
  device : Option usbDevice
  emitted : List usbDevice

/-- Assignment `m[k] = v` on the accept map. -/
def setExpected (m : Nat → Bool) (k : Nat) (v : Bool) : Nat → Bool :=
  fun x => if x = k then v else m x

/-- The call `cb(device)` guarded by `device != nil`, followed by `device = nil`. -/
def flushDevice (st : WalkState) : WalkState :=
  match st.device with
  | some d => { st with emitted := st.emitted ++ [d], device := none }
  | none => st

/-- The `switch body[1]` of `walker` on a body that passed the framing checks
and the accept-map filter. The first component is the error returned from
inside the switch, the second the state reached (with the calls to `cb` made
before the error). -/
def walkSwitch (path : String) (st : WalkState) (body : List Byte) :
    Option WalkError × WalkState :=
  let ty := (byteAt body 1).val
  if ty = UsbDescTypeDevice then
    let st1 := { st with
      expected := setExpected (setExpected st.expected UsbDescTypeDevice false)
        UsbDescTypeConfig true }
    match castDevice body with
    | none => (some .unexpectedEOF, st1)
    | some dd => (none, { st1 with devDesc := dd })
  else if ty = UsbDescTypeConfig then
    let st1 := { st with
      expected := setExpected (setExpected (setExpected st.expected
        UsbDescTypeInterface true) UsbDescTypeReport false) UsbDescTypeEndpoint false }
    (none, flushDevice st1)
  else if ty = UsbDescTypeInterface then
    let st1 := flushDevice st
    let st2 := { st1 with
      expected := setExpected (setExpected st1.expected UsbDescTypeEndpoint true)
        UsbDescTypeReport true }
    match castInterface body with
    | none => (some .unexpectedEOF, st2)
    | some i =>
      if i.InterfaceClass = UsbHidClass then
        let bd := busDev path
        (none, { st2 with device := some {
          info := {
            Vendor := st2.devDesc.Vendor
            Product := st2.devDesc.Product
            Revision := st2.devDesc.Revision
            SubClass := i.InterfaceSubClass
            Protocol := i.InterfaceProtocol
            Interface := i.Number
            Bus := bd.1
            Device := bd.2 }
          epIn := 0
          epOut := 0
          inputPacketSize := 0
          outputPacketSize := 0
          path := path } })
      else (none, st2)
  else if ty = UsbDescTypeEndpoint then
    match st.device with
    | none => (none, st)
    | some d0 =>
      let emitted1 :=
        if d0.epIn ≠ 0 ∧ d0.epOut ≠ 0 then st.emitted ++ [d0] else st.emitted
      let d1 : usbDevice :=
        if d0.epIn ≠ 0 ∧ d0.epOut ≠ 0 then { d0 with epIn := 0, epOut := 0 } else d0
      match castEndpoint body with
      | none => (some .unexpectedEOF, { st with device := some d1, emitted := emitted1 })
      | some e =>
        let d2 : usbDevice :=
          if e.Address > 0x80 ∧ d1.epIn = 0 then
            { d1 with epIn := e.Address, inputPacketSize := e.MaxPacketSize }
          else if e.Address < 0x80 ∧ d1.epOut = 0 then
            { d1 with epOut := e.Address, outputPacketSize := e.MaxPacketSize }
          else d1
        (none, { st with device := some d2, emitted := emitted1 })
  else (none, st)

/-- What `walker` does with a body that passed the framing checks: the
accept-map filter `if !expected[body[1]] { continue }`, then the switch. -/
def walkBody (path : String) (st : WalkState) (body : List Byte) :
    Option WalkError × WalkState :=
  if !st.expected (byteAt body 1).val then (none, st) else walkSwitch path st body

/-- The loop `for r.Len() > 0 { ... }` run for at most `fuel` iterations on
the unread bytes `r`: the error that ended it, if any, the bytes left unread
and the state it stopped in. In an iteration `ReadByte`/`UnreadByte` peek the
length byte, `r.Read(body)` copies `n = min(length, r.Len())` bytes and
advances by `n` (it cannot fail on a non-empty buffer), and the framing test
`n != int(length) || length < 2` follows. -/
def walkLoop (path : String) : Nat → List Byte → WalkState →
    Option WalkError × List Byte × WalkState
  | 0, r, st => (none, r, st)
  | _ + 1, [], st => (none, [], st)
  | fuel + 1, length :: t, st =>
    let body := (length :: t).take length.val
    let r1 := (length :: t).drop length.val
    if body.length ≠ length.val ∨ length.val < 2 then (some .shortRead, r1, st)
    else
      match walkBody path st body with
      | (some e, st1) => (some e, r1, st1)
      | (none, st1) => walkLoop path fuel r1 st1

/-- The state in which `walker` enters its loop. -/
def walkInit : WalkState where
  expected := fun x => decide (x = UsbDescTypeDevice)
  devDesc := ⟨0, 0, 0, 0, 0, 0, 0, 0, 0, 0, 0, 0, 0, 0⟩
  device := none
  emitted := []

/-- What a call of `walker` is observed to do: the error it returns (`none`
is `nil`) and the candidates passed to `cb`, in call order. -/
structure WalkResult where
  err : Option WalkError
  emitted : List usbDevice
deriving DecidableEq, Repr

/-- The function `walker(path, cb)`; `file` is the outcome of
`ioutil.ReadFile(path)`. After the loop the pending candidate is passed to
`cb`. -/
def walker (path : String) (file : Except WalkError (List Byte)) : WalkResult :=
  match file with
  | .error e => ⟨some e, []⟩
  | .ok desc =>
    match walkLoop path desc.length desc walkInit with
    | (some e, _, st) => ⟨some e, st.emitted⟩
    | (none, [], st) => ⟨none, (flushDevice st).emitted⟩
    | (none, _ :: _, st) => ⟨some .outOfFuel, st.emitted⟩

/-- What `walker` does with the outcome of its loop: an error is returned as
it is; otherwise the pending candidate is handed to the sink. -/
def walkFinish (res : Option WalkError × List Byte × WalkState) : WalkResult :=
  match res with
  | (some e, _, st) => ⟨some e, st.emitted⟩
  | (none, [], st) => ⟨none, (flushDevice st).emitted⟩
  | (none, _ :: _, st) => ⟨some .outOfFuel, st.emitted⟩

/-! ## usbdef64_linux.go -/

/-- The request code `USBDEVFS_IOCTL`. -/
def USBDEVFS_IOCTL : Nat := 0xc0105512

/-- The request code `USBDEVFS_BULK`. -/
def USBDEVFS_BULK : Nat := 0xc0185502

/-- The request code `USBDEVFS_CONTROL`. -/
def USBDEVFS_CONTROL : Nat := 0xc0185500

/-- The struct `usbfsIoctl`. -/
structure usbfsIoctl where
  Interface : Nat
  IoctlCode : Nat
  Data : Nat
deriving DecidableEq, Repr

/-- The struct `usbfsCtrl`, its padding left out. `Data` is the address of the
caller's buffer, modelled by the buffer it points to. -/
structure usbfsCtrl where
  ReqType : Nat
  Req : Nat
  Value : Nat
  Index : Nat
  Len : Nat
  Timeout : Nat
  Data : List Byte
deriving DecidableEq, Repr

/-- The struct `usbfsBulk`, its padding left out. `Data` is the address of the
caller's buffer, modelled by the buffer it points to. -/
structure usbfsBulk where
  Endpoint : Nat
  Len : Nat
  Timeout : Nat
  Data : List Byte
deriving DecidableEq, Repr

/-- The function `slicePtr`: the address of `b[0]`. Indexing an empty slice
panics, which is `none`. -/
def slicePtr (b : List Byte) : Option (List Byte) :=
  match b with
  | [] => none
  | _ :: _ => some b

/-! ## usb_linux.go: the transfer engine -/

/-- The conversion `uintW(x)` of a Go `int`. -/
def toUint (w : Nat) (x : Int) : Nat := (x % (2 ^ w : Int)).toNat

/-- The constant `time.Millisecond`, in nanoseconds. -/
def Millisecond : Int := 1000000

/-- The argument of an ioctl: a `*uint32` interface number or one of the
three usbfs structs. -/
inductive IoctlArg where
  | ifno (n : Nat)
  | ioctl (a : usbfsIoctl)
  | ctrl (a : usbfsCtrl)
  | bulk (a : usbfsBulk)
deriving DecidableEq, Repr

/-- One ioctl system call as the kernel sees it: the file descriptor
(`none` is the invalid descriptor of a nil file), the request code and the
argument. -/
structure Syscall where
  fd : Option Nat
  n : Nat
  arg : IoctlArg
deriving DecidableEq, Repr

/-- What the kernel answers to an ioctl: the return value `r`, the `errno`,
and the contents it leaves in the caller's buffer. -/
structure Reply where
  r : Int
  errno : Nat
  data : List Byte
deriving DecidableEq, Repr

/-- The kernel, as far as the library can see it. -/
abbrev Kernel := Syscall → Reply

/-- The struct `usbHandle`; `f = none` is a nil file. -/
structure usbHandle where
  dev : usbDevice
  f : Option Nat
deriving DecidableEq, Repr

/-- What a method call is observed to do: the ioctls it issued, in order, and
what it returned; `ret = none` is a panic. -/
structure Call (α : Type) where
  trace : List Syscall
  ret : Option α

/-- The method `usbHandle.ioctl`: `binary.Write` serialises the argument
(it cannot fail on these fixed-size types) and the system call is made on
`hid.f.Fd()`. The result is the call as the kernel sees it and its answer
(`int(r)` and `errno`). -/
def usbHandle.ioctl (k : Kernel) (hid : usbHandle) (n : Nat) (arg : IoctlArg) :
    Syscall × Reply :=
  let call : Syscall := ⟨hid.f, n, arg⟩
  (call, k call)

/-- The method `usbHandle.ctrl`. The struct literal evaluates `slicePtr(data)`
before any ioctl is issued. The result is the pair `(int, error)` of Go
(`.error errno` for `(-1, err)`, `.ok r` for `(r, nil)`) with the contents of
`data` after the call. -/
def usbHandle.ctrl (k : Kernel) (hid : usbHandle) (rtype req val index : Int)
    (data : List Byte) (t : Int) : Call (Except Nat Int × List Byte) :=
  match slicePtr data with
  | none => ⟨[], none⟩
  | some p =>
    let s : usbfsCtrl := {
      ReqType := toUint 8 rtype
      Req := toUint 8 req
      Value := toUint 16 val
      Index := toUint 16 index
      Len := toUint 16 data.length
      Timeout := toUint 32 t
      Data := p }
    let (call, reply) := hid.ioctl k USBDEVFS_CONTROL (.ctrl s)
    if reply.r = -1 then ⟨[call], some (.error reply.errno, reply.data)⟩
    else ⟨[call], some (.ok reply.r, reply.data)⟩

/-- The method `usbHandle.intr`. -/
def usbHandle.intr (k : Kernel) (hid : usbHandle) (ep : Int) (data : List Byte) (t : Int) :
    Call (Except Nat Int × List Byte) :=
  match slicePtr data with
  | none => ⟨[], none⟩
  | some p =>
    let b : usbfsBulk := {
      Endpoint := toUint 32 ep
      Len := toUint 32 data.length
      Timeout := toUint 32 t
      Data := p }
    let (call, reply) := hid.ioctl k USBDEVFS_BULK (.bulk b)
    if reply.r = -1 then ⟨[call], some (.error reply.errno, reply.data)⟩
    else ⟨[call], some (.ok reply.r, reply.data)⟩

/-- The method `usbHandle.Write`; `timeout` is a `time.Duration` in
nanoseconds and `/` on Go integers truncates toward zero. -/
def usbHandle.Write (k : Kernel) (hid : usbHandle) (data : List Byte) (timeout : Int) :
    Call (Except Nat Int) :=
  if hid.dev.epOut > 0 then
    let ms := timeout.tdiv (1 * Millisecond)
    let c := hid.intr k hid.dev.epOut data ms
    ⟨c.trace, c.ret.map (·.1)⟩
  else
    let c := hid.ctrl k 0x21 0x09 ((2 <<< 8 + 0 : Nat) : Int) hid.dev.info.Interface data
      data.length
    ⟨c.trace, c.ret.map (·.1)⟩

/-- The method `usbHandle.GetReport`: the bytes `buf[:n]` of a 256-byte
buffer; slicing beyond the buffer panics. -/
def usbHandle.GetReport (k : Kernel) (hid : usbHandle) (report : Int) :
    Call (Except Nat (List Byte)) :=
  let buf : List Byte := List.replicate 256 0
  let c := hid.ctrl k 0xa1 0x01 report hid.dev.info.Interface buf 1000
  match c.ret with
  | none => ⟨c.trace, none⟩
  | some (.error e, _) => ⟨c.trace, some (.error e)⟩
  | some (.ok n, out) =>
    if 0 ≤ n ∧ n ≤ 256 then ⟨c.trace, some (.ok (out.take n.toNat))⟩ else ⟨c.trace, none⟩

/-- The method `usbHandle.GetFeatureReport`. -/
def usbHandle.GetFeatureReport (k : Kernel) (hid : usbHandle) (report : Int) :
    Call (Except Nat (List Byte)) :=
  hid.GetReport k (Int.lor ((3 <<< 8 : Nat) : Int) report)

/-- The method `usbHandle.SetReport`; the result is the `error` (`none` is
`nil`). -/
def usbHandle.SetReport (k : Kernel) (hid : usbHandle) (report : Int) (data : List Byte) :
    Call (Option Nat) :=
  let c := hid.ctrl k 0x21 0x09 report hid.dev.info.Interface data 1000
  ⟨c.trace, c.ret.map (fun x =>
    match x.1 with
    | .error e => some e
    | .ok _ => none)⟩

/-- The method `usbHandle.SetFeatureReport`. -/
def usbHandle.SetFeatureReport (k : Kernel) (hid : usbHandle) (report : Int)
    (data : List Byte) : Call (Option Nat) :=
  hid.SetReport k (Int.lor ((3 <<< 8 : Nat) : Int) report) data

/-- The method `usbHandle.SetOutputReport`. -/
def usbHandle.SetOutputReport (k : Kernel) (hid : usbHandle) (report : Int)
    (data : List Byte) : Call (Option Nat) :=
  hid.SetReport k (Int.lor ((2 <<< 8 : Nat) : Int) report) data

/-- Modelled from the spec: the request code `USBDEVFS_CLAIM`, whose
declaration is missing from the sources (`USBDEVFS_CLAIMINTERFACE` of Linux,
argument a 32-bit interface number). -/
def USBDEVFS_CLAIM : Nat := 0x8004550f

/-- Modelled from the spec: the request code `USBDEVFS_RELEASE`, whose
declaration is missing from the sources (`USBDEVFS_RELEASEINTERFACE` of Linux,
argument a 32-bit interface number). -/
def USBDEVFS_RELEASE : Nat := 0x80045510

/-- Modelled from the spec: the ioctl code `USBDEVFS_DISCONNECT`, whose
declaration is missing from the sources. -/
def USBDEVFS_DISCONNECT : Nat := 0x5516

/-- Modelled from the spec: the ioctl code `USBDEVFS_CONNECT`, whose
declaration is missing from the sources. -/
def USBDEVFS_CONNECT : Nat := 0x5517

/-- The method `usbHandle.release`. The interface number is
`uint32(hid.dev.info.Interface)`; a failed RELEASE returns its errno at once,
a failed CONNECT is only logged. The result is the `error` (`none` is `nil`). -/
def usbHandle.release (k : Kernel) (hid : usbHandle) : Call (Option Nat) :=
  let ifno := toUint 32 hid.dev.info.Interface
  let (call1, reply1) := hid.ioctl k USBDEVFS_RELEASE (.ifno ifno)
  if reply1.r = -1 then ⟨[call1], some (some reply1.errno)⟩
  else
    let (call2, _) := hid.ioctl k USBDEVFS_IOCTL
      (.ioctl { Interface := ifno, IoctlCode := USBDEVFS_CONNECT, Data := 0 })
    ⟨[call1, call2], some none⟩

/-- What a handle does to the outside: an ioctl, or closing its file. -/
inductive Event where
  | ioctl (c : Syscall)
  | closeFile (fd : Nat)
deriving DecidableEq, Repr

/-- What a call of `Close` is observed to do: the handle it leaves, the
events it caused, in order, and the `error` it returns (`none` is `nil`). -/
structure CloseResult where
  hid : usbHandle
  trace : List Event
  err : Option Nat
deriving DecidableEq, Repr

/-- The method `usbHandle.Close`: the results of `release` and of
`hid.f.Close()` are dropped. -/
def usbHandle.Close (k : Kernel) (hid : usbHandle) : CloseResult :=
  match hid.f with
  | some fd =>
    let c := hid.release k
    ⟨{ hid with f := none }, c.trace.map Event.ioctl ++ [Event.closeFile fd], none⟩
  | none => ⟨hid, [], none⟩

/-- The method `usbHandle.Ctrl`. -/
def usbHandle.Ctrl (k : Kernel) (hid : usbHandle) (rtype req val index : Int)
    (data : List Byte) (t : Int) : Call (Except Nat Int × List Byte) :=
  hid.ctrl k rtype req val index data t

/-- The method `usbHandle.Read`; `timeout` is a `time.Duration` in
nanoseconds. The second component is `data` after the call. -/
def usbHandle.Read (k : Kernel) (hid : usbHandle) (data : List Byte) (timeout : Int) :
    Call (Except Nat Int × List Byte) :=
  let ms := timeout.tdiv (1 * Millisecond)
  hid.intr k hid.dev.epIn data ms

/-- The method `usbHandle.ReadInputPacket`: a buffer of `inputPacketSize`
zero bytes is read into and cut to `buf[:n]`; a cut beyond the buffer
panics. -/
def usbHandle.ReadInputPacket (k : Kernel) (hid : usbHandle) (timeout : Int) :
    Call (Except Nat (List Byte)) :=
  let buf : List Byte := List.replicate hid.dev.inputPacketSize 0
  let c := hid.Read k buf timeout
  match c.ret with
  | none => ⟨c.trace, none⟩
  | some (.error e, _) => ⟨c.trace, some (.error e)⟩
  | some (.ok n, out) =>
    if 0 ≤ n ∧ n ≤ (hid.dev.inputPacketSize : Int) then
      ⟨c.trace, some (.ok (out.take n.toNat))⟩
    else ⟨c.trace, none⟩

/-! ## Descriptors as values: building blobs -/

/-- The byte `uint8(n)`. -/
def byteOf (n : Nat) : Byte := ⟨n % 256, Nat.mod_lt _ (by decide)⟩

/-- The 18 bytes `binary.Write(LittleEndian)` produces for a `deviceDesc`. -/
def deviceDesc.encode (d : deviceDesc) : List Byte :=
  [byteOf d.Length, byteOf d.DescriptorType, byteOf d.USB, byteOf (d.USB / 256),
   byteOf d.DeviceClass, byteOf d.DeviceSubClass, byteOf d.DeviceProtocol,
   byteOf d.MaxPacketSize, byteOf d.Vendor, byteOf (d.Vendor / 256),
   byteOf d.Product, byteOf (d.Product / 256), byteOf d.Revision,
   byteOf (d.Revision / 256), byteOf d.ManufacturerIndex, byteOf d.ProductIndex,
   byteOf d.SerialIndex, byteOf d.NumConfigurations]

/-- The 9 bytes `binary.Write(LittleEndian)` produces for an `interfaceDesc`. -/
def interfaceDesc.encode (i : interfaceDesc) : List Byte :=
  [byteOf i.Length, byteOf i.DescriptorType, byteOf i.Number, byteOf i.AltSetting,
   byteOf i.NumEndpoints, byteOf i.InterfaceClass, byteOf i.InterfaceSubClass,
   byteOf i.InterfaceProtocol, byteOf i.InterfaceIndex]

/-- The 7 bytes `binary.Write(LittleEndian)` produces for an `endpointDesc`. -/
def endpointDesc.encode (e : endpointDesc) : List Byte :=
  [byteOf e.Length, byteOf e.DescriptorType, byteOf e.Address, byteOf e.Attributes,
   byteOf e.MaxPacketSize, byteOf (e.MaxPacketSize / 256), byteOf e.Interval]

/-- A well-framed descriptor of type `ty`: at least two bytes, the first its
own byte count, the second the type. -/
def Framed (ty : Nat) (d : List Byte) : Prop :=
  2 ≤ d.length ∧ (byteAt d 0).val = d.length ∧ (byteAt d 1).val = ty

instance (ty : Nat) (d : List Byte) : Decidable (Framed ty d) := by
  unfold Framed; infer_instance

/-- A standard DEVICE descriptor: 18 bytes, type DEVICE, 16-bit ids. -/
def deviceDesc.Std (d : deviceDesc) : Prop :=
  d.Length = 18 ∧ d.DescriptorType = UsbDescTypeDevice ∧
    d.Vendor < 65536 ∧ d.Product < 65536 ∧ d.Revision < 65536

instance (d : deviceDesc) : Decidable d.Std := by
  unfold deviceDesc.Std; infer_instance

/-- A standard INTERFACE descriptor: 9 bytes, type INTERFACE, 8-bit fields. -/
def interfaceDesc.Std (i : interfaceDesc) : Prop :=
  i.Length = 9 ∧ i.DescriptorType = UsbDescTypeInterface ∧ i.Number < 256 ∧
    i.InterfaceClass < 256 ∧ i.InterfaceSubClass < 256 ∧ i.InterfaceProtocol < 256

instance (i : interfaceDesc) : Decidable i.Std := by
  unfold interfaceDesc.Std; infer_instance

/-- A standard ENDPOINT descriptor: 7 bytes, type ENDPOINT, 8-bit address,
16-bit maximum packet size. -/
def endpointDesc.Std (e : endpointDesc) : Prop :=
  e.Length = 7 ∧ e.DescriptorType = UsbDescTypeEndpoint ∧ e.Address < 256 ∧
    e.MaxPacketSize < 65536

instance (e : endpointDesc) : Decidable e.Std := by
  unfold endpointDesc.Std; infer_instance

/-- Processing a list of bodies one after the other with `walkBody`, stopping
at the first error: the loop of `walker` seen on descriptors. -/
def runDescs (path : String) : List (List Byte) → WalkState → Option WalkError × WalkState
  | [], st => (none, st)
  | d :: ds, st =>
    match walkBody path st d with
    | (some e, st1) => (some e, st1)
    | (none, st1) => runDescs path ds st1

/-- The candidate built by the HID branch of the INTERFACE case from the
remembered device descriptor and the interface descriptor. -/
def newDevice (path : String) (dd : deviceDesc) (i : interfaceDesc) : usbDevice where
  info := {
    Vendor := dd.Vendor
    Product := dd.Product
    Revision := dd.Revision
    SubClass := i.InterfaceSubClass
    Protocol := i.InterfaceProtocol
    Interface := i.Number
    Bus := (busDev path).1
    Device := (busDev path).2 }
  epIn := 0
  epOut := 0
  inputPacketSize := 0
  outputPacketSize := 0
  path := path

/-- The reset `device.epIn = 0; device.epOut = 0` done by the ENDPOINT case
when both endpoints are set. -/
def epReset (d0 : usbDevice) : usbDevice :=
  if d0.epIn ≠ 0 ∧ d0.epOut ≠ 0 then { d0 with epIn := 0, epOut := 0 } else d0

/-- The two guarded assignments of the ENDPOINT case. -/
def epApply (d1 : usbDevice) (e : endpointDesc) : usbDevice :=
  if e.Address > 0x80 ∧ d1.epIn = 0 then
    { d1 with epIn := e.Address, inputPacketSize := e.MaxPacketSize }
  else if e.Address < 0x80 ∧ d1.epOut = 0 then
    { d1 with epOut := e.Address, outputPacketSize := e.MaxPacketSize }
  else d1

/-- The first `n` descriptors of a blob, cut where the length bytes say; the
list stops early at the end of the blob and at a length byte that is below 2
or exceeds the bytes left. -/
def frames : Nat → List Byte → List (List Byte)
  | 0, _ => []
  | _ + 1, [] => []
  | n + 1, length :: t =>
    let body := (length :: t).take length.val
    if body.length ≠ length.val ∨ length.val < 2 then []
    else body :: frames n ((length :: t).drop length.val)

/-- All the descriptors of a blob (a descriptor has at least two bytes). -/
def descriptors (blob : List Byte) : List (List Byte) := frames blob.length blob

/-- The blob has a framing error at a descriptor boundary: after some
well-framed descriptors comes a length byte that is below 2 or larger than the
number of bytes remaining (itself included). -/
def BadFraming (blob : List Byte) : Prop :=
  ∃ (ds : List (List Byte)) (l : Byte) (t : List Byte),
    (∀ d ∈ ds, 2 ≤ d.length ∧ (byteAt d 0).val = d.length) ∧
    blob = ds.flatten ++ l :: t ∧ (l.val < 2 ∨ (l :: t).length < l.val)

/-- The calls to `cb` made by the ENDPOINT case before it reads the endpoint. -/
def epEmit (st : WalkState) (d0 : usbDevice) : List usbDevice :=
  if d0.epIn ≠ 0 ∧ d0.epOut ≠ 0 then st.emitted ++ [d0] else st.emitted

/-- What the endpoint fields of a candidate can hold. -/
def EpOk (c : usbDevice) : Prop :=
  (c.epIn = 0 ∨ (0x80 < c.epIn ∧ c.epIn < 256)) ∧ c.epOut < 0x80

/-- Loop invariant: the emitted candidates and the pending one have endpoint
fields in range. -/
def EpInv (st : WalkState) : Prop :=
  (∀ c ∈ st.emitted, EpOk c) ∧ ∀ c, st.device = some c → EpOk c

/-! ## Where the fields of a candidate come from -/

/-- The first descriptor of type DEVICE in a list of descriptors. -/
def firstDevice (ds : List (List Byte)) : Option (List Byte) :=
  ds.find? (fun d => decide ((byteAt d 1).val = UsbDescTypeDevice))

/-- The most recent descriptor of type INTERFACE and class HID in a list of
descriptors given in stream order. -/
def lastHidInterface (ds : List (List Byte)) : Option (List Byte) :=
  ds.reverse.find? (fun d =>
    decide ((byteAt d 1).val = UsbDescTypeInterface ∧ (byteAt d 5).val = UsbHidClass))

/-- The candidate `c` is handed to the sink right after the first `n`
descriptors of the blob have been processed without error: either by the
iteration that follows them, or, when they end the stream, by the call after
the loop. -/
def EmittedAfter (path : String) (blob : List Byte) (n : Nat) (c : usbDevice) : Prop :=
  (walkLoop path n blob walkInit).1 = none ∧
  ((∃ l, (walkLoop path (n + 1) blob walkInit).2.2.emitted =
        (walkLoop path n blob walkInit).2.2.emitted ++ l ∧ c ∈ l) ∨
    ((walkLoop path n blob walkInit).2.1 = [] ∧
      (walkLoop path n blob walkInit).2.2.device = some c))

/-- The fields of `Info` that `walker` takes from the descriptors. -/
def InfoFrom (c : usbDevice) (dd : deviceDesc) (i : interfaceDesc) : Prop :=
  c.info.Vendor = dd.Vendor ∧ c.info.Product = dd.Product ∧ c.info.Revision = dd.Revision ∧
    c.info.SubClass = i.InterfaceSubClass ∧ c.info.Protocol = i.InterfaceProtocol ∧
    c.info.Interface = i.Number

/-- Loop invariant relating the state to the descriptors `pre` processed so
far: the accept map tells whether a DEVICE descriptor was seen, `devDesc` is
the first one, and a pending candidate stems from the last HID interface. -/
def InfoInv (pre : List (List Byte)) (st : WalkState) : Prop :=
  (st.expected UsbDescTypeDevice = true →
    (∀ d ∈ pre, (byteAt d 1).val ≠ UsbDescTypeDevice) ∧
      st.expected UsbDescTypeConfig = false ∧ st.expected UsbDescTypeInterface = false) ∧
  (st.expected UsbDescTypeDevice = false →
    ∃ dev, firstDevice pre = some dev ∧ castDevice dev = some st.devDesc) ∧
  (st.expected UsbDescTypeInterface = false → st.device = none) ∧
  (∀ c, st.device = some c →
    ∃ ifc i, lastHidInterface pre = some ifc ∧ castInterface ifc = some i ∧
      InfoFrom c st.devDesc i)

/-! ## Endpoints of a candidate -/

/-- The first endpoint descriptor of a list whose address is above 0x80. -/
def firstIn (es : List endpointDesc) : Option endpointDesc :=
  es.find? (fun e => decide (0x80 < e.Address))

/-- The first endpoint descriptor of a list whose address is in 0x01..0x7F. -/
def firstOut (es : List endpointDesc) : Option endpointDesc :=
  es.find? (fun e => decide (0 < e.Address ∧ e.Address < 0x80))

/-- The number of endpoint fields of a candidate that are still unset. -/
def freeSlots (d : usbDevice) : Nat :=
  (if d.epIn = 0 then 1 else 0) + (if d.epOut = 0 then 1 else 0)

/-- How the endpoint fields of `d1` follow from those of `d` and the endpoint
descriptors `es` processed in between without a call of the sink: a field
that was set is kept, an unset one is taken from the first matching endpoint. -/
def Populated (d : usbDevice) (es : List endpointDesc) (d1 : usbDevice) : Prop :=
  d1.epIn = (if d.epIn ≠ 0 then d.epIn else ((firstIn es).map (·.Address)).getD 0) ∧
  d1.inputPacketSize = (if d.epIn ≠ 0 then d.inputPacketSize
    else ((firstIn es).map (·.MaxPacketSize)).getD d.inputPacketSize) ∧
  d1.epOut = (if d.epOut ≠ 0 then d.epOut else ((firstOut es).map (·.Address)).getD 0) ∧
  (d.epOut ≠ 0 → d1.outputPacketSize = d.outputPacketSize) ∧
  (d.epOut = 0 → ∀ e, firstOut es = some e → d1.outputPacketSize = e.MaxPacketSize)

/-- The last endpoint descriptor of a list whose address is 0x00. -/
def lastZero (es : List endpointDesc) : Option endpointDesc :=
  (es.filter (fun e => decide (e.Address = 0))).getLast?

/-- The descriptors of one interface: its INTERFACE descriptor, then its
ENDPOINT descriptors. -/
def groupDescs (g : interfaceDesc × List endpointDesc) : List (List Byte) :=
  g.1.encode :: g.2.map endpointDesc.encode

/-- The candidate `c` carries the interface `g.1` of the device `dd` and the
endpoints `g.2` that follow it: the first one above 0x80 as IN, the first one
in 0x01..0x7F as OUT, each with its maximum packet size. -/
def Carries (path : String) (dd : deviceDesc) (g : interfaceDesc × List endpointDesc)
    (c : usbDevice) : Prop :=
  c.info = (newDevice path dd g.1).info ∧ c.path = path ∧
  (match firstIn g.2 with
    | some e => c.epIn = e.Address ∧ c.inputPacketSize = e.MaxPacketSize
    | none => c.epIn = 0 ∧ c.inputPacketSize = 0) ∧
  (match firstOut g.2 with
    | some e => c.epOut = e.Address ∧ c.outputPacketSize = e.MaxPacketSize
    | none => c.epOut = 0)

/-- A kernel that accepts every request and leaves the buffer as it is. -/
def scenKernel : Kernel := fun c =>
  match c.arg with
  | .ctrl a => ⟨a.Len, 0, a.Data⟩
  | .bulk a => ⟨a.Len, 0, a.Data⟩
  | _ => ⟨0, 0, []⟩

/-- A claimed handle (file descriptor 3) on interface 0 with IN endpoint 0x81
and the given OUT endpoint. -/
def scenHandle (epOut : Nat) : usbHandle where
  dev := {
    info := ⟨0x1234, 0x5678, 0x0100, 1, 2, 0, 6, 3⟩
    epIn := 0x81
    epOut := epOut
    inputPacketSize := 64
    outputPacketSize := 32
    path := "/dev/bus/usb/006/003" }
  f := some 3

/-- The accept map after a DEVICE and a CONFIGURATION descriptor. -/
def headExpected : Nat → Bool :=
  setExpected (setExpected (setExpected (setExpected (setExpected walkInit.expected
    UsbDescTypeDevice false) UsbDescTypeConfig true) UsbDescTypeInterface true)
    UsbDescTypeReport false) UsbDescTypeEndpoint false

/-- A non-empty run of ASCII digits. -/
def IsDigits (ds : List Char) : Prop := ds ≠ [] ∧ ∀ c ∈ ds, c.isDigit = true

instance (ds : List Char) : Decidable (IsDigits ds) := by
  unfold IsDigits; infer_instance

/-- The literal part of `reDevBusDevice`. -/
def devBusUsbLit : List Char := "/dev/bus/usb/".toList

/-! ## Concrete descriptors (Scenarios A to D of the specification) -/

/-- The DEVICE descriptor of Scenario A: vendor 0x1234, product 0x5678,
revision 0x0100. -/
def scenDevice : deviceDesc :=
  ⟨18, 1, 0x0200, 0, 0, 0, 64, 0x1234, 0x5678, 0x0100, 1, 2, 3, 1⟩

/-- A CONFIGURATION descriptor (9 bytes). -/
def scenConfig : List Byte := [9, 2, 34, 0, 1, 1, 0, 0x80, 50]

/-- An INTERFACE descriptor with the given number and class, subclass 1,
protocol 2. -/
def scenInterface (number cls : Nat) : interfaceDesc :=
  ⟨9, 4, number, 0, 2, cls, 1, 2, 0⟩

/-- An interrupt ENDPOINT descriptor with the given address and maximum
packet size. -/
def scenEndpoint (address size : Nat) : endpointDesc :=
  ⟨7, 5, address, 3, size, 10⟩

/-- The blob of Scenario A: interface 0 of class HID with IN 0x81 (64 bytes)
and OUT 0x02 (32 bytes). -/
def scenA : List Byte :=
  scenDevice.encode ++ scenConfig ++ (scenInterface 0 3).encode ++
    (scenEndpoint 0x81 64).encode ++ (scenEndpoint 0x02 32).encode

/-- The candidate expected in Scenario A. -/
def scenCandidate : usbDevice where
  info := ⟨0x1234, 0x5678, 0x0100, 1, 2, 0, 6, 3⟩
  epIn := 0x81
  epOut := 0x02
  inputPacketSize := 64
  outputPacketSize := 32
  path := "/dev/bus/usb/006/003"

/-- The blob of Scenario C: one interface of class 8 followed by two
endpoints. -/
def scenC : List Byte :=
  scenDevice.encode ++ scenConfig ++ (scenInterface 0 8).encode ++
    (scenEndpoint 0x81 64).encode ++ (scenEndpoint 0x02 32).encode

/-- A loop state with a fresh pending candidate, as left by the INTERFACE
descriptor of Scenario A. -/
def scenPending : WalkState where
  expected := fun x => decide (x = UsbDescTypeConfig ∨ x = UsbDescTypeInterface ∨
    x = UsbDescTypeEndpoint ∨ x = UsbDescTypeReport)
  devDesc := scenDevice
  device := some (newDevice "/dev/bus/usb/006/003" scenDevice (scenInterface 0 3))
  emitted := []

/-- Whether an event is a `USBDEVFS_RELEASE` ioctl. -/
def Event.isRelease : Event → Bool
  | .ioctl c => decide (c.n = USBDEVFS_RELEASE)
  | .closeFile _ => false

/-- The RELEASE ioctl of a handle whose file descriptor is `fd`. -/
def releaseCall (hid : usbHandle) (fd : Nat) : Syscall :=
  ⟨some fd, USBDEVFS_RELEASE, .ifno (hid.dev.info.Interface % 2 ^ 32)⟩

/-- The CONNECT (driver reattach) ioctl of a handle whose file descriptor is
`fd`. -/
def connectCall (hid : usbHandle) (fd : Nat) : Syscall :=
  ⟨some fd, USBDEVFS_IOCTL, .ioctl {
    Interface := hid.dev.info.Interface % 2 ^ 32
    IoctlCode := USBDEVFS_CONNECT
    Data := 0 }⟩

/-- A kernel that rejects every request with errno 19 (`ENODEV`). -/
def scenDeadKernel : Kernel := fun _ => ⟨-1, 19, []⟩

/-- The blob of Scenario A followed by a two-byte descriptor of type
INTERFACE, too short to be decoded. -/
def scenShortInterface : List Byte := scenA ++ [2, 4]

/-- The blob of Scenario A followed by a second HID INTERFACE descriptor and
then by a malformed descriptor (length byte 1). -/
def scenMalformed : List Byte := scenA ++ (scenInterface 1 3).encode ++ [1]

/-! # Theorems -/

theorem walkLoop_nil (path : String) (fuel : Nat) (st : WalkState) :
    walkLoop path fuel [] st = (none, [], st) := by
  cases fuel <;> rfl

/-- A framed descriptor in front of the buffer is read whole and handed to
`walkBody`. -/
theorem walkLoop_framed (path : String) (fuel : Nat) (d rest : List Byte) (st : WalkState)
    (h2 : 2 ≤ d.length) (h0 : (byteAt d 0).val = d.length) :
    walkLoop path (fuel + 1) (d ++ rest) st =
      match walkBody path st d with
      | (some e, st1) => (some e, rest, st1)
      | (none, st1) => walkLoop path fuel rest st1 := by
  cases d with
  | nil => simp at h2
  | cons l t =>
    have hl : l.val = (l :: t).length := by simpa [byteAt] using h0
    have htake : List.take l.val (l :: (t ++ rest)) = l :: t := by
      rw [hl, ← List.cons_append, List.take_left']
      rfl
    have hdrop : List.drop l.val (l :: (t ++ rest)) = rest := by
      rw [hl, ← List.cons_append, List.drop_left']
      rfl
    simp only [List.cons_append, walkLoop, List.append_eq, htake, hdrop]
    have : ¬ ((l :: t).length ≠ l.val ∨ l.val < 2) := by
      rw [hl]; simp; simpa using h2
    rw [if_neg this]

/-- The loop on a concatenation of framed descriptors is `runDescs`. -/
theorem walkLoop_join (path : String) (ds : List (List Byte)) :
    ∀ (fuel : Nat) (st : WalkState),
      (∀ d ∈ ds, 2 ≤ d.length ∧ (byteAt d 0).val = d.length) → ds.length ≤ fuel →
      (walkLoop path fuel ds.flatten st).1 = (runDescs path ds st).1 ∧
      (walkLoop path fuel ds.flatten st).2.2 = (runDescs path ds st).2 ∧
      ((runDescs path ds st).1 = none → (walkLoop path fuel ds.flatten st).2.1 = []) := by
  induction ds with
  | nil => intro fuel st _ _; simp [walkLoop_nil, runDescs]
  | cons d ds ih =>
    intro fuel st hfr hfuel
    cases fuel with
    | zero => simp at hfuel
    | succ fuel =>
      have hd := hfr d (List.mem_cons_self _ _)
      rw [List.flatten_cons, walkLoop_framed path fuel d _ st hd.1 hd.2]
      simp only [runDescs]
      rcases hb : walkBody path st d with ⟨e, st1⟩
      cases e with
      | some e => simp
      | none =>
        simp only
        exact ih fuel st1 (fun x hx => hfr x (List.mem_cons_of_mem _ hx))
          (by simpa using hfuel)

theorem length_le_flatten (ds : List (List Byte)) (h : ∀ d ∈ ds, 2 ≤ d.length) :
    ds.length ≤ ds.flatten.length := by
  induction ds with
  | nil => simp
  | cons d ds ih =>
    have h1 := h d (List.mem_cons_self _ _)
    have h2 := ih (fun x hx => h x (List.mem_cons_of_mem _ hx))
    simp only [List.flatten_cons, List.length_append, List.length_cons]
    omega

/-- The result of `walker` on a concatenation of framed descriptors, read off
`runDescs`. -/
theorem walker_flatten (path : String) (ds : List (List Byte))
    (hfr : ∀ d ∈ ds, 2 ≤ d.length ∧ (byteAt d 0).val = d.length) :
    walker path (.ok ds.flatten) =
      match runDescs path ds walkInit with
      | (some e, st) => ⟨some e, st.emitted⟩
      | (none, st) => ⟨none, (flushDevice st).emitted⟩ := by
  have hlen := length_le_flatten ds (fun d hd => (hfr d hd).1)
  obtain ⟨h1, h2, h3⟩ := walkLoop_join path ds ds.flatten.length walkInit hfr hlen
  rcases hw : walkLoop path ds.flatten.length ds.flatten walkInit with ⟨e, r, st⟩
  rcases hr : runDescs path ds walkInit with ⟨e', st'⟩
  rw [hw, hr] at h1 h2
  rw [hw, hr] at h3
  simp only at h1 h2 h3
  subst h1 h2
  cases e with
  | some e => simp only [walker, hw]
  | none =>
    have := h3 rfl
    subst this
    simp only [walker, hw]

theorem byteOf_val (n : Nat) : (byteOf n).val = n % 256 := rfl

theorem le16_byteOf (n : Nat) (h : n < 65536) : le16 (byteOf n) (byteOf (n / 256)) = n := by
  simp only [le16, byteOf_val]
  omega

theorem castDevice_encode (d : deviceDesc) (h : d.Std) :
    ∃ d1, castDevice d.encode = some d1 ∧ d1.Vendor = d.Vendor ∧
      d1.Product = d.Product ∧ d1.Revision = d.Revision := by
  obtain ⟨_, _, hv, hp, hr⟩ := h
  refine ⟨_, rfl, ?_, ?_, ?_⟩
  · exact le16_byteOf _ hv
  · exact le16_byteOf _ hp
  · exact le16_byteOf _ hr

theorem castInterface_encode (i : interfaceDesc) (h : i.Std) :
    ∃ i1, castInterface i.encode = some i1 ∧ i1.Number = i.Number ∧
      i1.InterfaceClass = i.InterfaceClass ∧ i1.InterfaceSubClass = i.InterfaceSubClass ∧
      i1.InterfaceProtocol = i.InterfaceProtocol := by
  obtain ⟨_, _, hn, hc, hs, hp⟩ := h
  refine ⟨_, rfl, ?_, ?_, ?_, ?_⟩
  · exact Nat.mod_eq_of_lt hn
  · exact Nat.mod_eq_of_lt hc
  · exact Nat.mod_eq_of_lt hs
  · exact Nat.mod_eq_of_lt hp

theorem castEndpoint_encode (e : endpointDesc) (h : e.Std) :
    ∃ e1, castEndpoint e.encode = some e1 ∧ e1.Address = e.Address ∧
      e1.MaxPacketSize = e.MaxPacketSize := by
  obtain ⟨_, _, ha, hm⟩ := h
  refine ⟨_, rfl, ?_, ?_⟩
  · exact Nat.mod_eq_of_lt ha
  · exact le16_byteOf _ hm

theorem framed_device (d : deviceDesc) (h : d.Std) : Framed UsbDescTypeDevice d.encode := by
  obtain ⟨h0, h1, _⟩ := h
  refine ⟨by simp [deviceDesc.encode], ?_, ?_⟩
  · show d.Length % 256 = 18
    rw [h0]
  · show d.DescriptorType % 256 = _
    rw [h1]; rfl

theorem framed_interface (i : interfaceDesc) (h : i.Std) :
    Framed UsbDescTypeInterface i.encode := by
  obtain ⟨h0, h1, _⟩ := h
  refine ⟨by simp [interfaceDesc.encode], ?_, ?_⟩
  · show i.Length % 256 = 9
    rw [h0]
  · show i.DescriptorType % 256 = _
    rw [h1]; rfl

theorem framed_endpoint (e : endpointDesc) (h : e.Std) :
    Framed UsbDescTypeEndpoint e.encode := by
  obtain ⟨h0, h1, _⟩ := h
  refine ⟨by simp [endpointDesc.encode], ?_, ?_⟩
  · show e.Length % 256 = 7
    rw [h0]
  · show e.DescriptorType % 256 = _
    rw [h1]; rfl

theorem walkBody_device (path : String) (st : WalkState) (d : List Byte) (dd : deviceDesc)
    (hx : st.expected UsbDescTypeDevice = true) (hty : (byteAt d 1).val = UsbDescTypeDevice)
    (hc : castDevice d = some dd) :
    walkBody path st d = (none, { st with
      expected := setExpected (setExpected st.expected UsbDescTypeDevice false)
        UsbDescTypeConfig true
      devDesc := dd }) := by
  simp [walkBody, walkSwitch, hty, hx, hc]

theorem walkBody_config (path : String) (st : WalkState) (d : List Byte)
    (hx : st.expected UsbDescTypeConfig = true) (hty : (byteAt d 1).val = UsbDescTypeConfig) :
    walkBody path st d = (none, flushDevice { st with
      expected := setExpected (setExpected (setExpected st.expected
        UsbDescTypeInterface true) UsbDescTypeReport false) UsbDescTypeEndpoint false }) := by
  simp only [walkBody, hty, hx]
  simp [walkSwitch, hty, UsbDescTypeConfig, UsbDescTypeDevice]

theorem walkBody_interface (path : String) (st : WalkState) (d : List Byte) (i : interfaceDesc)
    (hx : st.expected UsbDescTypeInterface = true)
    (hty : (byteAt d 1).val = UsbDescTypeInterface) (hc : castInterface d = some i) :
    walkBody path st d = (none, {
      expected := setExpected (setExpected st.expected UsbDescTypeEndpoint true)
        UsbDescTypeReport true
      devDesc := st.devDesc
      device := if i.InterfaceClass = UsbHidClass then some (newDevice path st.devDesc i)
        else none
      emitted := (flushDevice st).emitted }) := by
  have h1 : (flushDevice st).expected = st.expected := by
    unfold flushDevice; cases st.device <;> rfl
  have h2 : (flushDevice st).devDesc = st.devDesc := by
    unfold flushDevice; cases st.device <;> rfl
  have h3 : (flushDevice st).device = none := by
    unfold flushDevice; cases h : st.device <;> simp [h]
  simp only [walkBody, walkSwitch, hty, hx, hc, h1, h2, h3]
  simp [UsbDescTypeInterface, UsbDescTypeConfig, UsbDescTypeDevice, newDevice]
  split <;> simp [*]

theorem walkBody_endpoint (path : String) (st : WalkState) (d : List Byte) (e : endpointDesc)
    (d0 : usbDevice) (hx : st.expected UsbDescTypeEndpoint = true)
    (hty : (byteAt d 1).val = UsbDescTypeEndpoint) (hc : castEndpoint d = some e)
    (hdev : st.device = some d0) :
    walkBody path st d = (none, { st with
      device := some (epApply (epReset d0) e)
      emitted := if d0.epIn ≠ 0 ∧ d0.epOut ≠ 0 then st.emitted ++ [d0] else st.emitted }) := by
  simp only [walkBody, hty, hx]
  simp [walkSwitch, hty, hc, hdev, UsbDescTypeEndpoint, UsbDescTypeInterface,
    UsbDescTypeConfig, UsbDescTypeDevice, epApply, epReset]

/-- C1 (Scenario A, generalised): on a blob made of a standard DEVICE
descriptor, any well-framed CONFIGURATION descriptor, a standard INTERFACE
descriptor of class HID, an ENDPOINT with address above 0x80 and an ENDPOINT
with address strictly between 0 and 0x80, `walker` returns no error and calls
the sink exactly once, with the candidate that carries the device ids, the
interface number, subclass and protocol, both endpoint addresses and both
maximum packet sizes; for the path `/dev/bus/usb/006/003` its bus is 6 and its
device is 3. -/
theorem walker_single_hid_interface (path : String) (dd : deviceDesc) (cfg : List Byte)
    (i : interfaceDesc) (eIn eOut : endpointDesc)
    (hdd : dd.Std) (hcfg : Framed UsbDescTypeConfig cfg) (hi : i.Std)
    (hcls : i.InterfaceClass = UsbHidClass) (hIn : eIn.Std) (hOut : eOut.Std)
    (haIn : 0x80 < eIn.Address) (haOut : 0 < eOut.Address ∧ eOut.Address < 0x80) :
    walker path (.ok (dd.encode ++ cfg ++ i.encode ++ eIn.encode ++ eOut.encode)) =
      { err := none
        emitted := [{
          info := {
            Vendor := dd.Vendor
            Product := dd.Product
            Revision := dd.Revision
            SubClass := i.InterfaceSubClass
            Protocol := i.InterfaceProtocol
            Interface := i.Number
            Bus := (busDev path).1
            Device := (busDev path).2 }
          epIn := eIn.Address
          inputPacketSize := eIn.MaxPacketSize
          epOut := eOut.Address
          outputPacketSize := eOut.MaxPacketSize
          path := path }] } ∧
    (walker "/dev/bus/usb/006/003" (.ok (dd.encode ++ cfg ++ i.encode ++ eIn.encode ++
      eOut.encode))).emitted.map (fun c => (c.info.Bus, c.info.Device)) = [(6, 3)] := by
  have main : ∀ path : String,
      walker path (.ok (dd.encode ++ cfg ++ i.encode ++ eIn.encode ++ eOut.encode)) =
      { err := none
        emitted := [{
          info := {
            Vendor := dd.Vendor
            Product := dd.Product
            Revision := dd.Revision
            SubClass := i.InterfaceSubClass
            Protocol := i.InterfaceProtocol
            Interface := i.Number
            Bus := (busDev path).1
            Device := (busDev path).2 }
          epIn := eIn.Address
          inputPacketSize := eIn.MaxPacketSize
          epOut := eOut.Address
          outputPacketSize := eOut.MaxPacketSize
          path := path }] } := ?_
  · refine ⟨main path, ?_⟩
    rw [main]
    have hb : busDev "/dev/bus/usb/006/003" = (6, 3) := by decide
    simp [hb]
  intro path
  have hblob : dd.encode ++ cfg ++ i.encode ++ eIn.encode ++ eOut.encode =
      [dd.encode, cfg, i.encode, eIn.encode, eOut.encode].flatten := by simp
  have fd := framed_device dd hdd
  have fi := framed_interface i hi
  have f1 := framed_endpoint eIn hIn
  have f2 := framed_endpoint eOut hOut
  obtain ⟨dd1, hcd, hv, hp, hr⟩ := castDevice_encode dd hdd
  obtain ⟨i1, hci, hn, hc, hs, hq⟩ := castInterface_encode i hi
  obtain ⟨e1, hce1, ha1, hm1⟩ := castEndpoint_encode eIn hIn
  obtain ⟨e2, hce2, ha2, hm2⟩ := castEndpoint_encode eOut hOut
  rw [hblob, walker_flatten]
  · simp only [runDescs]
    rw [walkBody_device path _ _ dd1 rfl fd.2.2 hcd]
    simp only
    rw [walkBody_config path _ _ rfl hcfg.2.2]
    simp only [flushDevice, walkInit]
    rw [walkBody_interface path _ _ i1 rfl fi.2.2 hci]
    simp only [hc, hcls, if_true, flushDevice]
    rw [walkBody_endpoint path _ _ e1 _ rfl f1.2.2 hce1 rfl]
    simp only
    rw [walkBody_endpoint path _ _ e2 _ rfl f2.2.2 hce2 rfl]
    have hz : eOut.Address ≠ 0 := by omega
    have hnot : ¬ (128 < eOut.Address) := by omega
    simp [newDevice, epApply, epReset, flushDevice, haIn, haOut.2, hv, hp, hr, hn, hs, hq,
      ha1, hm1, ha2, hm2, hz, hnot]
  · intro d hd
    simp only [List.mem_cons, List.mem_singleton, List.not_mem_nil, or_false] at hd
    rcases hd with rfl | rfl | rfl | rfl | rfl
    · exact ⟨fd.1, fd.2.1⟩
    · exact ⟨hcfg.1, hcfg.2.1⟩
    · exact ⟨fi.1, fi.2.1⟩
    · exact ⟨f1.1, f1.2.1⟩
    · exact ⟨f2.1, f2.2.1⟩

/-- The state in which the loop stops is the one `runDescs` reaches on the
descriptors the loop has read. -/
theorem walkLoop_state (path : String) :
    ∀ (n : Nat) (r : List Byte) (st : WalkState),
      (walkLoop path n r st).2.2 = (runDescs path (frames n r) st).2 := by
  intro n
  induction n with
  | zero => intro r st; rfl
  | succ n ih =>
    intro r st
    cases r with
    | nil => rfl
    | cons l t =>
      simp only [walkLoop, frames]
      split
      · rfl
      · simp only [runDescs]
        rcases hb : walkBody path st (List.take l.val (l :: t)) with ⟨e, st1⟩
        cases e with
        | some e => rfl
        | none => exact ih _ st1

/-- A property of the loop state kept by every call of `walkBody` holds after
any run of `runDescs`. -/
theorem runDescs_inv (path : String) (P : WalkState → Prop)
    (hstep : ∀ st body, P st → P (walkBody path st body).2) :
    ∀ (ds : List (List Byte)) (st : WalkState), P st → P (runDescs path ds st).2 := by
  intro ds
  induction ds with
  | nil => intro st h; exact h
  | cons d ds ih =>
    intro st h
    have h1 := hstep st d h
    simp only [runDescs]
    rcases hb : walkBody path st d with ⟨e, st1⟩
    rw [hb] at h1
    cases e with
    | some e => exact h1
    | none => exact ih st1 h1

/-- The candidates handed to the sink by `walker` are those recorded in the
final loop state, plus the pending one. -/
theorem walker_emitted_mem (path : String) (blob : List Byte) (c : usbDevice)
    (h : c ∈ (walker path (.ok blob)).emitted) :
    c ∈ (runDescs path (descriptors blob) walkInit).2.emitted ∨
      (runDescs path (descriptors blob) walkInit).2.device = some c := by
  have hs := walkLoop_state path blob.length blob walkInit
  unfold descriptors
  rw [← hs]
  simp only [walker] at h
  rcases hw : walkLoop path blob.length blob walkInit with ⟨e, r, st⟩
  rw [hw] at h
  cases e with
  | some e => exact Or.inl h
  | none =>
    cases r with
    | cons a b => exact Or.inl h
    | nil =>
      simp only [flushDevice] at h
      cases hd : st.device with
      | none => rw [hd] at h; exact Or.inl h
      | some d0 =>
        rw [hd] at h
        simp only [List.mem_append, List.mem_singleton] at h
        rcases h with h | h
        · exact Or.inl h
        · right; simp [h, hd]

theorem castEndpoint_address_lt (b : List Byte) (e : endpointDesc)
    (h : castEndpoint b = some e) : e.Address < 256 := by
  unfold castEndpoint at h
  split at h
  · cases h
  · cases h; exact (byteAt b 2).isLt

theorem flushDevice_device (st : WalkState) : (flushDevice st).device = none := by
  unfold flushDevice; cases hd : st.device <;> simp [hd]

theorem flushDevice_expected (st : WalkState) : (flushDevice st).expected = st.expected := by
  unfold flushDevice; cases st.device <;> rfl

theorem flushDevice_devDesc (st : WalkState) : (flushDevice st).devDesc = st.devDesc := by
  unfold flushDevice; cases st.device <;> rfl

theorem flushDevice_emitted (st : WalkState) :
    (flushDevice st).emitted = st.emitted ++ st.device.toList := by
  unfold flushDevice; cases hd : st.device <;> simp [hd]

/-- The function `walkBody` written out case by case. -/
theorem walkBody_eq (path : String) (st : WalkState) (body : List Byte) :
    walkBody path st body =
      if st.expected (byteAt body 1).val = false then (none, st)
      else if (byteAt body 1).val = UsbDescTypeDevice then
        match castDevice body with
        | none => (some .unexpectedEOF, { st with
            expected := setExpected (setExpected st.expected UsbDescTypeDevice false)
              UsbDescTypeConfig true })
        | some dd => (none, { st with
            expected := setExpected (setExpected st.expected UsbDescTypeDevice false)
              UsbDescTypeConfig true
            devDesc := dd })
      else if (byteAt body 1).val = UsbDescTypeConfig then
        (none, {
          expected := setExpected (setExpected (setExpected st.expected
            UsbDescTypeInterface true) UsbDescTypeReport false) UsbDescTypeEndpoint false
          devDesc := st.devDesc
          device := none
          emitted := st.emitted ++ st.device.toList })
      else if (byteAt body 1).val = UsbDescTypeInterface then
        match castInterface body with
        | none => (some .unexpectedEOF, {
            expected := setExpected (setExpected st.expected UsbDescTypeEndpoint true)
              UsbDescTypeReport true
            devDesc := st.devDesc
            device := none
            emitted := st.emitted ++ st.device.toList })
        | some i => (none, {
            expected := setExpected (setExpected st.expected UsbDescTypeEndpoint true)
              UsbDescTypeReport true
            devDesc := st.devDesc
            device := if i.InterfaceClass = UsbHidClass then
              some (newDevice path st.devDesc i) else none
            emitted := st.emitted ++ st.device.toList })
      else if (byteAt body 1).val = UsbDescTypeEndpoint then
        match st.device with
        | none => (none, st)
        | some d0 =>
          match castEndpoint body with
          | none => (some .unexpectedEOF, { st with
              device := some (epReset d0), emitted := epEmit st d0 })
          | some e => (none, { st with
              device := some (epApply (epReset d0) e), emitted := epEmit st d0 })
      else (none, st) := by
  unfold walkBody
  by_cases hx : st.expected (byteAt body 1).val = false
  · simp [hx]
  · have hx1 : st.expected (byteAt body 1).val = true := by simpa using hx
    rw [hx1]
    simp only [Bool.not_true, Bool.false_eq_true, Bool.true_eq_false, if_false]
    unfold walkSwitch
    simp only
    split
    · split <;> rfl
    · split
      · cases hd : st.device <;> simp [flushDevice, hd]
      · split
        · have h1 := flushDevice_device st
          have h2 := flushDevice_expected st
          have h3 := flushDevice_devDesc st
          have h4 := flushDevice_emitted st
          split
          · simp [h1, h2, h3, h4]
          · rename_i i hi
            by_cases hc : i.InterfaceClass = UsbHidClass
            · simp [hc, h2, h3, h4, newDevice]
            · simp [hc, h1, h2, h3, h4]
        · split
          · split
            · rfl
            · split <;> rfl
          · rfl

theorem epOk_reset (d0 : usbDevice) (h : EpOk d0) : EpOk (epReset d0) := by
  unfold epReset
  split
  · exact ⟨Or.inl rfl, by simp⟩
  · exact h

theorem epOk_apply (d1 : usbDevice) (e : endpointDesc) (h : EpOk d1) (he : e.Address < 256) :
    EpOk (epApply d1 e) := by
  unfold epApply
  split
  · rename_i hc
    exact ⟨Or.inr ⟨hc.1, he⟩, h.2⟩
  · split
    · rename_i hc
      exact ⟨h.1, hc.1⟩
    · exact h

theorem epOk_epEmit (st : WalkState) (d0 : usbDevice) (h : EpInv st)
    (hd : st.device = some d0) : ∀ c ∈ epEmit st d0, EpOk c := by
  intro c hc
  unfold epEmit at hc
  split at hc
  · simp only [List.mem_append, List.mem_singleton] at hc
    rcases hc with hc | hc
    · exact h.1 c hc
    · rw [hc]; exact h.2 d0 hd
  · exact h.1 c hc

theorem epOk_toList (st : WalkState) (h : EpInv st) :
    ∀ c ∈ st.emitted ++ st.device.toList, EpOk c := by
  intro c hc
  simp only [List.mem_append, Option.mem_toList, Option.mem_def] at hc
  rcases hc with hc | hc
  · exact h.1 c hc
  · exact h.2 c hc

theorem epInv_walkBody (path : String) (st : WalkState) (body : List Byte) (h : EpInv st) :
    EpInv (walkBody path st body).2 := by
  rw [walkBody_eq]
  split_ifs
  · exact h
  · split
    · exact h
    · exact h
  · exact ⟨epOk_toList st h, by simp⟩
  · split
    · exact ⟨epOk_toList st h, by simp⟩
    · refine ⟨epOk_toList st h, ?_⟩
      intro c hc
      simp only at hc
      split at hc
      · simp only [Option.some.injEq] at hc
        rw [← hc]
        exact ⟨Or.inl rfl, by simp [newDevice]⟩
      · cases hc
  · split
    · exact h
    · rename_i d0 hd0
      split
      · refine ⟨epOk_epEmit st d0 h hd0, ?_⟩
        intro c hc
        simp only [Option.some.injEq] at hc
        rw [← hc]
        exact epOk_reset d0 (h.2 d0 hd0)
      · rename_i e he
        refine ⟨epOk_epEmit st d0 h hd0, ?_⟩
        intro c hc
        simp only [Option.some.injEq] at hc
        rw [← hc]
        exact epOk_apply _ e (epOk_reset d0 (h.2 d0 hd0)) (castEndpoint_address_lt _ _ he)
  · exact h

theorem epInv_init : EpInv walkInit := by
  refine ⟨?_, ?_⟩
  · intro c hc; cases hc
  · intro c hc; cases hc

/-- Every candidate handed to the sink has endpoint fields in range. -/
theorem walker_epOk (path : String) (blob : List Byte) (c : usbDevice)
    (h : c ∈ (walker path (.ok blob)).emitted) : EpOk c := by
  have hinv := runDescs_inv path EpInv (epInv_walkBody path) (descriptors blob) walkInit
    epInv_init
  rcases walker_emitted_mem path blob c h with h1 | h1
  · exact hinv.1 c h1
  · exact hinv.2 c h1

set_option maxRecDepth 100000 in
theorem land_0x80_of_gt (x : Nat) (h1 : 0x80 < x) (h2 : x < 256) : x &&& 0x80 = 0x80 := by
  have h : ∀ y : Fin 256, 0x80 < y.val → y.val &&& 0x80 = 0x80 := by decide
  exact h ⟨x, h2⟩ h1

set_option maxRecDepth 100000 in
theorem land_0x80_of_lt (x : Nat) (h : x < 0x80) : x &&& 0x80 = 0 := by
  have h0 : ∀ y : Fin 0x80, y.val &&& 0x80 = 0 := by decide
  exact h0 ⟨x, h⟩

/-- C3: every candidate handed to the sink by `walker` has, when `epIn` is
set (non-zero), `epIn & 0x80 == 0x80`, and, when `epOut` is set (non-zero),
`epOut & 0x80 == 0`; so both hold for a candidate with both endpoints set. -/
theorem walker_endpoint_direction (path : String) (file : Except WalkError (List Byte))
    (c : usbDevice) (h : c ∈ (walker path file).emitted) :
    (c.epIn ≠ 0 → c.epIn &&& 0x80 = 0x80) ∧ (c.epOut ≠ 0 → c.epOut &&& 0x80 = 0) := by
  cases file with
  | error e => simp [walker] at h
  | ok blob =>
    obtain ⟨hin, hout⟩ := walker_epOk path blob c h
    refine ⟨fun hne => ?_, fun _ => land_0x80_of_lt _ hout⟩
    rcases hin with h0 | ⟨h1, h2⟩
    · exact absurd h0 hne
    · exact land_0x80_of_gt _ h1 h2

theorem runDescs_append (path : String) (a b : List (List Byte)) :
    ∀ st : WalkState, runDescs path (a ++ b) st =
      match runDescs path a st with
      | (some e, s) => (some e, s)
      | (none, s) => runDescs path b s := by
  induction a with
  | nil => intro st; rfl
  | cons d a ih =>
    intro st
    simp only [List.cons_append, runDescs]
    rcases hb : walkBody path st d with ⟨e, st1⟩
    cases e with
    | some e => rfl
    | none => exact ih st1

/-- Endpoints with no address above 0x80 leave `epIn` of the pending candidate
at zero and cause no call of the sink. -/
theorem runDescs_no_in (path : String) (es : List endpointDesc) :
    ∀ (st : WalkState) (d : usbDevice), st.expected UsbDescTypeEndpoint = true →
      st.device = some d → d.epIn = 0 → (∀ e ∈ es, e.Std ∧ e.Address ≤ 0x80) →
      ∃ d1, runDescs path (es.map endpointDesc.encode) st =
          (none, { st with device := some d1 }) ∧ d1.epIn = 0 ∧ d1.info = d.info := by
  induction es with
  | nil =>
    intro st d _ hd h0 _
    exact ⟨d, by simp [runDescs, ← hd], h0, rfl⟩
  | cons e es ih =>
    intro st d hx hd h0 hes
    obtain ⟨hstd, hle⟩ := hes e (List.mem_cons_self _ _)
    obtain ⟨e1, hce, ha, _⟩ := castEndpoint_encode e hstd
    have hstep := walkBody_endpoint path st e.encode e1 d hx (framed_endpoint e hstd).2.2 hce hd
    have hr : epReset d = d := by simp [epReset, h0]
    have hem : (if d.epIn ≠ 0 ∧ d.epOut ≠ 0 then st.emitted ++ [d] else st.emitted) =
        st.emitted := by simp [h0]
    rw [hr, hem] at hstep
    have hin : (epApply d e1).epIn = 0 := by
      unfold epApply
      have : ¬ (e1.Address > 0x80) := by rw [ha]; omega
      simp only [this, false_and, if_false]
      split <;> exact h0
    have hinfo : (epApply d e1).info = d.info := by
      unfold epApply
      split
      · rfl
      · split <;> rfl
    obtain ⟨d1, hrun, h1, h2⟩ := ih { st with device := some (epApply d e1) } (epApply d e1) hx rfl
      hin (fun x hx => hes x (List.mem_cons_of_mem _ hx))
    refine ⟨d1, ?_, h1, h2.trans hinfo⟩
    simp only [List.map_cons, runDescs, hstep]
    exact hrun

/-- C2, counterexample: a HID interface followed by no endpoint at all is
handed to the sink, with `epIn = 0`. -/
theorem walker_emits_without_in : ¬ ∀ (path : String) (blob : List Byte) (c : usbDevice),
    c ∈ (walker path (.ok blob)).emitted → c.epIn ≠ 0 := by
  intro h
  exact h "/dev/bus/usb/006/003"
    (scenDevice.encode ++ scenConfig ++ (scenInterface 0 3).encode)
    (newDevice "/dev/bus/usb/006/003" scenDevice (scenInterface 0 3)) (by decide) rfl

/-- C2, amended: every candidate `walker` hands to the sink has `epIn` equal
to zero or above 0x80, and seeing an IN endpoint is not a condition of
emission: a HID interface followed only by endpoints whose address is not
above 0x80 (in particular by no endpoint) yields exactly one candidate, with
`epIn = 0`. -/
theorem walker_epIn_zero_or_in :
    (∀ (path : String) (file : Except WalkError (List Byte)) (c : usbDevice),
      c ∈ (walker path file).emitted → c.epIn = 0 ∨ 0x80 < c.epIn) ∧
    (∀ (path : String) (dd : deviceDesc) (cfg : List Byte) (i : interfaceDesc)
      (es : List endpointDesc), dd.Std → Framed UsbDescTypeConfig cfg → i.Std →
      i.InterfaceClass = UsbHidClass → (∀ e ∈ es, e.Std ∧ e.Address ≤ 0x80) →
      ∃ c, walker path (.ok (dd.encode ++ cfg ++ i.encode ++
          (es.map endpointDesc.encode).flatten)) = ⟨none, [c]⟩ ∧
        c.epIn = 0 ∧ c.info = (newDevice path dd i).info) := by
  constructor
  · intro path file c h
    cases file with
    | error e => simp [walker] at h
    | ok blob =>
      rcases (walker_epOk path blob c h).1 with h0 | h1
      · exact Or.inl h0
      · exact Or.inr h1.1
  · intro path dd cfg i es hdd hcfg hi hcls hes
    have hblob : dd.encode ++ cfg ++ i.encode ++ (es.map endpointDesc.encode).flatten =
        ([dd.encode, cfg, i.encode] ++ es.map endpointDesc.encode).flatten := by simp
    have fd := framed_device dd hdd
    have fi := framed_interface i hi
    obtain ⟨dd1, hcd, hv, hp, hr⟩ := castDevice_encode dd hdd
    obtain ⟨i1, hci, hn, hc, hs, hq⟩ := castInterface_encode i hi
    rw [hblob, walker_flatten]
    · rw [runDescs_append]
      simp only [runDescs]
      rw [walkBody_device path _ _ dd1 rfl fd.2.2 hcd]
      simp only
      rw [walkBody_config path _ _ rfl hcfg.2.2]
      simp only [flushDevice, walkInit]
      rw [walkBody_interface path _ _ i1 rfl fi.2.2 hci]
      simp only [hc, hcls, if_true, flushDevice]
      have key : ∀ E : Nat → Bool, E UsbDescTypeEndpoint = true → ∃ c,
          (match runDescs path (es.map endpointDesc.encode)
              ⟨E, dd1, some (newDevice path dd1 i1), []⟩ with
            | (some e, st) => (⟨some e, st.emitted⟩ : WalkResult)
            | (none, st) => ⟨none, (flushDevice st).emitted⟩) = ⟨none, [c]⟩ ∧
          c.epIn = 0 ∧ c.info = (newDevice path dd i).info := by
        intro E hE
        obtain ⟨d1, hrun, h1, h2⟩ := runDescs_no_in path es
          ⟨E, dd1, some (newDevice path dd1 i1), []⟩ (newDevice path dd1 i1) hE rfl rfl hes
        rw [hrun]
        refine ⟨d1, by simp [flushDevice], h1, ?_⟩
        rw [h2]
        simp [newDevice, hv, hp, hr, hn, hs, hq]
      exact key _ rfl
    · intro d hd
      simp only [List.mem_append, List.mem_cons, List.mem_singleton, List.not_mem_nil,
        or_false, List.mem_map] at hd
      rcases hd with (rfl | rfl | rfl) | ⟨e, he, rfl⟩
      · exact ⟨fd.1, fd.2.1⟩
      · exact ⟨hcfg.1, hcfg.2.1⟩
      · exact ⟨fi.1, fi.2.1⟩
      · have := framed_endpoint e (hes e he).1
        exact ⟨this.1, this.2.1⟩

theorem walkLoop_join_rest (path : String) (ds : List (List Byte)) (rest : List Byte) :
    ∀ (fuel : Nat) (st : WalkState),
      (∀ d ∈ ds, 2 ≤ d.length ∧ (byteAt d 0).val = d.length) →
      ((runDescs path ds st).1 = none →
        walkLoop path (ds.length + fuel) (ds.flatten ++ rest) st =
          walkLoop path fuel rest (runDescs path ds st).2) ∧
      (∀ e, (runDescs path ds st).1 = some e →
        (walkLoop path (ds.length + fuel) (ds.flatten ++ rest) st).1 = some e ∧
        (walkLoop path (ds.length + fuel) (ds.flatten ++ rest) st).2.2 =
          (runDescs path ds st).2) := by
  induction ds with
  | nil => intro fuel st _; simp [runDescs]
  | cons d ds ih =>
    intro fuel st hfr
    have hd := hfr d (List.mem_cons_self _ _)
    have hlen : (d :: ds).length + fuel = (ds.length + fuel) + 1 := by
      simp only [List.length_cons]; omega
    rw [hlen, List.flatten_cons, List.append_assoc,
      walkLoop_framed path _ d _ st hd.1 hd.2]
    simp only [runDescs]
    rcases hb : walkBody path st d with ⟨e, st1⟩
    cases e with
    | some e => simp
    | none =>
      simp only
      exact ih fuel st1 (fun x hx => hfr x (List.mem_cons_of_mem _ hx))

theorem walkBody_err (path : String) (st : WalkState) (body : List Byte) (e : WalkError)
    (h : (walkBody path st body).1 = some e) : e = .unexpectedEOF := by
  rw [walkBody_eq] at h
  split_ifs at h <;> (try split at h) <;> (try split at h) <;> simp at h <;> exact h.symm

theorem runDescs_err (path : String) (ds : List (List Byte)) :
    ∀ (st : WalkState) (e : WalkError), (runDescs path ds st).1 = some e →
      e = .unexpectedEOF := by
  induction ds with
  | nil => intro st e h; cases h
  | cons d ds ih =>
    intro st e h
    simp only [runDescs] at h
    rcases hb : walkBody path st d with ⟨e1, st1⟩
    rw [hb] at h
    cases e1 with
    | some e1 =>
      have := walkBody_err path st d e1 (by rw [hb])
      simp only [Option.some.injEq] at h
      rw [← h, this]
    | none => exact ih st1 e h

theorem walkLoop_bad_length (path : String) (fuel : Nat) (l : Byte) (t : List Byte)
    (st : WalkState) (h : l.val < 2 ∨ (l :: t).length < l.val) :
    walkLoop path (fuel + 1) (l :: t) st =
      (some .shortRead, (l :: t).drop l.val, st) := by
  simp only [walkLoop]
  have : (List.take l.val (l :: t)).length ≠ l.val ∨ l.val < 2 := by
    rcases h with h | h
    · exact Or.inr h
    · left
      rw [List.length_take]
      omega
  rw [if_pos this]

/-- C4: descriptor framing errors are fatal. If, after some well-framed
descriptors, the blob has a length byte below 2 or above the number of bytes
remaining, `walker` returns an error; and on every blob whose first byte is
0x00 or 0x01 it returns the error "short read" without calling the sink. -/
theorem walker_framing_error :
    (∀ (path : String) (blob : List Byte), BadFraming blob →
      (walker path (.ok blob)).err = some .shortRead ∨
        (walker path (.ok blob)).err = some .unexpectedEOF) ∧
    (∀ (path : String) (l : Byte) (t : List Byte), l.val < 2 →
      walker path (.ok (l :: t)) = ⟨some .shortRead, []⟩) := by
  constructor
  · rintro path blob ⟨ds, l, t, hfr, rfl, hbad⟩
    have hlen : (ds.flatten ++ l :: t).length = ds.length + ((ds.flatten.length - ds.length)
        + t.length + 1) := by
      have := length_le_flatten ds (fun d hd => (hfr d hd).1)
      simp only [List.length_append, List.length_cons]
      omega
    obtain ⟨h1, h2⟩ := walkLoop_join_rest path ds (l :: t)
      ((ds.flatten.length - ds.length) + t.length + 1) walkInit hfr
    simp only [walker, hlen]
    cases hr : (runDescs path ds walkInit).1 with
    | none =>
      rw [h1 hr, walkLoop_bad_length path _ l t _ hbad]
      exact Or.inl rfl
    | some e =>
      obtain ⟨h3, _⟩ := h2 e hr
      have he := runDescs_err path ds walkInit e hr
      subst he
      rcases hw : walkLoop path (ds.length + ((ds.flatten.length - ds.length) + t.length + 1))
        (ds.flatten ++ l :: t) walkInit with ⟨e1, r1, s1⟩
      rw [hw] at h3
      simp only at h3
      subst h3
      exact Or.inr rfl
  · intro path l t hl
    simp only [walker, List.length_cons, walkLoop_bad_length path _ l t _ (Or.inl hl)]
    rfl

theorem castInterface_class (b : List Byte) (i : interfaceDesc)
    (h : castInterface b = some i) :
    i.Number = (byteAt b 2).val ∧ i.InterfaceClass = (byteAt b 5).val ∧
      i.InterfaceSubClass = (byteAt b 6).val ∧ i.InterfaceProtocol = (byteAt b 7).val := by
  unfold castInterface at h
  split at h
  · cases h
  · cases h; exact ⟨rfl, rfl, rfl, rfl⟩

/-- Without an INTERFACE descriptor of class HID no candidate is ever pending
and none is emitted. -/
theorem runDescs_non_hid (path : String) (ds : List (List Byte)) :
    ∀ st : WalkState,
      (∀ d ∈ ds, (byteAt d 1).val = UsbDescTypeInterface →
        (byteAt d 5).val ≠ UsbHidClass) →
      st.device = none → st.emitted = [] →
      (runDescs path ds st).2.device = none ∧ (runDescs path ds st).2.emitted = [] := by
  induction ds with
  | nil => intro st _ h1 h2; exact ⟨h1, h2⟩
  | cons d ds ih =>
    intro st hno h1 h2
    have hd := hno d (List.mem_cons_self _ _)
    have hrest : ∀ x ∈ ds, (byteAt x 1).val = UsbDescTypeInterface →
        (byteAt x 5).val ≠ UsbHidClass := fun x hx => hno x (List.mem_cons_of_mem _ hx)
    have hstep : (walkBody path st d).2.device = none ∧
        (walkBody path st d).2.emitted = [] := by
      rw [walkBody_eq]
      split_ifs with hx ht1 ht2 ht4 ht5
      · exact ⟨h1, h2⟩
      · split <;> exact ⟨h1, h2⟩
      · simp [h1, h2]
      · split
        · simp [h1, h2]
        · rename_i i hi
          have hc := (castInterface_class d i hi).2.1
          have : i.InterfaceClass ≠ UsbHidClass := by rw [hc]; exact hd ht4
          simp [h1, h2, this]
      · split
        · exact ⟨h1, h2⟩
        · rename_i d0 hd0
          rw [h1] at hd0
          cases hd0
      · exact ⟨h1, h2⟩
    simp only [runDescs]
    rcases hb : walkBody path st d with ⟨e, st1⟩
    rw [hb] at hstep
    cases e with
    | some e => exact hstep
    | none => exact ih st1 hrest hstep.1 hstep.2

/-- C5: non-HID interfaces produce no candidate. On a blob none of whose
INTERFACE descriptors has class 3, `walker` never calls the sink, whatever
endpoints follow and whether or not it returns an error. -/
theorem walker_non_hid (path : String) (blob : List Byte)
    (h : ∀ d ∈ descriptors blob, (byteAt d 1).val = UsbDescTypeInterface →
      (byteAt d 5).val ≠ UsbHidClass) :
    (walker path (.ok blob)).emitted = [] := by
  obtain ⟨h1, h2⟩ := runDescs_non_hid path (descriptors blob) walkInit h rfl rfl
  rw [List.eq_nil_iff_forall_not_mem]
  intro c hc
  rcases walker_emitted_mem path blob c hc with h3 | h3
  · rw [h2] at h3; cases h3
  · rw [h1] at h3; cases h3

theorem firstDevice_append_some (pre : List (List Byte)) (d dev : List Byte)
    (h : firstDevice pre = some dev) : firstDevice (pre ++ [d]) = some dev := by
  unfold firstDevice at *
  rw [List.find?_append, h]
  rfl

theorem firstDevice_append_none (pre : List (List Byte)) (d : List Byte)
    (h : ∀ x ∈ pre, (byteAt x 1).val ≠ UsbDescTypeDevice)
    (hd : (byteAt d 1).val = UsbDescTypeDevice) : firstDevice (pre ++ [d]) = some d := by
  unfold firstDevice
  rw [List.find?_append]
  have : List.find? (fun d => decide ((byteAt d 1).val = UsbDescTypeDevice)) pre = none := by
    rw [List.find?_eq_none]
    intro x hx
    simpa using h x hx
  rw [this]
  simp [List.find?, hd]

theorem lastHid_append_other (pre : List (List Byte)) (d : List Byte)
    (hd : (byteAt d 1).val ≠ UsbDescTypeInterface) :
    lastHidInterface (pre ++ [d]) = lastHidInterface pre := by
  unfold lastHidInterface
  simp [List.find?, hd]

theorem lastHid_append_hid (pre : List (List Byte)) (d : List Byte)
    (hd : (byteAt d 1).val = UsbDescTypeInterface) (hc : (byteAt d 5).val = UsbHidClass) :
    lastHidInterface (pre ++ [d]) = some d := by
  unfold lastHidInterface
  simp [List.find?, hd, hc]

theorem infoFrom_reset (d0 : usbDevice) (dd : deviceDesc) (i : interfaceDesc)
    (h : InfoFrom d0 dd i) : InfoFrom (epReset d0) dd i := by
  unfold epReset
  split
  · exact h
  · exact h

theorem infoFrom_apply (d1 : usbDevice) (e : endpointDesc) (dd : deviceDesc)
    (i : interfaceDesc) (h : InfoFrom d1 dd i) : InfoFrom (epApply d1 e) dd i := by
  unfold epApply
  split
  · exact h
  · split
    · exact h
    · exact h

theorem infoInv_walkBody (path : String) (pre : List (List Byte)) (st : WalkState)
    (d : List Byte) (h : InfoInv pre st) (hok : (walkBody path st d).1 = none) :
    InfoInv (pre ++ [d]) (walkBody path st d).2 := by
  obtain ⟨h1, h2, h3, h4⟩ := h
  rw [walkBody_eq] at hok ⊢
  have hne12 : UsbDescTypeDevice ≠ UsbDescTypeConfig := by decide
  split_ifs at hok ⊢ with hx ht1 ht2 ht4 ht5
  · -- not in the accept map
    refine ⟨fun hx1 => ⟨?_, (h1 hx1).2⟩, fun hx1 => ?_, h3, fun c hc => ?_⟩
    · intro x hxm
      rw [List.mem_append, List.mem_singleton] at hxm
      rcases hxm with hxm | rfl
      · exact (h1 hx1).1 x hxm
      · intro heq
        rw [heq, hx1] at hx
        cases hx
    · obtain ⟨dev, hf, hc⟩ := h2 hx1
      exact ⟨dev, firstDevice_append_some pre d dev hf, hc⟩
    · have hne : (byteAt d 1).val ≠ UsbDescTypeInterface := by
        intro heq
        rw [heq] at hx
        rw [h3 hx] at hc
        cases hc
      rw [lastHid_append_other pre d hne]
      exact h4 c hc
  · -- DEVICE
    have hx1 : st.expected UsbDescTypeDevice = true := by rw [← ht1]; simpa using hx
    obtain ⟨hnone, hx2, hx4⟩ := h1 hx1
    split at hok
    · simp at hok
    · rename_i dd hdd
      simp only [hdd]
      refine ⟨fun hc => ?_, fun _ => ?_, fun _ => h3 hx4, fun c hc => ?_⟩
      · simp [setExpected, UsbDescTypeDevice, UsbDescTypeConfig] at hc
      · exact ⟨d, firstDevice_append_none pre d hnone ht1, hdd⟩
      · simp only at hc
        rw [h3 hx4] at hc
        cases hc
  · -- CONFIGURATION
    have hx2 : st.expected UsbDescTypeConfig = true := by rw [← ht2]; simpa using hx
    have hx1 : st.expected UsbDescTypeDevice = false := by
      cases hh : st.expected UsbDescTypeDevice
      · rfl
      · rw [(h1 hh).2.1] at hx2; cases hx2
    have hx1n : st.expected 1 = false := hx1
    refine ⟨fun hc => ?_, fun _ => ?_, fun hc => rfl, fun c hc => ?_⟩
    · simp [setExpected, UsbDescTypeDevice, UsbDescTypeConfig, UsbDescTypeInterface,
        UsbDescTypeEndpoint, UsbDescTypeReport, hx1n] at hc
    · obtain ⟨dev, hf, hc⟩ := h2 hx1
      exact ⟨dev, firstDevice_append_some pre d dev hf, hc⟩
    · cases hc
  · -- INTERFACE
    have hx4 : st.expected UsbDescTypeInterface = true := by rw [← ht4]; simpa using hx
    have hx1 : st.expected UsbDescTypeDevice = false := by
      cases hh : st.expected UsbDescTypeDevice
      · rfl
      · rw [(h1 hh).2.2] at hx4; cases hx4
    split at hok
    · simp at hok
    · rename_i i hi
      simp only [hi]
      have hx1n : st.expected 1 = false := hx1
      have hx4n : st.expected 4 = true := hx4
      refine ⟨fun hc => ?_, fun _ => ?_, fun hc => ?_, fun c hc => ?_⟩
      · simp [setExpected, UsbDescTypeDevice, UsbDescTypeEndpoint, UsbDescTypeReport,
          hx1n] at hc
      · obtain ⟨dev, hf, hc⟩ := h2 hx1
        exact ⟨dev, firstDevice_append_some pre d dev hf, hc⟩
      · simp [setExpected, UsbDescTypeInterface, UsbDescTypeEndpoint, UsbDescTypeReport,
          hx4n] at hc
      · simp only at hc
        split at hc
        · rename_i hcls
          simp only [Option.some.injEq] at hc
          subst hc
          have hcl := (castInterface_class d i hi).2.1
          refine ⟨d, i, lastHid_append_hid pre d ht4 (by rw [← hcl]; exact hcls), hi, ?_⟩
          exact ⟨rfl, rfl, rfl, rfl, rfl, rfl⟩
        · cases hc
  · -- ENDPOINT
    have hne : (byteAt d 1).val ≠ UsbDescTypeInterface := by rw [ht5]; decide
    have hne1 : (byteAt d 1).val ≠ UsbDescTypeDevice := by rw [ht5]; decide
    have hpre : ∀ s : WalkState, s.expected = st.expected → s.devDesc = st.devDesc →
        (∀ c, s.device = some c → ∃ c0, st.device = some c0 ∧
          ∀ dd i, InfoFrom c0 dd i → InfoFrom c dd i) → InfoInv (pre ++ [d]) s := by
      intro s he hdv hdev
      refine ⟨fun hc => ?_, fun hc => ?_, fun hc => ?_, fun c hc => ?_⟩
      · rw [he] at hc
        refine ⟨?_, by rw [he]; exact (h1 hc).2⟩
        intro x hxm
        rw [List.mem_append, List.mem_singleton] at hxm
        rcases hxm with hxm | rfl
        · exact (h1 hc).1 x hxm
        · exact hne1
      · rw [he] at hc
        obtain ⟨dev, hf, hcd⟩ := h2 hc
        exact ⟨dev, firstDevice_append_some pre d dev hf, by rw [hdv]; exact hcd⟩
      · rw [he] at hc
        cases hs : s.device with
        | none => rfl
        | some c =>
          obtain ⟨c0, hc0, _⟩ := hdev c hs
          rw [h3 hc] at hc0
          cases hc0
      · obtain ⟨c0, hc0, himp⟩ := hdev c hc
        obtain ⟨ifc, i, hl, hci, hinfo⟩ := h4 c0 hc0
        rw [lastHid_append_other pre d hne, hdv]
        exact ⟨ifc, i, hl, hci, himp _ _ hinfo⟩
    split
    · exact hpre st rfl rfl (fun c hc => ⟨c, hc, fun _ _ h => h⟩)
    · rename_i d0 hd0
      split
      · rename_i hce
        rw [hd0] at hok
        simp [hce] at hok
      · rename_i e hce
        refine hpre _ rfl rfl ?_
        intro c hc
        simp only [Option.some.injEq] at hc
        subst hc
        exact ⟨d0, hd0, fun dd i h => infoFrom_apply _ e dd i (infoFrom_reset d0 dd i h)⟩
  · -- any other type
    have hne : (byteAt d 1).val ≠ UsbDescTypeInterface := ht4
    refine ⟨fun hx1 => ⟨?_, (h1 hx1).2⟩, fun hx1 => ?_, h3, fun c hc => ?_⟩
    · intro x hxm
      rw [List.mem_append, List.mem_singleton] at hxm
      rcases hxm with hxm | rfl
      · exact (h1 hx1).1 x hxm
      · exact ht1
    · obtain ⟨dev, hf, hc⟩ := h2 hx1
      exact ⟨dev, firstDevice_append_some pre d dev hf, hc⟩
    · rw [lastHid_append_other pre d hne]
      exact h4 c hc

theorem infoInv_init : InfoInv [] walkInit := by
  refine ⟨fun _ => ⟨?_, rfl, rfl⟩, fun h => ?_, fun _ => rfl, fun c hc => ?_⟩
  · intro d hd; cases hd
  · simp [walkInit] at h
  · cases hc

theorem infoInv_runDescs (path : String) (ds : List (List Byte)) :
    ∀ (pre : List (List Byte)) (st : WalkState), InfoInv pre st →
      (runDescs path ds st).1 = none → InfoInv (pre ++ ds) (runDescs path ds st).2 := by
  induction ds with
  | nil => intro pre st h _; simpa [runDescs] using h
  | cons d ds ih =>
    intro pre st h hok
    simp only [runDescs] at hok ⊢
    have hstep := infoInv_walkBody path pre st d h
    rcases hb : walkBody path st d with ⟨e, st1⟩
    rw [hb] at hok hstep
    cases e with
    | some e => simp at hok
    | none =>
      have := ih (pre ++ [d]) st1 (hstep rfl) hok
      simpa using this

/-- When the loop has met no error, neither has `runDescs` on the descriptors
it read. -/
theorem walkLoop_ok (path : String) :
    ∀ (n : Nat) (r : List Byte) (st : WalkState), (walkLoop path n r st).1 = none →
      (runDescs path (frames n r) st).1 = none := by
  intro n
  induction n with
  | zero => intro r st _; rfl
  | succ n ih =>
    intro r st h
    cases r with
    | nil => rfl
    | cons l t =>
      simp only [walkLoop, frames] at h ⊢
      split at h
      · simp at h
      · rename_i hc
        rw [if_neg hc]
        simp only [runDescs]
        rcases hb : walkBody path st (List.take l.val (l :: t)) with ⟨e, st1⟩
        rw [hb] at h
        cases e with
        | some e => simp at h
        | none => exact ih _ st1 h

/-- One more unit of fuel is one more iteration at the end. -/
theorem walkLoop_succ (path : String) :
    ∀ (n : Nat) (r : List Byte) (st : WalkState),
      walkLoop path (n + 1) r st =
        match walkLoop path n r st with
        | (some e, r1, s1) => (some e, r1, s1)
        | (none, r1, s1) => walkLoop path 1 r1 s1 := by
  intro n
  induction n with
  | zero => intro r st; rfl
  | succ n ih =>
    intro r st
    cases r with
    | nil => rfl
    | cons l t =>
      rw [walkLoop]
      conv_rhs => rw [walkLoop]
      split
      · rfl
      · rcases hb : walkBody path st (List.take l.val (l :: t)) with ⟨e, st1⟩
        cases e with
        | some e => rfl
        | none => exact ih _ st1

/-- A call of `walkBody` hands to the sink at most the candidate that was
pending before it. -/
theorem walkBody_emitted (path : String) (st : WalkState) (d : List Byte) :
    ∃ l, (walkBody path st d).2.emitted = st.emitted ++ l ∧
      ∀ c ∈ l, st.device = some c := by
  rw [walkBody_eq]
  split_ifs
  · exact ⟨[], by simp, by simp⟩
  · split <;> exact ⟨[], by simp, by simp⟩
  · exact ⟨st.device.toList, rfl, by simp⟩
  · split <;> exact ⟨st.device.toList, rfl, by simp⟩
  · split
    · exact ⟨[], by simp, by simp⟩
    · rename_i d0 hd0
      have : ∃ l, epEmit st d0 = st.emitted ++ l ∧ ∀ c ∈ l, st.device = some c := by
        unfold epEmit
        split
        · exact ⟨[d0], rfl, by simp [hd0]⟩
        · exact ⟨[], by simp, by simp⟩
      split <;> exact this
  · exact ⟨[], by simp, by simp⟩

theorem walkLoop_one_emitted (path : String) (r : List Byte) (st : WalkState) :
    ∃ l, (walkLoop path 1 r st).2.2.emitted = st.emitted ++ l ∧
      ∀ c ∈ l, st.device = some c := by
  cases r with
  | nil => exact ⟨[], by simp [walkLoop], by simp⟩
  | cons l t =>
    simp only [walkLoop]
    split
    · exact ⟨[], by simp, by simp⟩
    · have := walkBody_emitted path st (List.take l.val (l :: t))
      rcases hb : walkBody path st (List.take l.val (l :: t)) with ⟨e, st1⟩
      rw [hb] at this
      cases e with
      | some e => exact this
      | none => exact this

/-- A candidate handed to the sink after `n` descriptors was the pending
candidate of the state reached on them. -/
theorem emittedAfter_pending (path : String) (blob : List Byte) (n : Nat) (c : usbDevice)
    (h : EmittedAfter path blob n c) :
    (walkLoop path n blob walkInit).1 = none ∧
      (walkLoop path n blob walkInit).2.2.device = some c := by
  obtain ⟨h0, h1 | h1⟩ := h
  · refine ⟨h0, ?_⟩
    obtain ⟨l, hl, hc⟩ := h1
    rw [walkLoop_succ] at hl
    rcases hw : walkLoop path n blob walkInit with ⟨e, r1, s1⟩
    rw [hw] at hl h0
    simp only at h0
    subst h0
    simp only at hl
    obtain ⟨l1, hl1, hsub⟩ := walkLoop_one_emitted path r1 s1
    rw [hl1] at hl
    have : l1 = l := List.append_cancel_left hl
    subst this
    exact hsub c hc
  · exact ⟨h0, h1.2⟩

/-- Every candidate recorded by the loop was handed to the sink by one of its
iterations. -/
theorem walkLoop_emitted_after (path : String) (blob : List Byte) :
    ∀ (n : Nat) (c : usbDevice), c ∈ (walkLoop path n blob walkInit).2.2.emitted →
      ∃ m, EmittedAfter path blob m c := by
  intro n
  induction n with
  | zero => intro c hc; simp [walkLoop, walkInit] at hc
  | succ n ih =>
    intro c hc
    have hs := walkLoop_succ path n blob walkInit
    rcases hw : walkLoop path n blob walkInit with ⟨e, r1, s1⟩
    rw [hw] at hs ih
    cases e with
    | some e =>
      rw [hs] at hc
      exact ih c hc
    | none =>
      simp only at hs
      obtain ⟨l, hl, _⟩ := walkLoop_one_emitted path r1 s1
      rw [hs, hl, List.mem_append] at hc
      rcases hc with hc | hc
      · exact ih c hc
      · refine ⟨n, by rw [hw], Or.inl ⟨l, ?_, hc⟩⟩
        rw [walkLoop_succ, hw]
        exact hl

/-- C7: every candidate `walker` hands to the sink is handed over right after
some number `n` of descriptors, and then its SubClass, Protocol and Interface
are the fields of the most recent INTERFACE descriptor of class HID among
those `n` descriptors, and its Vendor, Product and Revision are the fields of
the DEVICE descriptor that precedes it (the first one of the stream). -/
theorem walker_info_source (path : String) (blob : List Byte) :
    (∀ (n : Nat) (c : usbDevice), EmittedAfter path blob n c →
      ∃ dev ifc dd i, firstDevice (frames n blob) = some dev ∧ castDevice dev = some dd ∧
        lastHidInterface (frames n blob) = some ifc ∧ castInterface ifc = some i ∧
        c.info.Vendor = dd.Vendor ∧ c.info.Product = dd.Product ∧
        c.info.Revision = dd.Revision ∧ c.info.SubClass = i.InterfaceSubClass ∧
        c.info.Protocol = i.InterfaceProtocol ∧ c.info.Interface = i.Number) ∧
    (∀ c ∈ (walker path (.ok blob)).emitted, ∃ n, EmittedAfter path blob n c) := by
  constructor
  · intro n c h
    obtain ⟨hok, hdev⟩ := emittedAfter_pending path blob n c h
    have hrun := walkLoop_ok path n blob walkInit hok
    have hinv := infoInv_runDescs path (frames n blob) [] walkInit infoInv_init hrun
    rw [← walkLoop_state, List.nil_append] at hinv
    obtain ⟨h1, h2, h3, h4⟩ := hinv
    obtain ⟨ifc, i, hl, hci, hv, hp, hr, hs, hq, hn⟩ := h4 c hdev
    have hx4 : (walkLoop path n blob walkInit).2.2.expected UsbDescTypeInterface = true := by
      cases hh : (walkLoop path n blob walkInit).2.2.expected UsbDescTypeInterface
      · rw [h3 hh] at hdev; cases hdev
      · rfl
    have hx1 : (walkLoop path n blob walkInit).2.2.expected UsbDescTypeDevice = false := by
      cases hh : (walkLoop path n blob walkInit).2.2.expected UsbDescTypeDevice
      · rfl
      · rw [(h1 hh).2.2] at hx4; cases hx4
    obtain ⟨dev, hf, hcd⟩ := h2 hx1
    exact ⟨dev, ifc, _, i, hf, hcd, hl, hci, hv, hp, hr, hs, hq, hn⟩
  · intro c hc
    simp only [walker] at hc
    rcases hw : walkLoop path blob.length blob walkInit with ⟨e, r, st⟩
    rw [hw] at hc
    have hmem : c ∈ st.emitted → ∃ n, EmittedAfter path blob n c := by
      intro h
      exact walkLoop_emitted_after path blob blob.length c (by rw [hw]; exact h)
    cases e with
    | some e => exact hmem hc
    | none =>
      cases r with
      | cons a b => exact hmem hc
      | nil =>
        simp only at hc
        rw [flushDevice_emitted, List.mem_append] at hc
        rcases hc with hc | hc
        · exact hmem hc
        · refine ⟨blob.length, by rw [hw], Or.inr ?_⟩
          rw [hw]
          exact ⟨rfl, by simpa using hc⟩

theorem epApply_congr (d : usbDevice) (e e1 : endpointDesc) (ha : e1.Address = e.Address)
    (hm : e1.MaxPacketSize = e.MaxPacketSize) : epApply d e1 = epApply d e := by
  simp [epApply, ha, hm]

theorem epApply_info (d : usbDevice) (e : endpointDesc) :
    (epApply d e).info = d.info ∧ (epApply d e).path = d.path := by
  unfold epApply
  split
  · exact ⟨rfl, rfl⟩
  · split <;> exact ⟨rfl, rfl⟩

theorem epApply_epIn (d : usbDevice) (e : endpointDesc) :
    (epApply d e).epIn = if 0x80 < e.Address ∧ d.epIn = 0 then e.Address else d.epIn := by
  unfold epApply
  split
  · rfl
  · split <;> rfl

theorem epApply_inSize (d : usbDevice) (e : endpointDesc) :
    (epApply d e).inputPacketSize =
      if 0x80 < e.Address ∧ d.epIn = 0 then e.MaxPacketSize else d.inputPacketSize := by
  unfold epApply
  split
  · rfl
  · split <;> rfl

theorem epApply_epOut (d : usbDevice) (e : endpointDesc) :
    (epApply d e).epOut = if e.Address < 0x80 ∧ d.epOut = 0 then e.Address else d.epOut := by
  unfold epApply
  split
  · rename_i hc
    have : ¬ (e.Address < 0x80 ∧ d.epOut = 0) := by omega
    rw [if_neg this]
  · split <;> rfl

theorem epApply_outSize (d : usbDevice) (e : endpointDesc) :
    (epApply d e).outputPacketSize =
      if e.Address < 0x80 ∧ d.epOut = 0 then e.MaxPacketSize else d.outputPacketSize := by
  unfold epApply
  split
  · rename_i hc
    have : ¬ (e.Address < 0x80 ∧ d.epOut = 0) := by omega
    rw [if_neg this]
  · split <;> rfl

theorem firstIn_cons (e : endpointDesc) (es : List endpointDesc) :
    firstIn (e :: es) = if 0x80 < e.Address then some e else firstIn es := by
  unfold firstIn
  rw [List.find?_cons]
  by_cases h : 0x80 < e.Address <;> simp [h]

theorem firstOut_cons (e : endpointDesc) (es : List endpointDesc) :
    firstOut (e :: es) =
      if 0 < e.Address ∧ e.Address < 0x80 then some e else firstOut es := by
  unfold firstOut
  rw [List.find?_cons]
  by_cases h : 0 < e.Address ∧ e.Address < 0x80 <;> simp [h]

theorem freeSlots_apply (d : usbDevice) (e : endpointDesc) (n : Nat)
    (h : n + 1 ≤ freeSlots d) : n ≤ freeSlots (epApply d e) := by
  unfold freeSlots at h ⊢
  rw [epApply_epIn, epApply_epOut]
  by_cases hi : d.epIn = 0 <;> by_cases ho : d.epOut = 0 <;>
    by_cases ha : 0x80 < e.Address <;> by_cases hb : e.Address < 0x80 <;>
    by_cases hz : e.Address = 0 <;> simp [hi, ho, ha, hb, hz] at h ⊢ <;> omega

theorem populated_step (d : usbDevice) (e : endpointDesc) (es : List endpointDesc)
    (d1 : usbDevice) (h : Populated (epApply d e) es d1) : Populated d (e :: es) d1 := by
  obtain ⟨h1, h2, h3, h4, h5⟩ := h
  rw [epApply_epIn] at h1 h2
  rw [epApply_inSize] at h2
  rw [epApply_epOut] at h3 h4 h5
  rw [epApply_outSize] at h4
  refine ⟨?_, ?_, ?_, ?_, ?_⟩
  · rw [h1, firstIn_cons]
    by_cases hi : d.epIn = 0 <;> by_cases ha : 0x80 < e.Address <;> simp [hi, ha]
    omega
  · rw [h2, firstIn_cons]
    by_cases hi : d.epIn = 0 <;> by_cases ha : 0x80 < e.Address <;> simp [hi, ha]
    omega
  · rw [h3, firstOut_cons]
    by_cases ho : d.epOut = 0 <;> by_cases hb : e.Address < 0x80 <;>
      by_cases hz : 0 < e.Address <;> simp [ho, hb, hz]
    all_goals omega
  · intro ho
    have hc : ¬ (e.Address < 0x80 ∧ d.epOut = 0) := fun hc => ho hc.2
    simp only [if_neg hc] at h4
    exact h4 ho
  · intro ho x hx
    rw [firstOut_cons] at hx
    by_cases hb : e.Address < 0x80
    · by_cases hz : e.Address = 0
      · have hc : ¬ (0 < e.Address ∧ e.Address < 0x80) := by omega
        rw [if_neg hc] at hx
        have hc2 : e.Address < 0x80 ∧ d.epOut = 0 := ⟨hb, ho⟩
        simp only [if_pos hc2] at h5
        exact h5 hz x hx
      · have hc : 0 < e.Address ∧ e.Address < 0x80 := by omega
        rw [if_pos hc] at hx
        have hc2 : e.Address < 0x80 ∧ d.epOut = 0 := ⟨hb, ho⟩
        simp only [if_pos hc2] at h4
        simp only [Option.some.injEq] at hx
        rw [← hx]
        exact h4 hz
    · have hc : ¬ (0 < e.Address ∧ e.Address < 0x80) := by omega
      rw [if_neg hc] at hx
      have hc2 : ¬ (e.Address < 0x80 ∧ d.epOut = 0) := fun hc2 => hb hc2.1
      simp only [if_neg hc2] at h5
      exact h5 ho x hx

theorem epReset_info (d : usbDevice) :
    (epReset d).info = d.info ∧ (epReset d).path = d.path := by
  unfold epReset
  split <;> exact ⟨rfl, rfl⟩

theorem populated_nil (d : usbDevice) : Populated d [] d := by
  unfold Populated
  refine ⟨?_, ?_, ?_, fun _ => rfl, ?_⟩
  · by_cases h : d.epIn = 0 <;> simp [h, firstIn]
  · by_cases h : d.epIn = 0 <;> simp [h, firstIn]
  · by_cases h : d.epOut = 0 <;> simp [h, firstOut]
  · intro _ e he
    simp [firstOut] at he

/-- A run of ENDPOINT descriptors on a pending candidate: no error, the
candidate keeps its `Info`; the sink is not called while an unset endpoint
field is left for each descriptor, and without a call of the sink the fields
are populated by the first matching descriptors. -/
theorem runDescs_endpoints (path : String) (es : List endpointDesc) :
    ∀ (st : WalkState) (d : usbDevice), st.expected UsbDescTypeEndpoint = true →
      st.device = some d → (∀ e ∈ es, e.Std) →
      ∃ d1 l, runDescs path (es.map endpointDesc.encode) st =
          (none, { st with device := some d1, emitted := st.emitted ++ l }) ∧
        d1.info = d.info ∧ d1.path = d.path ∧
        (es.length ≤ freeSlots d → l = []) ∧ (l = [] → Populated d es d1) := by
  induction es with
  | nil =>
    intro st d _ hd _
    refine ⟨d, [], ?_, rfl, rfl, fun _ => rfl, fun _ => populated_nil d⟩
    simp [runDescs, ← hd]
  | cons e es ih =>
    intro st d hx hd hes
    have hstd := hes e (List.mem_cons_self _ _)
    obtain ⟨e1, hce, ha, hm⟩ := castEndpoint_encode e hstd
    have hstep := walkBody_endpoint path st e.encode e1 d hx (framed_endpoint e hstd).2.2 hce hd
    rw [epApply_congr _ e e1 ha hm] at hstep
    obtain ⟨d1, l1, hrun, hinfo, hpath, hfree, hpop⟩ :=
      ih { st with
          device := some (epApply (epReset d) e)
          emitted := if d.epIn ≠ 0 ∧ d.epOut ≠ 0 then st.emitted ++ [d] else st.emitted }
        (epApply (epReset d) e) hx rfl (fun x hx => hes x (List.mem_cons_of_mem _ hx))
    have hi : d1.info = d.info :=
      hinfo.trans ((epApply_info _ e).1.trans (epReset_info d).1)
    have hp : d1.path = d.path :=
      hpath.trans ((epApply_info _ e).2.trans (epReset_info d).2)
    by_cases hboth : d.epIn ≠ 0 ∧ d.epOut ≠ 0
    · refine ⟨d1, d :: l1, ?_, hi, hp, ?_, ?_⟩
      · simp only [List.map_cons, runDescs, hstep]
        rw [hrun]
        simp [hboth]
      · intro hlen
        have : freeSlots d = 0 := by simp [freeSlots, hboth.1, hboth.2]
        simp only [List.length_cons] at hlen
        omega
      · intro h; cases h
    · have hr : epReset d = d := by simp only [epReset, if_neg hboth]
      rw [hr] at hrun hfree hpop
      refine ⟨d1, l1, ?_, hi, hp, ?_, ?_⟩
      · simp only [List.map_cons, runDescs, hstep]
        rw [hr, hrun]
        simp only [if_neg hboth]
      · intro hlen
        exact hfree (freeSlots_apply d e _ (by simpa using hlen))
      · intro h
        exact populated_step d e es d1 (hpop h)

/-- C8, counterexample: an ENDPOINT with address 0x80 has the high bit set
but populates neither `epIn` nor `inputPacketSize`; and after a first
ENDPOINT with address 0x00 (high bit clear, size 8) a later ENDPOINT 0x02
(size 32) does overwrite `epOut` and `outputPacketSize`. -/
theorem endpoint_high_bit_counterexample :
    ((0x80 : Nat) &&& 0x80 ≠ 0 ∧
      (walker "/dev/bus/usb/006/003" (.ok (scenDevice.encode ++ scenConfig ++
        (scenInterface 0 3).encode ++ (scenEndpoint 0x80 8).encode))).emitted.map
          (fun c => (c.epIn, c.inputPacketSize)) = [(0, 0)]) ∧
    ((0x00 : Nat) &&& 0x80 = 0 ∧
      (walker "/dev/bus/usb/006/003" (.ok (scenDevice.encode ++ scenConfig ++
        (scenInterface 0 3).encode ++ (scenEndpoint 0x00 8).encode ++
        (scenEndpoint 0x02 32).encode))).emitted.map
          (fun c => (c.epOut, c.outputPacketSize)) = [(2, 32)]) := by
  decide

theorem epApply_epIn_zero (d : usbDevice) (e : endpointDesc) :
    (epApply d e).epIn = 0 ↔ d.epIn = 0 ∧ ¬ 0x80 < e.Address := by
  rw [epApply_epIn]
  by_cases hi : d.epIn = 0 <;> by_cases ha : 0x80 < e.Address <;> simp [hi, ha]
  omega

theorem epApply_epOut_zero (d : usbDevice) (e : endpointDesc) :
    (epApply d e).epOut = 0 ↔ d.epOut = 0 ∧ ¬ (0 < e.Address ∧ e.Address < 0x80) := by
  rw [epApply_epOut]
  by_cases ho : d.epOut = 0 <;> by_cases hb : e.Address < 0x80 <;>
    by_cases hz : e.Address = 0 <;> simp [ho, hb, hz]

theorem lastZero_cons (e : endpointDesc) (es : List endpointDesc) :
    lastZero (e :: es) =
      if e.Address = 0 then some ((lastZero es).getD e) else lastZero es := by
  unfold lastZero
  by_cases h : e.Address = 0
  · simp [List.filter, h, List.getLast?_cons]
  · simp [List.filter, h]

/-- A run of ENDPOINT descriptors on a pending candidate calls the sink
exactly when both endpoint fields are set before the last descriptor of the
run is reached. -/
theorem runDescs_endpoints_sink (path : String) (es : List endpointDesc) :
    ∀ (st : WalkState) (d : usbDevice), st.expected UsbDescTypeEndpoint = true →
      st.device = some d → (∀ e ∈ es, e.Std) →
      ∃ d1 l, runDescs path (es.map endpointDesc.encode) st =
          (none, { st with device := some d1, emitted := st.emitted ++ l }) ∧
        d1.info = d.info ∧ d1.path = d.path ∧
        (l = [] ↔ es = [] ∨ (d.epIn = 0 ∧ firstIn es.dropLast = none) ∨
          (d.epOut = 0 ∧ firstOut es.dropLast = none)) ∧
        (l = [] → Populated d es d1) ∧
        (l = [] → d.epOut = 0 → firstOut es = none →
          d1.outputPacketSize =
            ((lastZero es).map (·.MaxPacketSize)).getD d.outputPacketSize) := by
  induction es with
  | nil =>
    intro st d _ hd _
    refine ⟨d, [], ?_, rfl, rfl, by simp, fun _ => populated_nil d, fun _ _ _ => rfl⟩
    simp [runDescs, ← hd]
  | cons e es ih =>
    intro st d hx hd hes
    have hstd := hes e (List.mem_cons_self _ _)
    obtain ⟨e1, hce, ha, hm⟩ := castEndpoint_encode e hstd
    have hstep := walkBody_endpoint path st e.encode e1 d hx (framed_endpoint e hstd).2.2 hce hd
    rw [epApply_congr _ e e1 ha hm] at hstep
    obtain ⟨d1, l1, hrun, hinfo, hpath, hiff, hpop, hsz⟩ :=
      ih { st with
          device := some (epApply (epReset d) e)
          emitted := if d.epIn ≠ 0 ∧ d.epOut ≠ 0 then st.emitted ++ [d] else st.emitted }
        (epApply (epReset d) e) hx rfl (fun x hx => hes x (List.mem_cons_of_mem _ hx))
    have hi : d1.info = d.info :=
      hinfo.trans ((epApply_info _ e).1.trans (epReset_info d).1)
    have hp : d1.path = d.path :=
      hpath.trans ((epApply_info _ e).2.trans (epReset_info d).2)
    by_cases hboth : d.epIn ≠ 0 ∧ d.epOut ≠ 0
    · refine ⟨d1, d :: l1, ?_, hi, hp, ?_, ?_, ?_⟩
      · simp only [List.map_cons, runDescs, hstep]
        rw [hrun]
        simp [hboth]
      · simp [hboth.1, hboth.2]
      · intro h; cases h
      · intro h; cases h
    · have hr : epReset d = d := by simp only [epReset, if_neg hboth]
      rw [hr] at hrun hiff hpop hsz
      refine ⟨d1, l1, ?_, hi, hp, ?_, ?_, ?_⟩
      · simp only [List.map_cons, runDescs, hstep]
        rw [hr, hrun]
        simp only [if_neg hboth]
      · rw [hiff, epApply_epIn_zero, epApply_epOut_zero]
        have hfree : d.epIn = 0 ∨ d.epOut = 0 := by
          by_cases h1 : d.epIn = 0
          · exact Or.inl h1
          · by_cases h2 : d.epOut = 0
            · exact Or.inr h2
            · exact absurd ⟨h1, h2⟩ hboth
        cases es with
        | nil =>
          simp only [List.dropLast_single, firstIn, firstOut, List.find?_nil, and_true,
            true_or, true_iff, List.cons_ne_nil, false_or]
          exact hfree
        | cons e2 es2 =>
          simp only [List.dropLast_cons₂, firstIn_cons, firstOut_cons, List.cons_ne_nil,
            false_or]
          by_cases ha : 0x80 < e.Address <;>
            by_cases hb : 0 < e.Address ∧ e.Address < 0x80 <;> simp [ha, hb]
      · intro h
        exact populated_step d e es d1 (hpop h)
      · intro h ho hf
        rw [firstOut_cons] at hf
        by_cases hb : 0 < e.Address ∧ e.Address < 0x80
        · rw [if_pos hb] at hf; cases hf
        · rw [if_neg hb] at hf
          have ho1 : (epApply d e).epOut = 0 := (epApply_epOut_zero d e).mpr ⟨ho, hb⟩
          rw [hsz h ho1 hf, epApply_outSize, lastZero_cons]
          by_cases hz : e.Address = 0
          · have hc : e.Address < 0x80 ∧ d.epOut = 0 := ⟨by omega, ho⟩
            rw [if_pos hc, if_pos hz]
            cases lastZero es <;> rfl
          · have hc : ¬ (e.Address < 0x80 ∧ d.epOut = 0) := fun hc => hb ⟨by omega, hc.1⟩
            rw [if_neg hc, if_neg hz]

/-- C8, amended: for a pending candidate with both endpoint fields unset and
any sequence of ENDPOINT descriptors processed after its INTERFACE descriptor,
the loop meets no error, and it calls the sink during the sequence exactly
when an endpoint with address above 0x80 and an endpoint with address in
0x01..0x7F both come before the last descriptor of the sequence. When it has
not called the sink, the first ENDPOINT whose address is above 0x80 has
populated `epIn` and `inputPacketSize`, the first ENDPOINT whose address is in
0x01..0x7F has populated `epOut` and `outputPacketSize`, later endpoints have
not overwritten them, `Info` and `path` are untouched, and a field with no
such endpoint is still zero: an ENDPOINT with address 0x80 changes nothing,
and one with address 0x00 leaves `epOut` unset and only stores its packet
size in `outputPacketSize` until an endpoint in 0x01..0x7F arrives. -/
theorem endpoint_population (path : String) (st : WalkState) (d : usbDevice)
    (es : List endpointDesc) (rest : List Byte)
    (hx : st.expected UsbDescTypeEndpoint = true) (hd : st.device = some d)
    (hin : d.epIn = 0) (hout : d.epOut = 0) (hes : ∀ e ∈ es, e.Std) :
    ∃ d1 l, walkLoop path es.length ((es.map endpointDesc.encode).flatten ++ rest) st =
        (none, rest, { st with device := some d1, emitted := st.emitted ++ l }) ∧
      (l = [] ↔ (firstIn es.dropLast = none ∨ firstOut es.dropLast = none)) ∧
      ((firstIn es.dropLast = none ∨ firstOut es.dropLast = none) →
        d1.info = d.info ∧ d1.path = d.path ∧
        (∀ e, firstIn es = some e →
          d1.epIn = e.Address ∧ d1.inputPacketSize = e.MaxPacketSize) ∧
        (firstIn es = none → d1.epIn = 0 ∧ d1.inputPacketSize = d.inputPacketSize) ∧
        (∀ e, firstOut es = some e →
          d1.epOut = e.Address ∧ d1.outputPacketSize = e.MaxPacketSize) ∧
        (firstOut es = none → d1.epOut = 0 ∧ d1.outputPacketSize =
          ((lastZero es).map (·.MaxPacketSize)).getD d.outputPacketSize)) := by
  obtain ⟨d1, l, hrun, hinfo, hpath, hiff, hpop, hsz⟩ :=
    runDescs_endpoints_sink path es st d hx hd hes
  have hfr : ∀ b ∈ es.map endpointDesc.encode, 2 ≤ b.length ∧ (byteAt b 0).val = b.length := by
    intro b hb
    obtain ⟨e, he, rfl⟩ := List.mem_map.mp hb
    have := framed_endpoint e (hes e he)
    exact ⟨this.1, this.2.1⟩
  obtain ⟨h1, _⟩ := walkLoop_join_rest path (es.map endpointDesc.encode) rest 0 st hfr
  rw [hrun] at h1
  simp only [List.length_map, Nat.add_zero, walkLoop, forall_true_left] at h1
  have hq : (l = [] ↔ (firstIn es.dropLast = none ∨ firstOut es.dropLast = none)) := by
    rw [hiff]
    simp only [hin, hout, true_and]
    constructor
    · rintro (h | h)
      · subst h; exact Or.inl rfl
      · exact h
    · intro h; exact Or.inr h
  refine ⟨d1, l, h1, hq, ?_⟩
  intro hcond
  obtain ⟨p1, p2, p3, _, p5⟩ := hpop (hq.mpr hcond)
  simp only [hin, hout, ne_eq, not_true_eq_false, if_false] at p1 p2 p3
  refine ⟨hinfo, hpath, ?_, ?_, ?_, ?_⟩
  · intro e he
    rw [he] at p1 p2
    exact ⟨p1, p2⟩
  · intro he
    rw [he] at p1 p2
    exact ⟨p1, p2⟩
  · intro e he
    rw [he] at p3
    exact ⟨p3, p5 hout e he⟩
  · intro he
    rw [he] at p3
    exact ⟨p3, hsz (hq.mpr hcond) hout he⟩

/-- The descriptors of a HID interface with at most two endpoints, processed
once INTERFACE descriptors are accepted: the candidate that was pending is
handed to the sink and the new pending candidate carries the interface and
its endpoints. -/
theorem runDescs_group (path : String) (dd : deviceDesc)
    (g : interfaceDesc × List endpointDesc) (st : WalkState)
    (hx : st.expected UsbDescTypeInterface = true)
    (hids : st.devDesc.Vendor = dd.Vendor ∧ st.devDesc.Product = dd.Product ∧
      st.devDesc.Revision = dd.Revision)
    (hg : g.1.Std ∧ g.1.InterfaceClass = UsbHidClass ∧ g.2.length ≤ 2 ∧ ∀ e ∈ g.2, e.Std) :
    ∃ E c, runDescs path (groupDescs g) st =
        (none, ⟨E, st.devDesc, some c, st.emitted ++ st.device.toList⟩) ∧
      E UsbDescTypeInterface = true ∧ Carries path dd g c := by
  obtain ⟨hi, hcls, hlen, hes⟩ := hg
  obtain ⟨i1, hci, hn, hc, hs, hq⟩ := castInterface_encode g.1 hi
  have hstep := walkBody_interface path st g.1.encode i1 hx (framed_interface g.1 hi).2.2 hci
  rw [hc, hcls, if_pos rfl, flushDevice_emitted] at hstep
  obtain ⟨d1, l, hrun, hinfo, hpath, hfree, hpop⟩ := runDescs_endpoints path g.2
    ⟨setExpected (setExpected st.expected UsbDescTypeEndpoint true) UsbDescTypeReport true,
      st.devDesc, some (newDevice path st.devDesc i1), st.emitted ++ st.device.toList⟩
    (newDevice path st.devDesc i1) rfl rfl hes
  have hl : l = [] := hfree (by simpa [freeSlots, newDevice] using hlen)
  subst hl
  obtain ⟨p1, p2, p3, _, p5⟩ := hpop rfl
  refine ⟨setExpected (setExpected st.expected UsbDescTypeEndpoint true)
    UsbDescTypeReport true, d1, ?_, ?_, ?_⟩
  · simp only [groupDescs, runDescs, hstep]
    rw [hrun]
    simp
  · have hx4 : st.expected 4 = true := hx
    simp [setExpected, UsbDescTypeInterface, UsbDescTypeEndpoint, UsbDescTypeReport, hx4]
  unfold Carries
  refine ⟨?_, ?_, ?_, ?_⟩
  · rw [hinfo]
    simp [newDevice, hids.1, hids.2.1, hids.2.2, hn, hs, hq]
  · rw [hpath]; rfl
  · simp only [newDevice, ne_eq, not_true_eq_false, if_false] at p1 p2
    cases hf : firstIn g.2 with
    | none => rw [hf] at p1 p2; exact ⟨p1, p2⟩
    | some e => rw [hf] at p1 p2; exact ⟨p1, p2⟩
  · simp only [newDevice, ne_eq, not_true_eq_false, if_false] at p3
    cases hf : firstOut g.2 with
    | none => rw [hf] at p3; exact p3
    | some e => rw [hf] at p3; exact ⟨p3, p5 rfl e hf⟩

theorem runDescs_head (path : String) (dd : deviceDesc) (cfg : List Byte) (hdd : dd.Std)
    (hcfg : Framed UsbDescTypeConfig cfg) :
    ∃ dd1, runDescs path [dd.encode, cfg] walkInit = (none, ⟨headExpected, dd1, none, []⟩) ∧
      (dd1.Vendor = dd.Vendor ∧ dd1.Product = dd.Product ∧ dd1.Revision = dd.Revision) := by
  obtain ⟨dd1, hcd, hv, hp, hr⟩ := castDevice_encode dd hdd
  refine ⟨dd1, ?_, hv, hp, hr⟩
  simp only [runDescs]
  rw [walkBody_device path _ _ dd1 rfl (framed_device dd hdd).2.2 hcd]
  simp only
  rw [walkBody_config path _ _ rfl hcfg.2.2]
  rfl

theorem toUint_natCast (w n : Nat) : toUint w (n : Int) = n % 2 ^ w := by
  unfold toUint
  have : ((n : Int) % (2 ^ w : Int)) = ((n % 2 ^ w : Nat) : Int) := by
    push_cast
    rfl
  rw [this, Int.toNat_ofNat]

theorem slicePtr_ne_nil (data : List Byte) (h : data ≠ []) : slicePtr data = some data := by
  cases data with
  | nil => exact absurd rfl h
  | cons a t => rfl

theorem ctrl_trace (k : Kernel) (hid : usbHandle) (rtype req val index : Int)
    (data : List Byte) (t : Int) (h : data ≠ []) :
    (hid.ctrl k rtype req val index data t).trace =
      [⟨hid.f, USBDEVFS_CONTROL, .ctrl {
        ReqType := toUint 8 rtype
        Req := toUint 8 req
        Value := toUint 16 val
        Index := toUint 16 index
        Len := toUint 16 data.length
        Timeout := toUint 32 t
        Data := data }⟩] := by
  unfold usbHandle.ctrl
  rw [slicePtr_ne_nil data h]
  simp only [usbHandle.ioctl]
  split <;> rfl

theorem intr_trace (k : Kernel) (hid : usbHandle) (ep : Int) (data : List Byte) (t : Int)
    (h : data ≠ []) :
    (hid.intr k ep data t).trace =
      [⟨hid.f, USBDEVFS_BULK, .bulk {
        Endpoint := toUint 32 ep
        Len := toUint 32 data.length
        Timeout := toUint 32 t
        Data := data }⟩] := by
  unfold usbHandle.intr
  rw [slicePtr_ne_nil data h]
  simp only [usbHandle.ioctl]
  split <;> rfl

/-- C9, counterexample: with an empty buffer `Write` issues no request at
all, neither on a handle with an OUT endpoint nor on one without; and for a
buffer of 65536 bytes the length field of the fallback control request is 0,
not `len(buffer)`. -/
theorem write_empty_buffer_counterexample :
    ((scenHandle 2).Write scenKernel [] (5 * Millisecond)).trace = [] ∧
    ((scenHandle 0).Write scenKernel [] (5 * Millisecond)).trace = [] ∧
    ((scenHandle 0).Write scenKernel (List.replicate 65536 0) 0).trace =
      [⟨some 3, USBDEVFS_CONTROL, .ctrl ⟨0x21, 0x09, 0x0200, 0, 0, 65536,
        List.replicate 65536 0⟩⟩] := by
  refine ⟨by decide, by decide, ?_⟩
  have hne : (List.replicate 65536 (0 : Byte)) ≠ [] := by
    intro h
    have := congrArg List.length h
    rw [List.length_replicate] at this
    exact absurd this (by decide)
  have h := ctrl_trace scenKernel (scenHandle 0) 0x21 0x09 ((2 <<< 8 + 0 : Nat) : Int)
    ((scenHandle 0).dev.info.Interface : Int) (List.replicate 65536 0)
    ((List.replicate 65536 (0 : Byte)).length : Int) hne
  rw [List.length_replicate] at h
  have hw : ((scenHandle 0).Write scenKernel (List.replicate 65536 0) 0).trace =
      ((scenHandle 0).ctrl scenKernel 0x21 0x09 ((2 <<< 8 + 0 : Nat) : Int)
        ((scenHandle 0).dev.info.Interface : Int) (List.replicate 65536 0)
        ((List.replicate 65536 (0 : Byte)).length : Int)).trace := rfl
  rw [hw, List.length_replicate, h]
  rfl

/-- C9, amended: on a claimed handle and a non-empty buffer, `Write` issues
exactly one ioctl. If the candidate has an OUT endpoint (`epOut > 0`) it is a
`USBDEVFS_BULK` request on `epOut` with the buffer and the caller's timeout in
whole milliseconds (`timeout / 1ms`, as a 32-bit value); otherwise
(`epOut = 0`) it is a `USBDEVFS_CONTROL` request with request_type 0x21,
request 0x09, value 0x0200, index the interface number, length
`len(buffer)` as a 16-bit value and timeout `len(buffer)` as a 32-bit value. -/
theorem write_dispatch (k : Kernel) (hid : usbHandle) (fd : Nat) (data : List Byte)
    (timeout : Int) (hf : hid.f = some fd) (hd : data ≠ []) :
    (0 < hid.dev.epOut → (hid.Write k data timeout).trace =
      [⟨some fd, USBDEVFS_BULK, .bulk {
        Endpoint := hid.dev.epOut % 2 ^ 32
        Len := data.length % 2 ^ 32
        Timeout := toUint 32 (timeout.tdiv 1000000)
        Data := data }⟩]) ∧
    (hid.dev.epOut = 0 → (hid.Write k data timeout).trace =
      [⟨some fd, USBDEVFS_CONTROL, .ctrl {
        ReqType := 0x21
        Req := 0x09
        Value := 0x0200
        Index := hid.dev.info.Interface % 2 ^ 16
        Len := data.length % 2 ^ 16
        Timeout := data.length % 2 ^ 32
        Data := data }⟩]) := by
  constructor
  · intro hpos
    simp only [usbHandle.Write, gt_iff_lt, hpos, if_true, intr_trace _ _ _ _ _ hd,
      toUint_natCast, hf]
    rfl
  · intro hz
    simp only [usbHandle.Write, gt_iff_lt, hz, Nat.lt_irrefl, if_false,
      ctrl_trace _ _ _ _ _ _ _ _ hd, toUint_natCast, hf]
    rfl

theorem toUint16_lor (c : Nat) (report : Int) (hc : c < 2 ^ 16) (h0 : 0 ≤ report)
    (h1 : report < 65536) : (toUint 16 (Int.lor (c : Int) report) : Int) = Int.lor c report := by
  obtain ⟨n, rfl⟩ := Int.eq_ofNat_of_zero_le h0
  have hn : n < 2 ^ 16 := by
    have : (n : Int) < 65536 := h1
    omega
  have hl : Int.lor (c : Int) (n : Int) = ((c ||| n : Nat) : Int) := rfl
  rw [hl, toUint_natCast, Nat.mod_eq_of_lt (Nat.or_lt_two_pow hc hn)]

theorem getReport_trace (k : Kernel) (hid : usbHandle) (report : Int) :
    (hid.GetReport k report).trace =
      [⟨hid.f, USBDEVFS_CONTROL, .ctrl {
        ReqType := 0xa1
        Req := 0x01
        Value := toUint 16 report
        Index := hid.dev.info.Interface % 2 ^ 16
        Len := 256
        Timeout := 1000
        Data := List.replicate 256 0 }⟩] := by
  have hne : (List.replicate 256 (0 : Byte)) ≠ [] := by decide
  have h := ctrl_trace k hid 0xa1 0x01 report hid.dev.info.Interface
    (List.replicate 256 0) 1000 hne
  rw [toUint_natCast, List.length_replicate] at h
  unfold usbHandle.GetReport
  simp only
  have hsame : ∀ c : Call (Except Nat Int × List Byte),
      (match c.ret with
        | none => (⟨c.trace, none⟩ : Call (Except Nat (List Byte)))
        | some (.error e, _) => ⟨c.trace, some (.error e)⟩
        | some (.ok n, out) =>
          if 0 ≤ n ∧ n ≤ 256 then ⟨c.trace, some (.ok (out.take n.toNat))⟩
          else ⟨c.trace, none⟩).trace = c.trace := by
    intro c
    split
    · rfl
    · rfl
    · split <;> rfl
  refine (hsame (usbHandle.ctrl k hid 0xa1 0x01 report hid.dev.info.Interface
    (List.replicate 256 0) 1000)).trans ?_
  rw [h]
  rfl

theorem setReport_trace (k : Kernel) (hid : usbHandle) (report : Int) (data : List Byte)
    (hd : data ≠ []) :
    (hid.SetReport k report data).trace =
      [⟨hid.f, USBDEVFS_CONTROL, .ctrl {
        ReqType := 0x21
        Req := 0x09
        Value := toUint 16 report
        Index := hid.dev.info.Interface % 2 ^ 16
        Len := data.length % 2 ^ 16
        Timeout := 1000
        Data := data }⟩] := by
  have h := ctrl_trace k hid 0x21 0x09 report hid.dev.info.Interface data 1000 hd
  rw [toUint_natCast, toUint_natCast] at h
  unfold usbHandle.SetReport
  simp only
  rw [h]
  rfl

/-- C10, counterexample: for the report id 65536 the value field of the
request built by `GetFeatureReport` is 0x0300, not `(3<<8)|id = 0x10300`; and
`SetFeatureReport` and `SetOutputReport` called with empty data build no
request at all. -/
theorem report_value_counterexample :
    ((scenHandle 2).GetFeatureReport scenKernel 65536).trace =
      [⟨some 3, USBDEVFS_CONTROL, .ctrl ⟨0xa1, 0x01, 0x0300, 0, 256, 1000,
        List.replicate 256 0⟩⟩] ∧
    Int.lor ((3 <<< 8 : Nat) : Int) 65536 = 0x10300 ∧
    ((scenHandle 2).SetFeatureReport scenKernel 1 []).trace = [] ∧
    ((scenHandle 2).SetOutputReport scenKernel 1 []).trace = [] := by
  refine ⟨?_, by decide, by decide, by decide⟩
  rw [usbHandle.GetFeatureReport, getReport_trace]
  rfl

/-- C10, amended: on a claimed handle, for every report id and every
non-empty data buffer, `GetFeatureReport(id)`, `SetFeatureReport(id, data)` and
`SetOutputReport(id, data)` each issue exactly one `USBDEVFS_CONTROL` request,
with request_type/request 0xA1/0x01 (get) and 0x21/0x09 (set), index the
interface number, timeout 1000 ms, and a 16-bit value field that holds
`(3<<8)|id` (feature) or `(2<<8)|id` (output) reduced modulo 2^16: the value
itself for every id in 0..65535, in particular for every 8-bit report id. -/
theorem report_value_field (k : Kernel) (hid : usbHandle) (fd : Nat) (id : Int)
    (data : List Byte) (hf : hid.f = some fd) (hd : data ≠ []) :
    (hid.GetFeatureReport k id).trace =
      [⟨some fd, USBDEVFS_CONTROL, .ctrl {
        ReqType := 0xa1
        Req := 0x01
        Value := toUint 16 (Int.lor ((3 <<< 8 : Nat) : Int) id)
        Index := hid.dev.info.Interface % 2 ^ 16
        Len := 256
        Timeout := 1000
        Data := List.replicate 256 0 }⟩] ∧
    (hid.SetFeatureReport k id data).trace =
      [⟨some fd, USBDEVFS_CONTROL, .ctrl {
        ReqType := 0x21
        Req := 0x09
        Value := toUint 16 (Int.lor ((3 <<< 8 : Nat) : Int) id)
        Index := hid.dev.info.Interface % 2 ^ 16
        Len := data.length % 2 ^ 16
        Timeout := 1000
        Data := data }⟩] ∧
    (hid.SetOutputReport k id data).trace =
      [⟨some fd, USBDEVFS_CONTROL, .ctrl {
        ReqType := 0x21
        Req := 0x09
        Value := toUint 16 (Int.lor ((2 <<< 8 : Nat) : Int) id)
        Index := hid.dev.info.Interface % 2 ^ 16
        Len := data.length % 2 ^ 16
        Timeout := 1000
        Data := data }⟩] ∧
    (0 ≤ id → id < 65536 →
      (toUint 16 (Int.lor ((3 <<< 8 : Nat) : Int) id) : Int) =
          Int.lor ((3 <<< 8 : Nat) : Int) id ∧
        (toUint 16 (Int.lor ((2 <<< 8 : Nat) : Int) id) : Int) =
          Int.lor ((2 <<< 8 : Nat) : Int) id) := by
  refine ⟨?_, ?_, ?_, fun h0 h1 => ⟨?_, ?_⟩⟩
  · rw [usbHandle.GetFeatureReport, getReport_trace, hf]
  · rw [usbHandle.SetFeatureReport, setReport_trace _ _ _ _ hd, hf]
  · rw [usbHandle.SetOutputReport, setReport_trace _ _ _ _ hd, hf]
  · exact toUint16_lor _ id (by decide) h0 h1
  · exact toUint16_lor _ id (by decide) h0 h1

/-- C1, witness: Scenario A of the specification. -/
theorem walker_single_hid_interface_witness :
    walker "/dev/bus/usb/006/003" (.ok scenA) = ⟨none, [scenCandidate]⟩ ∧
    (walker "/dev/bus/usb/006/003" (.ok scenA)).emitted.map
      (fun c => (c.info.Bus, c.info.Device)) = [(6, 3)] :=
  walker_single_hid_interface "/dev/bus/usb/006/003" scenDevice scenConfig
    (scenInterface 0 3) (scenEndpoint 0x81 64) (scenEndpoint 0x02 32)
    (by decide) (by decide) (by decide) rfl (by decide) (by decide) (by decide) (by decide)

/-- C2, witness of the amended claim: the candidate of Scenario A, and a HID
interface followed by an OUT endpoint only. -/
theorem walker_epIn_zero_or_in_witness :
    (scenCandidate ∈ (walker "/dev/bus/usb/006/003" (.ok scenA)).emitted ∧
      (scenCandidate.epIn = 0 ∨ 0x80 < scenCandidate.epIn)) ∧
    ∃ c, walker "/dev/bus/usb/006/003" (.ok (scenDevice.encode ++ scenConfig ++
        (scenInterface 0 3).encode ++
        ([scenEndpoint 0x02 32].map endpointDesc.encode).flatten)) = ⟨none, [c]⟩ ∧
      c.epIn = 0 ∧
      c.info = (newDevice "/dev/bus/usb/006/003" scenDevice (scenInterface 0 3)).info :=
  ⟨⟨by decide, walker_epIn_zero_or_in.1 "/dev/bus/usb/006/003" (.ok scenA) scenCandidate
      (by decide)⟩,
    walker_epIn_zero_or_in.2 "/dev/bus/usb/006/003" scenDevice scenConfig (scenInterface 0 3)
      [scenEndpoint 0x02 32] (by decide) (by decide) (by decide) rfl (by decide)⟩

/-- C3, witness: the candidate of Scenario A. -/
theorem walker_endpoint_direction_witness :
    scenCandidate ∈ (walker "/dev/bus/usb/006/003" (.ok scenA)).emitted ∧
    (scenCandidate.epIn ≠ 0 → scenCandidate.epIn &&& 0x80 = 0x80) ∧
    (scenCandidate.epOut ≠ 0 → scenCandidate.epOut &&& 0x80 = 0) :=
  ⟨by decide, walker_endpoint_direction "/dev/bus/usb/006/003" (.ok scenA) scenCandidate
    (by decide)⟩

/-- C4, witness: a DEVICE descriptor followed by a descriptor that announces
9 bytes where 2 remain, and Scenario E (a blob that begins with 0x01). -/
theorem walker_framing_error_witness :
    (BadFraming (scenDevice.encode ++ [9, 2]) ∧
      ((walker "/dev/bus/usb/006/003" (.ok (scenDevice.encode ++ [9, 2]))).err =
          some .shortRead ∨
        (walker "/dev/bus/usb/006/003" (.ok (scenDevice.encode ++ [9, 2]))).err =
          some .unexpectedEOF)) ∧
    walker "/dev/bus/usb/006/003" (.ok [1]) = ⟨some .shortRead, []⟩ :=
  have hbad : BadFraming (scenDevice.encode ++ [9, 2]) :=
    ⟨[scenDevice.encode], 9, [2], by decide, rfl, Or.inr (by decide)⟩
  ⟨⟨hbad, walker_framing_error.1 "/dev/bus/usb/006/003" _ hbad⟩,
    walker_framing_error.2 "/dev/bus/usb/006/003" 1 [] (by decide)⟩

/-- C5, witness: Scenario C of the specification. -/
theorem walker_non_hid_witness :
    (∀ d ∈ descriptors scenC, (byteAt d 1).val = UsbDescTypeInterface →
      (byteAt d 5).val ≠ UsbHidClass) ∧
    (walker "/dev/bus/usb/006/003" (.ok scenC)).emitted = [] :=
  ⟨by decide, walker_non_hid "/dev/bus/usb/006/003" scenC (by decide)⟩

/-- C7, witness: in Scenario A the candidate is handed over after the five
descriptors of the blob, and its fields are those of the interface and device
descriptors among them. -/
theorem walker_info_source_witness :
    EmittedAfter "/dev/bus/usb/006/003" scenA 5 scenCandidate ∧
    ∃ dev ifc dd i, firstDevice (frames 5 scenA) = some dev ∧ castDevice dev = some dd ∧
      lastHidInterface (frames 5 scenA) = some ifc ∧ castInterface ifc = some i ∧
      scenCandidate.info.Vendor = dd.Vendor ∧ scenCandidate.info.Product = dd.Product ∧
      scenCandidate.info.Revision = dd.Revision ∧
      scenCandidate.info.SubClass = i.InterfaceSubClass ∧
      scenCandidate.info.Protocol = i.InterfaceProtocol ∧
      scenCandidate.info.Interface = i.Number :=
  have h : EmittedAfter "/dev/bus/usb/006/003" scenA 5 scenCandidate :=
    ⟨by decide, Or.inr ⟨by decide, by decide⟩⟩
  ⟨h, (walker_info_source "/dev/bus/usb/006/003" scenA).1 5 scenCandidate h⟩

/-- C8, witness of the amended claim, on the fresh candidate of the
interface of Scenario A. With IN 0x81, IN 0x83 and OUT 0x02 the sink is not
called, the first IN endpoint 0x81 (64 bytes) is kept against the later 0x83,
and OUT is 0x02 (32 bytes). With the addresses 0x80 (8 bytes) and 0x00 (16
bytes) both endpoint fields stay unset and only `outputPacketSize` becomes
16. -/
theorem endpoint_population_witness :
    (scenPending.expected UsbDescTypeEndpoint = true ∧
      scenPending.device =
        some (newDevice "/dev/bus/usb/006/003" scenDevice (scenInterface 0 3)) ∧
      (∀ e ∈ [scenEndpoint 0x81 64, scenEndpoint 0x83 8, scenEndpoint 0x02 32], e.Std) ∧
      (∀ e ∈ [scenEndpoint 0x80 8, scenEndpoint 0x00 16], e.Std)) ∧
    (∃ d1, walkLoop "/dev/bus/usb/006/003" 3
        (([scenEndpoint 0x81 64, scenEndpoint 0x83 8, scenEndpoint 0x02 32].map
          endpointDesc.encode).flatten ++ []) scenPending =
        (none, [], { scenPending with device := some d1, emitted := [] }) ∧
      d1.info = ⟨0x1234, 0x5678, 0x0100, 1, 2, 0, 6, 3⟩ ∧
      d1.epIn = 0x81 ∧ d1.inputPacketSize = 64 ∧ d1.epOut = 0x02 ∧
      d1.outputPacketSize = 32) ∧
    (∃ d1, walkLoop "/dev/bus/usb/006/003" 2
        (([scenEndpoint 0x80 8, scenEndpoint 0x00 16].map
          endpointDesc.encode).flatten ++ []) scenPending =
        (none, [], { scenPending with device := some d1, emitted := [] }) ∧
      d1.epIn = 0 ∧ d1.inputPacketSize = 0 ∧ d1.epOut = 0 ∧
      d1.outputPacketSize = 16) := by
  obtain ⟨d1, l, h1, h2, h3⟩ := endpoint_population "/dev/bus/usb/006/003" scenPending
    (newDevice "/dev/bus/usb/006/003" scenDevice (scenInterface 0 3))
    [scenEndpoint 0x81 64, scenEndpoint 0x83 8, scenEndpoint 0x02 32] [] rfl rfl rfl rfl
    (by decide)
  have hq : firstIn [scenEndpoint 0x81 64, scenEndpoint 0x83 8, scenEndpoint 0x02 32].dropLast =
        none ∨
      firstOut [scenEndpoint 0x81 64, scenEndpoint 0x83 8, scenEndpoint 0x02 32].dropLast =
        none := Or.inr (by decide)
  have hl := h2.mpr hq
  subst hl
  obtain ⟨q1, _, q3, _, q5, _⟩ := h3 hq
  have a := q3 (scenEndpoint 0x81 64) (by decide)
  have b := q5 (scenEndpoint 0x02 32) (by decide)
  obtain ⟨d2, l2, k1, k2, k3⟩ := endpoint_population "/dev/bus/usb/006/003" scenPending
    (newDevice "/dev/bus/usb/006/003" scenDevice (scenInterface 0 3))
    [scenEndpoint 0x80 8, scenEndpoint 0x00 16] [] rfl rfl rfl rfl (by decide)
  have hq2 : firstIn [scenEndpoint 0x80 8, scenEndpoint 0x00 16].dropLast = none ∨
      firstOut [scenEndpoint 0x80 8, scenEndpoint 0x00 16].dropLast = none :=
    Or.inl (by decide)
  have hl2 := k2.mpr hq2
  subst hl2
  obtain ⟨_, _, _, r4, _, r6⟩ := k3 hq2
  have c := r4 (by decide)
  have d := r6 (by decide)
  exact ⟨⟨rfl, rfl, by decide, by decide⟩,
    ⟨d1, h1, by rw [q1]; decide, a.1, a.2, b.1, b.2⟩,
    ⟨d2, k1, c.1, c.2, d.1, d.2⟩⟩

/-- C9, witness of the amended claim: a three-byte buffer and a timeout of
5 ms on a handle with OUT endpoint 0x02 (Scenario A) and on one without
(Scenario B). -/
theorem write_dispatch_witness :
    ((scenHandle 2).Write scenKernel [1, 2, 3] (5 * Millisecond)).trace =
      [⟨some 3, USBDEVFS_BULK, .bulk ⟨2, 3, 5, [1, 2, 3]⟩⟩] ∧
    ((scenHandle 0).Write scenKernel [1, 2, 3] (5 * Millisecond)).trace =
      [⟨some 3, USBDEVFS_CONTROL, .ctrl ⟨0x21, 0x09, 0x0200, 0, 3, 3, [1, 2, 3]⟩⟩] :=
  ⟨(write_dispatch scenKernel (scenHandle 2) 3 [1, 2, 3] (5 * Millisecond) rfl
      (by decide)).1 (by decide),
    (write_dispatch scenKernel (scenHandle 0) 3 [1, 2, 3] (5 * Millisecond) rfl
      (by decide)).2 rfl⟩

/-- C10, witness of the amended claim: report id 7 and a two-byte buffer. -/
theorem report_value_field_witness :
    ((scenHandle 2).GetFeatureReport scenKernel 7).trace =
      [⟨some 3, USBDEVFS_CONTROL, .ctrl ⟨0xa1, 0x01, 0x0307, 0, 256, 1000,
        List.replicate 256 0⟩⟩] ∧
    ((scenHandle 2).SetFeatureReport scenKernel 7 [1, 2]).trace =
      [⟨some 3, USBDEVFS_CONTROL, .ctrl ⟨0x21, 0x09, 0x0307, 0, 2, 1000, [1, 2]⟩⟩] ∧
    ((scenHandle 2).SetOutputReport scenKernel 7 [1, 2]).trace =
      [⟨some 3, USBDEVFS_CONTROL, .ctrl ⟨0x21, 0x09, 0x0207, 0, 2, 1000, [1, 2]⟩⟩] :=
  have h := report_value_field scenKernel (scenHandle 2) 3 7 [1, 2] rfl (by decide)
  ⟨h.1, h.2.1, h.2.2.1⟩

theorem toUint_of_lt (w : Nat) (x : Int) (h0 : 0 ≤ x) (h1 : x < 2 ^ w) :
    (toUint w x : Int) = x := by
  unfold toUint
  rw [Int.emod_eq_of_lt h0 h1, Int.toNat_of_nonneg h0]

theorem tdiv_small (d : Int) (h0 : -1000000 < d) (h1 : d < 1000000) :
    d.tdiv 1000000 = 0 := by
  by_cases hd : 0 ≤ d
  · exact Int.tdiv_eq_zero_of_lt hd h1
  · have hneg : d = -(-d) := by omega
    rw [hneg, Int.neg_tdiv, Int.tdiv_eq_zero_of_lt (by omega) (by omega)]
    rfl

theorem read_trace (k : Kernel) (hid : usbHandle) (data : List Byte) (d : Int)
    (hd : data ≠ []) :
    (hid.Read k data d).trace =
      [⟨hid.f, USBDEVFS_BULK, .bulk {
        Endpoint := hid.dev.epIn % 2 ^ 32
        Len := data.length % 2 ^ 32
        Timeout := toUint 32 (d.tdiv 1000000)
        Data := data }⟩] := by
  simp only [usbHandle.Read, intr_trace _ _ _ _ _ hd, toUint_natCast]
  rfl

/-- C11, counterexample: a duration of -1 ms passed to `Read` gives the
timeout field 4294967295, not `d / 1ms = -1`; a duration of 2^32 ms passed to
`Write` on a handle with an OUT endpoint gives the timeout field 0. -/
theorem timeout_wraps_counterexample :
    (((scenHandle 2).Read scenKernel [0] (-1 * Millisecond)).trace =
        [⟨some 3, USBDEVFS_BULK, .bulk ⟨0x81, 1, 4294967295, [0]⟩⟩] ∧
      (-1 * Millisecond).tdiv (1 * Millisecond) = -1) ∧
    (((scenHandle 2).Write scenKernel [0] (4294967296 * Millisecond)).trace =
        [⟨some 3, USBDEVFS_BULK, .bulk ⟨0x02, 1, 0, [0]⟩⟩] ∧
      (4294967296 * Millisecond).tdiv (1 * Millisecond) = 4294967296) := by
  decide

/-- C11, amended: for any duration `d` passed with a non-empty buffer to
`Read`, or to `Write` on a candidate with an OUT endpoint, the one bulk request
handed to the kernel has its 32-bit timeout field equal to `d / 1ms` (the
quotient truncated toward zero) reduced modulo 2^32; this is `d / 1ms` itself
whenever `0 ≤ d < 2^32 ms`, and 0 for every `|d| < 1ms`. -/
theorem timeout_conversion (k : Kernel) (hid : usbHandle) (data : List Byte) (d : Int)
    (hd : data ≠ []) :
    (hid.Read k data d).trace =
      [⟨hid.f, USBDEVFS_BULK, .bulk {
        Endpoint := hid.dev.epIn % 2 ^ 32
        Len := data.length % 2 ^ 32
        Timeout := toUint 32 (d.tdiv (1 * Millisecond))
        Data := data }⟩] ∧
    (0 < hid.dev.epOut → (hid.Write k data d).trace =
      [⟨hid.f, USBDEVFS_BULK, .bulk {
        Endpoint := hid.dev.epOut % 2 ^ 32
        Len := data.length % 2 ^ 32
        Timeout := toUint 32 (d.tdiv (1 * Millisecond))
        Data := data }⟩]) ∧
    (0 ≤ d → d < 2 ^ 32 * Millisecond →
      (toUint 32 (d.tdiv (1 * Millisecond)) : Int) = d.tdiv (1 * Millisecond)) ∧
    (-Millisecond < d → d < Millisecond → toUint 32 (d.tdiv (1 * Millisecond)) = 0) := by
  have hms : (1 * Millisecond : Int) = 1000000 := rfl
  refine ⟨?_, ?_, ?_, ?_⟩
  · rw [hms]; exact read_trace k hid data d hd
  · intro hpos
    simp only [usbHandle.Write, gt_iff_lt, hpos, if_true, intr_trace _ _ _ _ _ hd,
      toUint_natCast]
  · intro h0 h1
    rw [hms]
    have hm : (Millisecond : Int) = 1000000 := rfl
    rw [hm] at h1
    apply toUint_of_lt
    · exact Int.tdiv_nonneg h0 (by decide)
    · rw [Int.tdiv_eq_ediv h0 (by decide)]
      omega
  · intro h0 h1
    have hm : (Millisecond : Int) = 1000000 := rfl
    rw [hm] at h0 h1
    rw [hms, tdiv_small d h0 h1]
    rfl

/-- C11, witness of the amended claim: a timeout of 2.5 ms. -/
theorem timeout_conversion_witness :
    ((scenHandle 2).Read scenKernel [0] 2500000).trace =
      [⟨some 3, USBDEVFS_BULK, .bulk ⟨0x81, 1, 2, [0]⟩⟩] ∧
    ((scenHandle 2).Write scenKernel [0] 2500000).trace =
      [⟨some 3, USBDEVFS_BULK, .bulk ⟨0x02, 1, 2, [0]⟩⟩] :=
  have h := timeout_conversion scenKernel (scenHandle 2) [0] 2500000 (by decide)
  ⟨h.1, h.2.1 (by decide)⟩

theorem release_trace (k : Kernel) (hid : usbHandle) (fd : Nat) (hf : hid.f = some fd) :
    (hid.release k).trace =
      if (k (releaseCall hid fd)).r = -1 then [releaseCall hid fd]
      else [releaseCall hid fd, connectCall hid fd] := by
  simp only [usbHandle.release, usbHandle.ioctl, toUint_natCast, hf, releaseCall, connectCall]
  split <;> rfl

theorem close_eq (k : Kernel) (hid : usbHandle) (fd : Nat) (hf : hid.f = some fd) :
    hid.Close k =
      ⟨{ hid with f := none },
        (if (k (releaseCall hid fd)).r = -1 then [Event.ioctl (releaseCall hid fd)]
          else [Event.ioctl (releaseCall hid fd), Event.ioctl (connectCall hid fd)]) ++
          [Event.closeFile fd],
        none⟩ := by
  simp only [usbHandle.Close, hf, release_trace k hid fd hf]
  split <;> rfl

theorem close_closed (k : Kernel) (hid : usbHandle) (hf : hid.f = none) :
    hid.Close k = ⟨hid, [], none⟩ := by
  simp only [usbHandle.Close, hf]

/-- C12: `Close` is idempotent. On a claimed handle, whatever the kernel
answers to the ioctls of the first and of the second call, `Close` followed
by `Close` returns success both times, leaves the handle closed, and issues
the RELEASE ioctl exactly once; `Close` on a closed handle issues no ioctl,
closes no file and leaves the handle as it is. -/
theorem close_idempotent (k1 k2 : Kernel) (hid : usbHandle) :
    (∀ fd, hid.f = some fd →
      (hid.Close k1).err = none ∧ ((hid.Close k1).hid.Close k2).err = none ∧
      (hid.Close k1).hid.f = none ∧ ((hid.Close k1).hid.Close k2).hid.f = none ∧
      ((hid.Close k1).trace ++ ((hid.Close k1).hid.Close k2).trace).countP
        Event.isRelease = 1) ∧
    (hid.f = none → hid.Close k1 = ⟨hid, [], none⟩) := by
  constructor
  · intro fd hf
    have hc1 := close_eq k1 hid fd hf
    have hf1 : (hid.Close k1).hid.f = none := by rw [hc1]
    have hc2 := close_closed k2 (hid.Close k1).hid hf1
    refine ⟨by rw [hc1], by rw [hc2], hf1, by rw [hc2]; exact hf1, ?_⟩
    rw [hc2, hc1]
    simp only [List.append_nil]
    split <;> simp [List.countP_cons, Event.isRelease, releaseCall, connectCall,
      USBDEVFS_RELEASE, USBDEVFS_IOCTL]
  · exact close_closed k1 hid

/-- C12, witness: Scenario F on the handle of Scenario A, with a kernel that
accepts the ioctls and with one that rejects them. -/
theorem close_idempotent_witness :
    ((scenHandle 2).Close scenKernel).err = none ∧
    (((scenHandle 2).Close scenKernel).hid.Close scenDeadKernel).err = none ∧
    ((scenHandle 2).Close scenKernel).hid.f = none ∧
    (((scenHandle 2).Close scenKernel).hid.Close scenDeadKernel).hid.f = none ∧
    (((scenHandle 2).Close scenKernel).trace ++
      (((scenHandle 2).Close scenKernel).hid.Close scenDeadKernel).trace).countP
        Event.isRelease = 1 :=
  (close_idempotent scenKernel scenDeadKernel (scenHandle 2)).1 3 rfl

/-- C13, counterexample: when the RELEASE ioctl fails, `Close` issues no
CONNECT ioctl: the RELEASE is followed at once by the closing of the file. -/
theorem close_no_reattach_counterexample :
    ((scenHandle 2).Close scenDeadKernel).trace =
      [Event.ioctl ⟨some 3, USBDEVFS_RELEASE, .ifno 0⟩, Event.closeFile 3] := by
  decide

/-- C13, amended: on a claimed handle `Close` issues the RELEASE ioctl for
the interface, then, if the RELEASE succeeded, the CONNECT (driver reattach)
ioctl for the interface, whose failure is ignored, then closes the file
descriptor, and returns success; when the RELEASE fails no CONNECT is issued. -/
theorem close_sequence (k : Kernel) (hid : usbHandle) (fd : Nat) (hf : hid.f = some fd) :
    ((k (releaseCall hid fd)).r ≠ -1 →
      hid.Close k = ⟨{ hid with f := none },
        [Event.ioctl (releaseCall hid fd), Event.ioctl (connectCall hid fd),
          Event.closeFile fd], none⟩) ∧
    ((k (releaseCall hid fd)).r = -1 →
      hid.Close k = ⟨{ hid with f := none },
        [Event.ioctl (releaseCall hid fd), Event.closeFile fd], none⟩) := by
  constructor
  · intro h
    rw [close_eq k hid fd hf, if_neg h]
    rfl
  · intro h
    rw [close_eq k hid fd hf, if_pos h]
    rfl

/-- C13, witness of the amended claim: the handle of Scenario A closed with a
kernel that accepts the ioctls and with one that rejects them. -/
theorem close_sequence_witness :
    (scenHandle 2).Close scenKernel = ⟨{ scenHandle 2 with f := none },
      [Event.ioctl ⟨some 3, USBDEVFS_RELEASE, .ifno 0⟩,
        Event.ioctl ⟨some 3, USBDEVFS_IOCTL, .ioctl ⟨0, USBDEVFS_CONNECT, 0⟩⟩,
        Event.closeFile 3], none⟩ ∧
    (scenHandle 2).Close scenDeadKernel = ⟨{ scenHandle 2 with f := none },
      [Event.ioctl ⟨some 3, USBDEVFS_RELEASE, .ifno 0⟩, Event.closeFile 3], none⟩ :=
  ⟨(close_sequence scenKernel (scenHandle 2) 3 rfl).1 (by decide),
    (close_sequence scenDeadKernel (scenHandle 2) 3 rfl).2 (by decide)⟩

theorem ctrl_ret (k : Kernel) (hid : usbHandle) (rtype req val index : Int)
    (data : List Byte) (t : Int) (h : data ≠ []) :
    (hid.ctrl k rtype req val index data t).ret ≠ none := by
  unfold usbHandle.ctrl
  rw [slicePtr_ne_nil data h]
  simp only [usbHandle.ioctl]
  split <;> simp

theorem intr_ret (k : Kernel) (hid : usbHandle) (ep : Int) (data : List Byte) (t : Int)
    (h : data ≠ []) : (hid.intr k ep data t).ret ≠ none := by
  unfold usbHandle.intr
  rw [slicePtr_ne_nil data h]
  simp only [usbHandle.ioctl]
  split <;> simp

/-- C15, counterexample: with `timeout_ms = -1` the timeout field of the
record is 4294967295, and with a buffer of 65536 bytes its length field is 0. -/
theorem ctrl_truncation_counterexample :
    ((scenHandle 2).Ctrl scenKernel 0x21 0x09 0x0200 0 [0] (-1)).trace =
      [⟨some 3, USBDEVFS_CONTROL, .ctrl ⟨0x21, 0x09, 0x0200, 0, 1, 4294967295, [0]⟩⟩] ∧
    ((scenHandle 2).Ctrl scenKernel 0x21 0x09 0x0200 0 (List.replicate 65536 0) 1000).trace =
      [⟨some 3, USBDEVFS_CONTROL, .ctrl ⟨0x21, 0x09, 0x0200, 0, 0, 1000,
        List.replicate 65536 0⟩⟩] := by
  refine ⟨by decide, ?_⟩
  have hne : (List.replicate 65536 (0 : Byte)) ≠ [] := by
    intro h
    have := congrArg List.length h
    rw [List.length_replicate] at this
    exact absurd this (by decide)
  have h := ctrl_trace scenKernel (scenHandle 2) 0x21 0x09 0x0200 0
    (List.replicate 65536 0) 1000 hne
  rw [List.length_replicate] at h
  rw [usbHandle.Ctrl, h]
  rfl

/-- C15, amended: for every request_type, request, value, index, non-empty
buffer and timeout_ms, `Ctrl` hands to the kernel exactly one control request
record; it carries the first four arguments as its setup fields
(request_type and request as 8-bit, value and index as 16-bit values), its
length field is `len(buffer)` as a 16-bit value and its timeout field is
`timeout_ms` as a 32-bit value: `len(buffer)` and `timeout_ms` themselves when
the buffer has fewer than 65536 bytes and `0 ≤ timeout_ms < 2^32`. -/
theorem ctrl_record (k : Kernel) (hid : usbHandle) (rtype req val index : Int)
    (data : List Byte) (t : Int) (hd : data ≠ []) :
    (hid.Ctrl k rtype req val index data t).trace =
      [⟨hid.f, USBDEVFS_CONTROL, .ctrl {
        ReqType := toUint 8 rtype
        Req := toUint 8 req
        Value := toUint 16 val
        Index := toUint 16 index
        Len := data.length % 2 ^ 16
        Timeout := toUint 32 t
        Data := data }⟩] ∧
    (data.length < 2 ^ 16 → 0 ≤ t → t < 2 ^ 32 →
      (hid.Ctrl k rtype req val index data t).trace =
        [⟨hid.f, USBDEVFS_CONTROL, .ctrl {
          ReqType := toUint 8 rtype
          Req := toUint 8 req
          Value := toUint 16 val
          Index := toUint 16 index
          Len := data.length
          Timeout := t.toNat
          Data := data }⟩]) := by
  have h : (hid.Ctrl k rtype req val index data t).trace =
      [⟨hid.f, USBDEVFS_CONTROL, .ctrl {
        ReqType := toUint 8 rtype
        Req := toUint 8 req
        Value := toUint 16 val
        Index := toUint 16 index
        Len := data.length % 2 ^ 16
        Timeout := toUint 32 t
        Data := data }⟩] := by
    rw [usbHandle.Ctrl, ctrl_trace _ _ _ _ _ _ _ _ hd, toUint_natCast]
  refine ⟨h, ?_⟩
  intro hl h0 h1
  rw [h, Nat.mod_eq_of_lt hl]
  have ht : toUint 32 t = t.toNat := by
    unfold toUint
    rw [Int.emod_eq_of_lt h0 h1]
  rw [ht]

/-- C15, witness of the amended claim: a SET_REPORT request with a
three-byte buffer and a timeout of 1000 ms. -/
theorem ctrl_record_witness :
    ((scenHandle 2).Ctrl scenKernel 0x21 0x09 0x0200 0 [1, 2, 3] 1000).trace =
      [⟨some 3, USBDEVFS_CONTROL, .ctrl ⟨0x21, 0x09, 0x0200, 0, 3, 1000, [1, 2, 3]⟩⟩] :=
  (ctrl_record scenKernel (scenHandle 2) 0x21 0x09 0x0200 0 [1, 2, 3] 1000 (by decide)).2
    (by decide) (by decide) (by decide)

/-- C18: every transfer needs a non-empty buffer. With empty data `Ctrl`,
`Write`, `SetFeatureReport` and `SetOutputReport` panic before any ioctl is
issued, and so does `ReadInputPacket` on a candidate whose `inputPacketSize`
is 0; for every non-empty buffer `slicePtr` succeeds and `ctrl` and `intr`
issue their one request and return without a panic. -/
theorem empty_buffer_panics (k : Kernel) (hid : usbHandle) (rtype req val index t : Int)
    (timeout report ep : Int) :
    (hid.Ctrl k rtype req val index [] t).trace = [] ∧
    (hid.Ctrl k rtype req val index [] t).ret = none ∧
    (hid.Write k [] timeout).trace = [] ∧ (hid.Write k [] timeout).ret = none ∧
    (hid.SetFeatureReport k report []).trace = [] ∧
    (hid.SetFeatureReport k report []).ret = none ∧
    (hid.SetOutputReport k report []).trace = [] ∧
    (hid.SetOutputReport k report []).ret = none ∧
    (hid.dev.inputPacketSize = 0 →
      (hid.ReadInputPacket k timeout).trace = [] ∧
      (hid.ReadInputPacket k timeout).ret = none) ∧
    (∀ data : List Byte, data ≠ [] →
      slicePtr data = some data ∧
      (hid.ctrl k rtype req val index data t).trace.length = 1 ∧
      (hid.ctrl k rtype req val index data t).ret ≠ none ∧
      (hid.intr k ep data t).trace.length = 1 ∧
      (hid.intr k ep data t).ret ≠ none) := by
  refine ⟨rfl, rfl, ?_, ?_, rfl, rfl, rfl, rfl, ?_, ?_⟩
  · unfold usbHandle.Write
    split <;> rfl
  · unfold usbHandle.Write
    split <;> rfl
  · intro h0
    simp only [usbHandle.ReadInputPacket, h0, List.replicate_zero]
    exact ⟨rfl, rfl⟩
  · intro data hd
    refine ⟨slicePtr_ne_nil data hd, ?_, ctrl_ret _ _ _ _ _ _ _ _ hd, ?_, intr_ret _ _ _ _ _ hd⟩
    · rw [ctrl_trace _ _ _ _ _ _ _ _ hd]; rfl
    · rw [intr_trace _ _ _ _ _ hd]; rfl

/-- C18, witness: a three-byte buffer on the handle of Scenario A. -/
theorem empty_buffer_panics_witness :
    slicePtr [1, 2, 3] = some [1, 2, 3] ∧
    ((scenHandle 2).ctrl scenKernel 0x21 0x09 0x0200 0 [1, 2, 3] 1000).trace.length = 1 ∧
    ((scenHandle 2).ctrl scenKernel 0x21 0x09 0x0200 0 [1, 2, 3] 1000).ret ≠ none ∧
    ((scenHandle 2).intr scenKernel 0x81 [1, 2, 3] 1000).trace.length = 1 ∧
    ((scenHandle 2).intr scenKernel 0x81 [1, 2, 3] 1000).ret ≠ none :=
  (empty_buffer_panics scenKernel (scenHandle 2) 0x21 0x09 0x0200 0 1000 0 0 0x81).2.2.2.2.2.2.2.2.2
    [1, 2, 3] (by decide)

theorem stripLit_append (lit s : List Char) : stripLit lit (lit ++ s) = some s := by
  induction lit with
  | nil => rfl
  | cons c cs ih => simp [stripLit, ih]

theorem stripLit_some (lit : List Char) :
    ∀ s s1 : List Char, stripLit lit s = some s1 → s = lit ++ s1 := by
  induction lit with
  | nil => intro s s1 h; simp [stripLit] at h; simp [h]
  | cons c cs ih =>
    intro s s1 h
    cases s with
    | nil => simp [stripLit] at h
    | cons d ds =>
      simp only [stripLit] at h
      split at h
      · rename_i hcd
        rw [hcd, ih ds s1 h]
        rfl
      · cases h

theorem takeWhile_digits (b rest : List Char) (hb : ∀ c ∈ b, c.isDigit = true)
    (hrest : ∀ c p, rest = c :: p → c.isDigit = false) :
    (b ++ rest).takeWhile Char.isDigit = b ∧ (b ++ rest).dropWhile Char.isDigit = rest := by
  induction b with
  | nil =>
    cases rest with
    | nil => exact ⟨rfl, rfl⟩
    | cons c p =>
      have := hrest c p rfl
      simp [List.takeWhile, List.dropWhile, this]
  | cons x xs ih =>
    have hx := hb x (List.mem_cons_self _ _)
    have := ih (fun c hc => hb c (List.mem_cons_of_mem _ hc))
    simp [List.takeWhile, List.dropWhile, hx, this.1, this.2]

/-- The pattern matched at the start of a string of the canonical form. -/
theorem matchHere_canonical (b d post : List Char) (hb : IsDigits b) (hd : IsDigits d)
    (hpost : ∀ c p, post = c :: p → c.isDigit = false) :
    matchHere (devBusUsbLit ++ b ++ '/' :: d ++ post) = some (b, d) := by
  have h1 : stripLit "/dev/bus/usb/".toList (devBusUsbLit ++ b ++ '/' :: d ++ post) =
      some (b ++ ('/' :: (d ++ post))) := by
    have := stripLit_append devBusUsbLit (b ++ ('/' :: (d ++ post)))
    simpa [devBusUsbLit, List.append_assoc] using this
  have h2 := takeWhile_digits b ('/' :: (d ++ post)) hb.2
    (by intro c p h; cases h; decide)
  have h3 := takeWhile_digits d post hd.2 hpost
  unfold matchHere
  rw [h1]
  simp only [h2.1, h2.2, h3.1, hb.1, hd.1, if_false]

/-- A match of the pattern exhibits an occurrence of the canonical form. -/
theorem matchHere_some (s b d : List Char) (h : matchHere s = some (b, d)) :
    ∃ post, s = devBusUsbLit ++ b ++ '/' :: d ++ post ∧ IsDigits b ∧ IsDigits d := by
  unfold matchHere at h
  split at h
  · cases h
  · rename_i s1 hs1
    have hs := stripLit_some _ s s1 hs1
    simp only at h
    split at h
    · cases h
    · rename_i hne1
      split at h
      · rename_i s3 hs3
        split at h
        · cases h
        · rename_i hne2
          simp only [Option.some.injEq, Prod.mk.injEq] at h
          obtain ⟨hb, hd⟩ := h
          refine ⟨s3.dropWhile Char.isDigit, ?_, ⟨?_, ?_⟩, ⟨?_, ?_⟩⟩
          · rw [hs, ← hb, ← hd]
            have e1 := List.takeWhile_append_dropWhile Char.isDigit s1
            have e3 := List.takeWhile_append_dropWhile Char.isDigit s3
            rw [hs3] at e1
            simp only [devBusUsbLit, List.append_assoc]
            rw [List.cons_append, e3, e1]
          · rw [← hb]; exact hne1
          · intro c hc
            rw [← hb] at hc
            exact List.mem_takeWhile_imp hc
          · rw [← hd]; exact hne2
          · intro c hc
            rw [← hd] at hc
            exact List.mem_takeWhile_imp hc
      · cases h

theorem findStringSubmatch_some (s : List Char) :
    ∀ b d, findStringSubmatch s = some (b, d) →
      ∃ pre post, s = pre ++ devBusUsbLit ++ b ++ '/' :: d ++ post ∧
        IsDigits b ∧ IsDigits d := by
  induction s with
  | nil => intro b d h; cases h
  | cons c cs ih =>
    intro b d h
    simp only [findStringSubmatch] at h
    split at h
    · rename_i m hm
      simp only [Option.some.injEq] at h
      subst h
      obtain ⟨post, hs, hb, hd⟩ := matchHere_some _ b d hm
      exact ⟨[], post, by simpa using hs, hb, hd⟩
    · obtain ⟨pre, post, hs, hb, hd⟩ := ih b d h
      exact ⟨c :: pre, post, by simp [hs], hb, hd⟩

/-- A property of candidates that holds for every freshly built candidate and
is kept by the reset and by the assignments of the ENDPOINT case holds for
every candidate in the loop state. -/
theorem walkBody_candidates (path : String) (Q : usbDevice → Prop)
    (hnew : ∀ dd i, Q (newDevice path dd i)) (hreset : ∀ d, Q d → Q (epReset d))
    (happly : ∀ d e, Q d → Q (epApply d e)) (st : WalkState) (body : List Byte)
    (h : (∀ c ∈ st.emitted, Q c) ∧ ∀ c, st.device = some c → Q c) :
    (∀ c ∈ (walkBody path st body).2.emitted, Q c) ∧
      ∀ c, (walkBody path st body).2.device = some c → Q c := by
  have htl : ∀ c ∈ st.emitted ++ st.device.toList, Q c := by
    intro c hc
    simp only [List.mem_append, Option.mem_toList, Option.mem_def] at hc
    rcases hc with hc | hc
    · exact h.1 c hc
    · exact h.2 c hc
  rw [walkBody_eq]
  split_ifs
  · exact h
  · split <;> exact h
  · exact ⟨htl, by simp⟩
  · split
    · exact ⟨htl, by simp⟩
    · refine ⟨htl, ?_⟩
      intro c hc
      simp only at hc
      split at hc
      · simp only [Option.some.injEq] at hc
        rw [← hc]
        exact hnew _ _
      · cases hc
  · split
    · exact h
    · rename_i d0 hd0
      have hem : ∀ c ∈ epEmit st d0, Q c := by
        intro c hc
        unfold epEmit at hc
        split at hc
        · simp only [List.mem_append, List.mem_singleton] at hc
          rcases hc with hc | hc
          · exact h.1 c hc
          · rw [hc]; exact h.2 d0 hd0
        · exact h.1 c hc
      split
      · refine ⟨hem, ?_⟩
        intro c hc
        simp only [Option.some.injEq] at hc
        rw [← hc]
        exact hreset d0 (h.2 d0 hd0)
      · refine ⟨hem, ?_⟩
        intro c hc
        simp only [Option.some.injEq] at hc
        rw [← hc]
        exact happly _ _ (hreset d0 (h.2 d0 hd0))
  · exact h

theorem walker_candidates (path : String) (Q : usbDevice → Prop)
    (hnew : ∀ dd i, Q (newDevice path dd i)) (hreset : ∀ d, Q d → Q (epReset d))
    (happly : ∀ d e, Q d → Q (epApply d e)) (file : Except WalkError (List Byte))
    (c : usbDevice) (hc : c ∈ (walker path file).emitted) : Q c := by
  cases file with
  | error e => simp [walker] at hc
  | ok blob =>
    have hinv := runDescs_inv path
      (fun st => (∀ c ∈ st.emitted, Q c) ∧ ∀ c, st.device = some c → Q c)
      (walkBody_candidates path Q hnew hreset happly) (descriptors blob) walkInit
      (And.intro (fun c hc => by cases hc) (fun c hc => by cases hc))
    rcases walker_emitted_mem path blob c hc with h1 | h1
    · exact hinv.1 c h1
    · exact hinv.2 c h1

/-- C14, counterexample: the path `/dev/bus/usb/006/003x` does not end in a
component made of digits, yet the candidate gets Bus 6 and Device 3; the
trailing components of `/dev/bus/usb/1/2/dev/bus/usb/006/003` have the
canonical form, yet the candidate gets Bus 1 and Device 2; and the bus
component `99999999999999999999` gives Bus 2^63-1. -/
theorem bus_device_counterexample :
    (walker "/dev/bus/usb/006/003x" (.ok scenA)).emitted.map
      (fun c => (c.info.Bus, c.info.Device)) = [(6, 3)] ∧
    (walker "/dev/bus/usb/1/2/dev/bus/usb/006/003" (.ok scenA)).emitted.map
      (fun c => (c.info.Bus, c.info.Device)) = [(1, 2)] ∧
    (walker "/dev/bus/usb/99999999999999999999/003" (.ok scenA)).emitted.map
      (fun c => (c.info.Bus, c.info.Device)) = [(9223372036854775807, 3)] := by
  decide

/-- The search skips a prefix at no offset of which the pattern matches. -/
theorem findStringSubmatch_skip (pre s : List Char)
    (h : ∀ k, k < pre.length → matchHere ((pre ++ s).drop k) = none) :
    findStringSubmatch (pre ++ s) = findStringSubmatch s := by
  induction pre with
  | nil => rfl
  | cons c pre ih =>
    have h0 := h 0 (by simp)
    simp only [List.drop_zero, List.cons_append] at h0
    simp only [List.cons_append, findStringSubmatch, List.append_eq, h0]
    apply ih
    intro k hk
    have := h (k + 1) (by simp only [List.length_cons]; omega)
    simpa using this

/-- At the offset of an occurrence of `/dev/bus/usb/<digits>/<digits>` the
pattern matches. -/
theorem matchHere_occurrence (s pre b d post : List Char)
    (h : s = pre ++ devBusUsbLit ++ b ++ '/' :: d ++ post) (hb : IsDigits b)
    (hd : IsDigits d) : (matchHere (s.drop pre.length)).isSome = true := by
  have hs : s.drop pre.length = devBusUsbLit ++ (b ++ ('/' :: (d ++ post))) := by
    rw [h]
    simp only [List.append_assoc, List.cons_append]
    rw [List.drop_left]
  have h1 : stripLit "/dev/bus/usb/".toList (s.drop pre.length) =
      some (b ++ ('/' :: (d ++ post))) := by
    rw [hs]
    exact stripLit_append devBusUsbLit _
  have h2 := takeWhile_digits b ('/' :: (d ++ post)) hb.2
    (by intro c p h; cases h; decide)
  have h3 : (d ++ post).takeWhile Char.isDigit ≠ [] := by
    obtain ⟨hne, hall⟩ := hd
    cases d with
    | nil => exact absurd rfl hne
    | cons x xs =>
      have hx := hall x (List.mem_cons_self _ _)
      simp [List.takeWhile, hx]
  unfold matchHere
  rw [h1]
  simp only [h2.1, h2.2, hb.1, h3, if_false, Option.isSome_some]

/-- No match at an offset before the leftmost occurrence. -/
theorem matchHere_before (s pre : List Char)
    (hleft : ∀ pre1 b1 d1 post1 : List Char,
      s = pre1 ++ devBusUsbLit ++ b1 ++ '/' :: d1 ++ post1 → IsDigits b1 → IsDigits d1 →
      pre.length ≤ pre1.length) (k : Nat) (hk : k < pre.length) :
    matchHere (s.drop k) = none := by
  cases hm : matchHere (s.drop k) with
  | none => rfl
  | some m =>
    obtain ⟨b1, d1⟩ := m
    obtain ⟨post1, hs, hb1, hd1⟩ := matchHere_some _ b1 d1 hm
    have hsplit : s = s.take k ++ devBusUsbLit ++ b1 ++ '/' :: d1 ++ post1 := by
      have := (List.take_append_drop k s).symm
      rw [hs] at this
      simpa [List.append_assoc] using this
    have := hleft (s.take k) b1 d1 post1 hsplit hb1 hd1
    rw [List.length_take] at this
    omega

/-- C14, amended: every candidate emitted for a path carries the pair
computed from the leftmost occurrence of `/dev/bus/usb/<digits>/<digits>`
anywhere in the path. If the path reads `pre` `/dev/bus/usb/` `b` `/` `d`
`post` with `b` and `d` non-empty runs of digits, `post` empty or starting
with a character that is not a digit, and no occurrence of the pattern
starting further left than `pre`, then Bus and Device are the decimal values
of `b` and `d` (leading zeros allowed), capped at 2^63-1; this holds in
particular when `pre` is empty (the path starts with the canonical form). If
the path contains no occurrence of the pattern, both are 0. -/
theorem bus_device_extraction (path : String) :
    (∀ (file : Except WalkError (List Byte)) (c : usbDevice),
      c ∈ (walker path file).emitted →
      (c.info.Bus, c.info.Device) = busDev path) ∧
    (∀ pre b d post : List Char,
      path.toList = pre ++ devBusUsbLit ++ b ++ '/' :: d ++ post →
      IsDigits b → IsDigits d → (∀ c p, post = c :: p → c.isDigit = false) →
      (∀ pre1 b1 d1 post1 : List Char,
        path.toList = pre1 ++ devBusUsbLit ++ b1 ++ '/' :: d1 ++ post1 →
        IsDigits b1 → IsDigits d1 → pre.length ≤ pre1.length) →
      busDev path = (min (digitsValue b) (2 ^ 63 - 1), min (digitsValue d) (2 ^ 63 - 1))) ∧
    (∀ b d post : List Char, path.toList = devBusUsbLit ++ b ++ '/' :: d ++ post →
      IsDigits b → IsDigits d → (∀ c p, post = c :: p → c.isDigit = false) →
      busDev path = (min (digitsValue b) (2 ^ 63 - 1), min (digitsValue d) (2 ^ 63 - 1))) ∧
    ((¬ ∃ pre b d post, path.toList = pre ++ devBusUsbLit ++ b ++ '/' :: d ++ post ∧
        IsDigits b ∧ IsDigits d) →
      busDev path = (0, 0)) := by
  have hgen : ∀ pre b d post : List Char,
      path.toList = pre ++ devBusUsbLit ++ b ++ '/' :: d ++ post →
      IsDigits b → IsDigits d → (∀ c p, post = c :: p → c.isDigit = false) →
      (∀ pre1 b1 d1 post1 : List Char,
        path.toList = pre1 ++ devBusUsbLit ++ b1 ++ '/' :: d1 ++ post1 →
        IsDigits b1 → IsDigits d1 → pre.length ≤ pre1.length) →
      busDev path =
        (min (digitsValue b) (2 ^ 63 - 1), min (digitsValue d) (2 ^ 63 - 1)) := by
    intro pre b d post hp hb hd hpost hleft
    have hm := matchHere_canonical b d post hb hd hpost
    have hf : findStringSubmatch (devBusUsbLit ++ b ++ '/' :: d ++ post) = some (b, d) := by
      have hcons : devBusUsbLit ++ b ++ '/' :: d ++ post =
          '/' :: ("dev/bus/usb/".toList ++ b ++ '/' :: d ++ post) := rfl
      rw [hcons] at hm ⊢
      simp only [findStringSubmatch, hm]
    have hskip : findStringSubmatch path.toList = some (b, d) := by
      have hp2 : path.toList = pre ++ (devBusUsbLit ++ b ++ '/' :: d ++ post) := by
        rw [hp]; simp only [List.append_assoc]
      rw [hp2, findStringSubmatch_skip pre _ (fun k hk => by
        rw [← hp2]; exact matchHere_before path.toList pre hleft k hk)]
      exact hf
    unfold busDev
    rw [hskip]
    rfl
  refine ⟨?_, hgen, ?_, ?_⟩
  · intro file c hc
    exact walker_candidates path (fun c => (c.info.Bus, c.info.Device) = busDev path)
      (fun _ _ => rfl)
      (fun d hd => by show _ = _; rw [(epReset_info d).1]; exact hd)
      (fun d e hd => by show _ = _; rw [(epApply_info d e).1]; exact hd) file c hc
  · intro b d post hp hb hd hpost
    exact hgen [] b d post (by simpa using hp) hb hd hpost
      (fun _ _ _ _ _ _ _ => Nat.zero_le _)
  · intro hno
    unfold busDev
    cases hf : findStringSubmatch path.toList with
    | none => rfl
    | some m =>
      obtain ⟨b, d⟩ := m
      obtain ⟨pre, post, h⟩ := findStringSubmatch_some _ b d hf
      exact absurd ⟨pre, b, d, post, h⟩ hno

/-- C14, witness of the amended claim: the path of Scenario A under a
directory prefix, `/root/x/dev/bus/usb/006/003`. The occurrence at offset 7
is the leftmost one, and the candidate carries Bus 6 and Device 3. -/
theorem bus_device_extraction_witness :
    ("/root/x/dev/bus/usb/006/003".toList =
        "/root/x".toList ++ devBusUsbLit ++ "006".toList ++ '/' :: "003".toList ++ [] ∧
      IsDigits "006".toList ∧ IsDigits "003".toList ∧
      ∀ pre1 b1 d1 post1 : List Char,
        "/root/x/dev/bus/usb/006/003".toList =
          pre1 ++ devBusUsbLit ++ b1 ++ '/' :: d1 ++ post1 →
        IsDigits b1 → IsDigits d1 → "/root/x".toList.length ≤ pre1.length) ∧
    busDev "/root/x/dev/bus/usb/006/003" =
      (min (digitsValue "006".toList) (2 ^ 63 - 1),
        min (digitsValue "003".toList) (2 ^ 63 - 1)) ∧
    (min (digitsValue "006".toList) (2 ^ 63 - 1),
      min (digitsValue "003".toList) (2 ^ 63 - 1)) = (6, 3) ∧
    (walker "/root/x/dev/bus/usb/006/003" (.ok scenA)).emitted.map
      (fun c => (c.info.Bus, c.info.Device)) = [busDev "/root/x/dev/bus/usb/006/003"] := by
  have hleft : ∀ pre1 b1 d1 post1 : List Char,
      "/root/x/dev/bus/usb/006/003".toList =
        pre1 ++ devBusUsbLit ++ b1 ++ '/' :: d1 ++ post1 →
      IsDigits b1 → IsDigits d1 → "/root/x".toList.length ≤ pre1.length := by
    intro pre1 b1 d1 post1 h hb1 hd1
    have hm := matchHere_occurrence _ pre1 b1 d1 post1 h hb1 hd1
    by_contra hlt
    have hk : pre1.length < 7 := by
      have : "/root/x".toList.length = 7 := rfl
      omega
    generalize pre1.length = k at hm hk
    interval_cases k <;> revert hm <;> decide
  exact ⟨⟨rfl, by decide, by decide, hleft⟩,
    (bus_device_extraction "/root/x/dev/bus/usb/006/003").2.1
      "/root/x".toList "006".toList "003".toList [] rfl (by decide) (by decide)
      (by intro c p h; cases h) hleft,
    by decide, by decide⟩

theorem walker_ok (path : String) (blob : List Byte) :
    walker path (.ok blob) = walkFinish (walkLoop path blob.length blob walkInit) := rfl

/-- With fuel for half the bytes, rounded up, the loop has stopped: on an
error or at the end of the buffer. -/
theorem walkLoop_stops (path : String) :
    ∀ (f : Nat) (r : List Byte) (st : WalkState), r.length ≤ 2 * f →
      (walkLoop path f r st).1 ≠ none ∨ (walkLoop path f r st).2.1 = [] := by
  intro f
  induction f with
  | zero =>
    intro r st h
    have : r = [] := List.eq_nil_of_length_eq_zero (by omega)
    subst this
    exact Or.inr rfl
  | succ f ih =>
    intro r st h
    cases r with
    | nil => exact Or.inr rfl
    | cons l t =>
      simp only [walkLoop]
      split
      · exact Or.inl (by simp)
      · rename_i hc
        rcases hb : walkBody path st (List.take l.val (l :: t)) with ⟨e, st1⟩
        cases e with
        | some e => exact Or.inl (by simp)
        | none =>
          simp only
          apply ih
          have h2 : 2 ≤ l.val := by omega
          simp only [List.length_drop, List.length_cons] at h ⊢
          omega

/-- More fuel than half the bytes, rounded up, changes nothing. -/
theorem walkLoop_fuel (path : String) :
    ∀ (f g : Nat) (r : List Byte) (st : WalkState), r.length ≤ 2 * f → f ≤ g →
      walkLoop path g r st = walkLoop path f r st := by
  intro f
  induction f with
  | zero =>
    intro g r st h _
    have : r = [] := List.eq_nil_of_length_eq_zero (by omega)
    subst this
    rw [walkLoop_nil, walkLoop_nil]
  | succ f ih =>
    intro g r st h hg
    cases g with
    | zero => omega
    | succ g =>
      cases r with
      | nil => rfl
      | cons l t =>
        simp only [walkLoop]
        split
        · rfl
        · rename_i hc
          rcases hb : walkBody path st (List.take l.val (l :: t)) with ⟨e, st1⟩
          cases e with
          | some e => rfl
          | none =>
            simp only
            apply ih
            · have h2 : 2 ≤ l.val := by omega
              simp only [List.length_drop, List.length_cons] at h ⊢
              omega
            · omega

/-- The bodies read by the loop are consecutive slices of the buffer, each of
at least two bytes. -/
theorem frames_flatten (path : String) :
    ∀ (n : Nat) (r : List Byte) (st : WalkState), (walkLoop path n r st).1 = none →
      (frames n r).flatten ++ (walkLoop path n r st).2.1 = r ∧
        2 * (frames n r).length ≤ r.length := by
  intro n
  induction n with
  | zero => intro r st _; simp [frames, walkLoop]
  | succ n ih =>
    intro r st h
    cases r with
    | nil => simp [frames, walkLoop]
    | cons l t =>
      simp only [walkLoop, frames] at h ⊢
      split at h
      · simp at h
      · rename_i hc
        rw [if_neg hc]
        rcases hb : walkBody path st (List.take l.val (l :: t)) with ⟨e, st1⟩
        rw [hb] at h
        cases e with
        | some e => simp at h
        | none =>
          simp only at h ⊢
          obtain ⟨h1, h2⟩ := ih _ st1 h
          constructor
          · simp only [if_neg hc]
            rw [List.flatten_cons, List.append_assoc, h1, List.take_append_drop]
          · have h3 : 2 ≤ l.val := by omega
            have h4 : (List.take l.val (l :: t)).length = l.val := by
              by_contra hne
              exact hc (Or.inl hne)
            simp only [List.length_cons, List.length_drop] at h2 h4 ⊢
            rw [List.length_take] at h4
            simp only [List.length_cons] at h4
            omega

/-- The loop only ends with the two errors of Go. -/
theorem walkLoop_err (path : String) :
    ∀ (n : Nat) (r : List Byte) (st : WalkState) (e : WalkError),
      (walkLoop path n r st).1 = some e → e = .shortRead ∨ e = .unexpectedEOF := by
  intro n
  induction n with
  | zero => intro r st e h; simp [walkLoop] at h
  | succ n ih =>
    intro r st e h
    cases r with
    | nil => simp [walkLoop] at h
    | cons l t =>
      simp only [walkLoop] at h
      split at h
      · simp only [Option.some.injEq] at h
        exact Or.inl h.symm
      · rcases hb : walkBody path st (List.take l.val (l :: t)) with ⟨e1, st1⟩
        rw [hb] at h
        cases e1 with
        | some e1 =>
          simp only [Option.some.injEq] at h
          have := walkBody_err path st _ e1 (by rw [hb])
          exact Or.inr (by rw [← h, this])
        | none => exact ih _ st1 e h

theorem walker_not_outOfFuel (path : String) (blob : List Byte) :
    (walker path (.ok blob)).err ≠ some .outOfFuel := by
  rw [walker_ok]
  have hs := walkLoop_stops path blob.length blob walkInit (by omega)
  have he := walkLoop_err path blob.length blob walkInit
  rcases hw : walkLoop path blob.length blob walkInit with ⟨e, r, st⟩
  rw [hw] at hs he
  cases e with
  | some e =>
    simp only [walkFinish]
    rcases he e rfl with h | h <;> rw [h] <;> simp
  | none =>
    simp only [ne_eq, not_true_eq_false, false_or] at hs
    subst hs
    simp [walkFinish]

/-- C20, counterexample: the one-byte blob `[1]` takes one iteration (which
returns "short read"), more than `len(blob)/2 = 0`; and on the three-byte
blob `[2, 9, 7]` one iteration (`3/2`) leaves a byte unread without error,
the second iteration returning "short read". -/
theorem iteration_bound_counterexample :
    ((walkLoop "/dev/bus/usb/006/003" ([1].length / 2) [1] walkInit).1 = none ∧
      (walkLoop "/dev/bus/usb/006/003" ([1].length / 2) [1] walkInit).2.1 = [1] ∧
      (walkLoop "/dev/bus/usb/006/003" 1 [1] walkInit).1 = some .shortRead) ∧
    ((walkLoop "/dev/bus/usb/006/003" ([2, 9, 7].length / 2) [2, 9, 7] walkInit).1 = none ∧
      (walkLoop "/dev/bus/usb/006/003" ([2, 9, 7].length / 2) [2, 9, 7] walkInit).2.1 = [7] ∧
      (walkLoop "/dev/bus/usb/006/003" 2 [2, 9, 7] walkInit).1 = some .shortRead) := by
  decide

/-- C20, amended: the parsing loop of `walker` terminates on every finite
blob. Every iteration either returns an error or consumes at least 2 bytes of
the remaining stream; so after `(len + 1) / 2` iterations (half the bytes,
rounded up) the loop has returned an error or emptied the buffer, and more
iterations change nothing; at most `len / 2` iterations complete without
error; the bodies read are consecutive slices of the blob, each byte being
read once; and `walker` always returns (its result never is the out-of-fuel
mark of the embedding). -/
theorem walker_terminates (path : String) :
    (∀ (l : Byte) (t : List Byte) (st : WalkState),
      (walkLoop path 1 (l :: t) st).1 ≠ none ∨
        (walkLoop path 1 (l :: t) st).2.1.length + 2 ≤ (l :: t).length) ∧
    (∀ (r : List Byte) (st : WalkState),
      (walkLoop path ((r.length + 1) / 2) r st).1 ≠ none ∨
        (walkLoop path ((r.length + 1) / 2) r st).2.1 = []) ∧
    (∀ (r : List Byte) (st : WalkState) (n : Nat), (r.length + 1) / 2 ≤ n →
      walkLoop path n r st = walkLoop path ((r.length + 1) / 2) r st) ∧
    (∀ (n : Nat) (r : List Byte) (st : WalkState), (walkLoop path n r st).1 = none →
      (frames n r).flatten ++ (walkLoop path n r st).2.1 = r ∧
        2 * (frames n r).length ≤ r.length) ∧
    (∀ blob : List Byte, (walker path (.ok blob)).err ≠ some .outOfFuel) := by
  refine ⟨?_, ?_, ?_, frames_flatten path, walker_not_outOfFuel path⟩
  · intro l t st
    simp only [walkLoop]
    split
    · exact Or.inl (by simp)
    · rename_i hc
      rcases hb : walkBody path st (List.take l.val (l :: t)) with ⟨e, st1⟩
      cases e with
      | some e => exact Or.inl (by simp)
      | none =>
        right
        have h4 : (List.take l.val (l :: t)).length = l.val := by
          by_contra hne
          exact hc (Or.inl hne)
        rw [List.length_take] at h4
        simp only [List.length_drop, List.length_cons] at h4 ⊢
        omega
  · intro r st
    exact walkLoop_stops path _ r st (by omega)
  · intro r st n hn
    exact walkLoop_fuel path _ n r st (by omega) hn

/-- C20, witness of the amended claim: the 50 bytes of Scenario A are parsed
in five iterations that consume them all. -/
theorem walker_terminates_witness :
    (walkLoop "/dev/bus/usb/006/003" 5 scenA walkInit).1 = none ∧
    (frames 5 scenA).flatten ++ (walkLoop "/dev/bus/usb/006/003" 5 scenA walkInit).2.1 =
      scenA ∧
    2 * (frames 5 scenA).length ≤ scenA.length ∧
    (walkLoop "/dev/bus/usb/006/003" 5 scenA walkInit).2.1 = [] ∧
    (walkLoop "/dev/bus/usb/006/003" 30 scenA walkInit).2.1 = [] :=
  have h0 : (walkLoop "/dev/bus/usb/006/003" 5 scenA walkInit).1 = none := by decide
  have h := (walker_terminates "/dev/bus/usb/006/003").2.2.2.1 5 scenA walkInit h0
  have h2 := (walker_terminates "/dev/bus/usb/006/003").2.2.1 scenA walkInit 30 (by decide)
  ⟨h0, h.1, h.2, by decide, by rw [h2]; decide⟩

/-- A descriptor whose type is none of the four standard ones leaves the
state of the loop as it is. -/
theorem walkBody_unknown (path : String) (st : WalkState) (d : List Byte)
    (h1 : (byteAt d 1).val ≠ UsbDescTypeDevice) (h2 : (byteAt d 1).val ≠ UsbDescTypeConfig)
    (h4 : (byteAt d 1).val ≠ UsbDescTypeInterface)
    (h5 : (byteAt d 1).val ≠ UsbDescTypeEndpoint) :
    walkBody path st d = (none, st) := by
  rw [walkBody_eq]
  simp only [h1, h2, h4, h5, if_false, ite_self]

/-- The result of `walker` on a blob that starts with the framed descriptors
`pre`, from the loop on the rest. -/
theorem walker_split (path : String) (pre : List (List Byte)) (rest : List Byte) (k : Nat)
    (hfr : ∀ x ∈ pre, 2 ≤ x.length ∧ (byteAt x 0).val = x.length)
    (hk : rest.length ≤ 2 * k) :
    walker path (.ok (pre.flatten ++ rest)) =
      match runDescs path pre walkInit with
      | (some e, st) => ⟨some e, st.emitted⟩
      | (none, st) => walkFinish (walkLoop path k rest st) := by
  have hlen := length_le_flatten pre (fun d hd => (hfr d hd).1)
  have hfuel : (pre.flatten ++ rest).length =
      pre.length + ((pre.flatten.length - pre.length) + rest.length) := by
    simp only [List.length_append]; omega
  obtain ⟨h1, h2⟩ := walkLoop_join_rest path pre rest
    ((pre.flatten.length - pre.length) + rest.length) walkInit hfr
  rw [walker_ok, hfuel]
  rcases hr : runDescs path pre walkInit with ⟨e, st⟩
  rw [hr] at h1 h2
  cases e with
  | none =>
    simp only [forall_true_left] at h1
    rw [h1]
    simp only
    by_cases hle : k ≤ (pre.flatten.length - pre.length) + rest.length
    · rw [walkLoop_fuel path k _ rest st hk hle]
    · have := walkLoop_fuel path ((pre.flatten.length - pre.length) + rest.length) k rest st
        (by omega) (by omega)
      rw [this]
  | some e =>
    obtain ⟨h3, h4⟩ := h2 e rfl
    rcases hw : walkLoop path (pre.length + ((pre.flatten.length - pre.length) + rest.length))
      (pre.flatten ++ rest) walkInit with ⟨e1, r1, s1⟩
    rw [hw] at h3 h4
    simp only at h3 h4
    subst h3 h4
    rfl

/-- C16: unknown descriptors are transparent. Inserting, at any descriptor
boundary of a blob, a well-framed descriptor whose type is none of DEVICE,
CONFIGURATION, INTERFACE, ENDPOINT changes neither the candidates `walker`
hands to the sink nor the error it returns. -/
theorem unknown_descriptor_transparent (path : String) (pre : List (List Byte))
    (d rest : List Byte)
    (hpre : ∀ x ∈ pre, 2 ≤ x.length ∧ (byteAt x 0).val = x.length)
    (hd2 : 2 ≤ d.length) (hd0 : (byteAt d 0).val = d.length)
    (h1 : (byteAt d 1).val ≠ UsbDescTypeDevice) (h2 : (byteAt d 1).val ≠ UsbDescTypeConfig)
    (h4 : (byteAt d 1).val ≠ UsbDescTypeInterface)
    (h5 : (byteAt d 1).val ≠ UsbDescTypeEndpoint) :
    walker path (.ok (pre.flatten ++ d ++ rest)) = walker path (.ok (pre.flatten ++ rest)) := by
  rw [List.append_assoc, walker_split path pre (d ++ rest) ((rest.length + (d.length - 1)) + 1)
    hpre (by simp only [List.length_append]; omega),
    walker_split path pre rest rest.length hpre (by omega)]
  rcases hr : runDescs path pre walkInit with ⟨e, st⟩
  cases e with
  | some e => rfl
  | none =>
    simp only
    rw [walkLoop_framed path _ d rest st hd2 hd0, walkBody_unknown path st d h1 h2 h4 h5]
    simp only
    rw [walkLoop_fuel path rest.length _ rest st (by omega) (by omega)]

/-- C16, witness: the HID class descriptor (type 0x21) inserted between the
INTERFACE descriptor and the endpoints of Scenario A. -/
theorem unknown_descriptor_transparent_witness :
    walker "/dev/bus/usb/006/003" (.ok
      ([scenDevice.encode, scenConfig, (scenInterface 0 3).encode].flatten ++
        [9, 0x21, 0x11, 1, 0, 1, 0x22, 30, 0] ++
        ((scenEndpoint 0x81 64).encode ++ (scenEndpoint 0x02 32).encode))) =
    walker "/dev/bus/usb/006/003" (.ok
      ([scenDevice.encode, scenConfig, (scenInterface 0 3).encode].flatten ++
        ((scenEndpoint 0x81 64).encode ++ (scenEndpoint 0x02 32).encode))) :=
  unknown_descriptor_transparent "/dev/bus/usb/006/003"
    [scenDevice.encode, scenConfig, (scenInterface 0 3).encode]
    [9, 0x21, 0x11, 1, 0, 1, 0x22, 30, 0]
    ((scenEndpoint 0x81 64).encode ++ (scenEndpoint 0x02 32).encode)
    (by decide) (by decide) (by decide) (by decide) (by decide) (by decide) (by decide)

/-- The first iteration that returns an error. -/
theorem walkLoop_first_error (path : String) (r : List Byte) (st : WalkState) :
    ∀ (n : Nat) (e : WalkError), (walkLoop path n r st).1 = some e →
      ∃ m, m < n ∧ (walkLoop path m r st).1 = none ∧
        walkLoop path (m + 1) r st = walkLoop path n r st := by
  intro n
  induction n with
  | zero => intro e h; simp [walkLoop] at h
  | succ n ih =>
    intro e h
    cases hn : (walkLoop path n r st).1 with
    | none => exact ⟨n, Nat.lt_succ_self n, hn, rfl⟩
    | some e1 =>
      have hs := walkLoop_succ path n r st
      rcases hw : walkLoop path n r st with ⟨e2, r2, s2⟩
      rw [hw] at hs hn
      simp only at hn
      subst hn
      simp only at hs
      obtain ⟨m, hm, h1, h2⟩ := ih e1 (by rw [hw])
      exact ⟨m, Nat.lt_succ_of_lt hm, h1, by rw [h2, hs, hw]⟩

/-- C19, counterexample: in Scenario A followed by an INTERFACE descriptor of
two bytes, no candidate has been handed to the sink by the five descriptors
processed before the failing one and the candidate of Scenario A is pending;
the failing descriptor hands it to the sink before its decoding fails, so the
sink has received it although `walker` returns an error. -/
theorem failing_descriptor_emits_counterexample :
    (walkLoop "/dev/bus/usb/006/003" 5 scenShortInterface walkInit).1 = none ∧
    (walkLoop "/dev/bus/usb/006/003" 5 scenShortInterface walkInit).2.2.emitted = [] ∧
    (walkLoop "/dev/bus/usb/006/003" 5 scenShortInterface walkInit).2.2.device =
      some scenCandidate ∧
    walker "/dev/bus/usb/006/003" (.ok scenShortInterface) =
      ⟨some .unexpectedEOF, [scenCandidate]⟩ := by
  decide

/-- A body on which `walkBody` fails: the accept map lets its type through,
its type is DEVICE, INTERFACE or ENDPOINT, it is too short for the struct of
that type, and the sink has received what the case hands over before it
decodes the body. -/
theorem walkBody_fail (path : String) (st : WalkState) (body : List Byte) (e : WalkError)
    (h : (walkBody path st body).1 = some e) :
    e = .unexpectedEOF ∧ st.expected (byteAt body 1).val = true ∧
    (((byteAt body 1).val = UsbDescTypeDevice ∧ body.length < 18 ∧
        (walkBody path st body).2.emitted = st.emitted) ∨
      ((byteAt body 1).val = UsbDescTypeInterface ∧ body.length < 9 ∧
        (walkBody path st body).2.emitted = st.emitted ++ st.device.toList) ∨
      ((byteAt body 1).val = UsbDescTypeEndpoint ∧ body.length < 7 ∧
        ∃ d0, st.device = some d0 ∧
          (walkBody path st body).2.emitted =
            st.emitted ++ (if d0.epIn ≠ 0 ∧ d0.epOut ≠ 0 then [d0] else []))) := by
  have he := walkBody_err path st body e h
  refine ⟨he, ?_⟩
  rw [walkBody_eq] at h ⊢
  by_cases hx : st.expected (byteAt body 1).val = false
  · rw [if_pos hx] at h; cases h
  · have hx1 : st.expected (byteAt body 1).val = true := by
      cases hv : st.expected (byteAt body 1).val
      · exact absurd hv hx
      · rfl
    refine ⟨hx1, ?_⟩
    rw [if_neg hx] at h ⊢
    by_cases h1 : (byteAt body 1).val = UsbDescTypeDevice
    · rw [if_pos h1] at h ⊢
      left
      cases hc : castDevice body with
      | none =>
        refine ⟨h1, ?_, rfl⟩
        unfold castDevice at hc
        by_contra hlen
        rw [if_neg hlen] at hc
        cases hc
      | some dd => rw [hc] at h; cases h
    · rw [if_neg h1] at h ⊢
      by_cases h2 : (byteAt body 1).val = UsbDescTypeConfig
      · rw [if_pos h2] at h; cases h
      · rw [if_neg h2] at h ⊢
        by_cases h4 : (byteAt body 1).val = UsbDescTypeInterface
        · rw [if_pos h4] at h ⊢
          right; left
          cases hc : castInterface body with
          | none =>
            refine ⟨h4, ?_, rfl⟩
            unfold castInterface at hc
            by_contra hlen
            rw [if_neg hlen] at hc
            cases hc
          | some i => rw [hc] at h; cases h
        · rw [if_neg h4] at h ⊢
          by_cases h5 : (byteAt body 1).val = UsbDescTypeEndpoint
          · rw [if_pos h5] at h ⊢
            right; right
            cases hd : st.device with
            | none => rw [hd] at h; cases h
            | some d0 =>
              rw [hd] at h
              cases hc : castEndpoint body with
              | none =>
                refine ⟨h5, ?_, d0, rfl, ?_⟩
                · unfold castEndpoint at hc
                  by_contra hlen
                  rw [if_neg hlen] at hc
                  cases hc
                · simp only [epEmit]
                  split <;> simp
              | some x => rw [hc] at h; cases h
          · rw [if_neg h5] at h; cases h

/-- C19, amended: a parse error does not undo or flush emissions. When
`walker` returns an error, some number `n` of descriptors has been processed
without error, leaving the loop in a state `s` in front of the failing
descriptor, and the sink has received exactly the candidates `s.emitted`
handed over by those `n` descriptors, followed by what the failing descriptor
hands over before its body is decoded: nothing if it is badly framed ("short
read") or a DEVICE descriptor too short to be decoded; the candidate pending
before it, if there is one, if it is an INTERFACE descriptor too short to be
decoded; the candidate pending before it if it is an ENDPOINT descriptor too
short to be decoded and that candidate has both endpoints set, and nothing if
not both are set. Nothing else is handed over: a candidate pending when the
error is returned stays with the loop. So a blob with a HID interface and its
endpoints, followed by a second INTERFACE descriptor and then a badly framed
descriptor, yields the candidate of the first interface together with the
error "short read". -/
theorem walker_error_emissions (path : String) :
    (∀ (blob : List Byte) (e : WalkError), (walker path (.ok blob)).err = some e →
      ∃ (n : Nat) (l : Byte) (t : List Byte) (s : WalkState) (body : List Byte),
        walkLoop path n blob walkInit = (none, l :: t, s) ∧
        (frames n blob).flatten ++ l :: t = blob ∧
        body = (l :: t).take l.val ∧
        (((body.length ≠ l.val ∨ l.val < 2) ∧ e = .shortRead ∧
            (walker path (.ok blob)).emitted = s.emitted) ∨
          (body.length = l.val ∧ 2 ≤ l.val ∧ e = .unexpectedEOF ∧
            s.expected (byteAt body 1).val = true ∧
            (((byteAt body 1).val = UsbDescTypeDevice ∧ body.length < 18 ∧
                (walker path (.ok blob)).emitted = s.emitted) ∨
              ((byteAt body 1).val = UsbDescTypeInterface ∧ body.length < 9 ∧
                (walker path (.ok blob)).emitted = s.emitted ++ s.device.toList) ∨
              ((byteAt body 1).val = UsbDescTypeEndpoint ∧ body.length < 7 ∧
                ∃ d0, s.device = some d0 ∧
                  (walker path (.ok blob)).emitted =
                    s.emitted ++ (if d0.epIn ≠ 0 ∧ d0.epOut ≠ 0 then [d0] else [])))))) ∧
    (∀ (dd : deviceDesc) (cfg : List Byte) (i : interfaceDesc) (es : List endpointDesc)
      (i2 : interfaceDesc) (l : Byte) (t : List Byte),
      dd.Std → Framed UsbDescTypeConfig cfg → i.Std → i.InterfaceClass = UsbHidClass →
      es.length ≤ 2 → (∀ e ∈ es, e.Std) → i2.Std →
      (l.val < 2 ∨ (l :: t).length < l.val) →
      ∃ c, walker path (.ok (dd.encode ++ cfg ++ i.encode ++
          (es.map endpointDesc.encode).flatten ++ i2.encode ++ l :: t)) =
          ⟨some .shortRead, [c]⟩ ∧ Carries path dd (i, es) c) := by
  constructor
  · intro blob e h
    have hne := walker_not_outOfFuel path blob
    rw [walker_ok] at h hne ⊢
    rcases hw : walkLoop path blob.length blob walkInit with ⟨e1, r1, s1⟩
    rw [hw] at h hne
    cases e1 with
    | none =>
      cases r1 with
      | nil => simp [walkFinish] at h
      | cons a b => simp [walkFinish] at hne
    | some e1 =>
      simp only [walkFinish, Option.some.injEq] at h
      subst h
      obtain ⟨m, _, h1, h2⟩ := walkLoop_first_error path blob walkInit blob.length e1
        (by rw [hw])
      have hs := walkLoop_succ path m blob walkInit
      have hfr := (frames_flatten path m blob walkInit h1).1
      rcases hm : walkLoop path m blob walkInit with ⟨e2, r2, s2⟩
      rw [hm] at hs h1 hfr
      simp only at h1 hfr
      subst h1
      simp only at hs
      rw [h2, hw] at hs
      cases r2 with
      | nil => simp [walkLoop] at hs
      | cons l t =>
        refine ⟨m, l, t, s2, (l :: t).take l.val, hm, hfr, rfl, ?_⟩
        simp only [walkLoop] at hs
        by_cases hc : (List.take l.val (l :: t)).length ≠ l.val ∨ l.val < 2
        · rw [if_pos hc] at hs
          simp only [Prod.mk.injEq, Option.some.injEq] at hs
          left
          refine ⟨hc, hs.1, ?_⟩
          simp only [walkFinish]
          rw [hs.2.2]
        · rw [if_neg hc] at hs
          right
          have hl1 : (List.take l.val (l :: t)).length = l.val := by
            by_contra hne1
            exact hc (Or.inl hne1)
          have hl2 : 2 ≤ l.val := by
            by_contra hne2
            exact hc (Or.inr (by omega))
          rcases hb : walkBody path s2 (List.take l.val (l :: t)) with ⟨e3, s3⟩
          rw [hb] at hs
          cases e3 with
          | none =>
            simp [walkLoop] at hs
          | some e3 =>
            simp only [Prod.mk.injEq, Option.some.injEq] at hs
            obtain ⟨he3, _, hs3⟩ := hs
            subst he3 hs3
            have hfail := walkBody_fail path s2 (List.take l.val (l :: t)) e1 (by rw [hb])
            rw [hb] at hfail
            simp only [walkFinish]
            exact ⟨hl1, hl2, hfail.1, hfail.2.1, hfail.2.2⟩
  · intro dd cfg i es i2 l t hdd hcfg hi hcls hlen hes hi2 hbad
    have hblob : dd.encode ++ cfg ++ i.encode ++ (es.map endpointDesc.encode).flatten ++
        i2.encode ++ l :: t =
        ([dd.encode, cfg] ++ (groupDescs (i, es) ++ [i2.encode])).flatten ++ l :: t := by
      simp [groupDescs]
    have hfr : ∀ x ∈ [dd.encode, cfg] ++ (groupDescs (i, es) ++ [i2.encode]),
        2 ≤ x.length ∧ (byteAt x 0).val = x.length := by
      intro x hx
      simp only [groupDescs, List.mem_append, List.mem_cons, List.mem_singleton,
        List.not_mem_nil, or_false, List.mem_map] at hx
      rcases hx with (rfl | rfl) | (rfl | ⟨e, he, rfl⟩) | rfl
      · have := framed_device dd hdd
        exact ⟨this.1, this.2.1⟩
      · exact ⟨hcfg.1, hcfg.2.1⟩
      · have := framed_interface i hi
        exact ⟨this.1, this.2.1⟩
      · have := framed_endpoint e (hes e he)
        exact ⟨this.1, this.2.1⟩
      · have := framed_interface i2 hi2
        exact ⟨this.1, this.2.1⟩
    obtain ⟨dd1, hhead, hids⟩ := runDescs_head path dd cfg hdd hcfg
    obtain ⟨E, c, hgroup, hE, hcar⟩ := runDescs_group path dd (i, es)
      ⟨headExpected, dd1, none, []⟩ rfl hids ⟨hi, hcls, hlen, hes⟩
    obtain ⟨i21, hci2, _⟩ := castInterface_encode i2 hi2
    have hstep := walkBody_interface path ⟨E, dd1, some c, [] ++ (none : Option usbDevice).toList⟩
      i2.encode i21 hE (framed_interface i2 hi2).2.2 hci2
    rw [flushDevice_emitted] at hstep
    refine ⟨c, ?_, hcar⟩
    rw [hblob, walker_split path _ (l :: t) (t.length + 1) hfr
      (by simp only [List.length_cons]; omega)]
    rw [runDescs_append, hhead]
    simp only
    rw [runDescs_append, hgroup]
    simp only [runDescs, hstep]
    rw [walkLoop_bad_length path t.length l t _ hbad]
    simp [walkFinish]

/-- C19, witness of the amended claim: Scenario A followed by a two-byte
INTERFACE descriptor. The five descriptors of Scenario A hand nothing to the
sink and leave its candidate pending; the failing descriptor hands it over,
so `walker` returns an error with one candidate. And Scenario A followed by a
second HID INTERFACE descriptor and then a malformed descriptor (length byte
1) yields the candidate of Scenario A together with the error "short read";
the second interface's candidate, pending at the failure, is not handed
over. A three-byte ENDPOINT descriptor hands over the pending candidate after
the two endpoints of Scenario A, and nothing after its IN endpoint alone. -/
theorem walker_error_emissions_witness :
    ((walker "/dev/bus/usb/006/003" (.ok scenShortInterface)).err = some .unexpectedEOF ∧
      (walker "/dev/bus/usb/006/003" (.ok scenShortInterface)).emitted = [scenCandidate] ∧
      ∃ (n : Nat) (l : Byte) (t : List Byte) (s : WalkState) (body : List Byte),
        walkLoop "/dev/bus/usb/006/003" n scenShortInterface walkInit = (none, l :: t, s) ∧
        (frames n scenShortInterface).flatten ++ l :: t = scenShortInterface ∧
        body = (l :: t).take l.val ∧
        (((body.length ≠ l.val ∨ l.val < 2) ∧ WalkError.unexpectedEOF = .shortRead ∧
            (walker "/dev/bus/usb/006/003" (.ok scenShortInterface)).emitted = s.emitted) ∨
          (body.length = l.val ∧ 2 ≤ l.val ∧ WalkError.unexpectedEOF = .unexpectedEOF ∧
            s.expected (byteAt body 1).val = true ∧
            (((byteAt body 1).val = UsbDescTypeDevice ∧ body.length < 18 ∧
                (walker "/dev/bus/usb/006/003" (.ok scenShortInterface)).emitted =
                  s.emitted) ∨
              ((byteAt body 1).val = UsbDescTypeInterface ∧ body.length < 9 ∧
                (walker "/dev/bus/usb/006/003" (.ok scenShortInterface)).emitted =
                  s.emitted ++ s.device.toList) ∨
              ((byteAt body 1).val = UsbDescTypeEndpoint ∧ body.length < 7 ∧
                ∃ d0, s.device = some d0 ∧
                  (walker "/dev/bus/usb/006/003" (.ok scenShortInterface)).emitted =
                    s.emitted ++ (if d0.epIn ≠ 0 ∧ d0.epOut ≠ 0 then [d0] else [])))))) ∧
    (walker "/dev/bus/usb/006/003" (.ok scenMalformed) =
        ⟨some .shortRead, [scenCandidate]⟩ ∧
      ∃ c, walker "/dev/bus/usb/006/003" (.ok (scenDevice.encode ++ scenConfig ++
          (scenInterface 0 3).encode ++
          ([scenEndpoint 0x81 64, scenEndpoint 0x02 32].map endpointDesc.encode).flatten ++
          (scenInterface 1 3).encode ++ [1])) = ⟨some .shortRead, [c]⟩ ∧
        Carries "/dev/bus/usb/006/003" scenDevice
          (scenInterface 0 3, [scenEndpoint 0x81 64, scenEndpoint 0x02 32]) c) ∧
    (walker "/dev/bus/usb/006/003" (.ok (scenA ++ [3, 5, 0x83])) =
        ⟨some .unexpectedEOF, [scenCandidate]⟩ ∧
      walker "/dev/bus/usb/006/003" (.ok (scenDevice.encode ++ scenConfig ++
          (scenInterface 0 3).encode ++ (scenEndpoint 0x81 64).encode ++ [3, 5, 0x83])) =
        ⟨some .unexpectedEOF, []⟩) :=
  ⟨⟨by decide, by decide,
      (walker_error_emissions "/dev/bus/usb/006/003").1 scenShortInterface .unexpectedEOF
        (by decide)⟩,
    ⟨by decide,
      (walker_error_emissions "/dev/bus/usb/006/003").2 scenDevice scenConfig
        (scenInterface 0 3) [scenEndpoint 0x81 64, scenEndpoint 0x02 32] (scenInterface 1 3)
        1 [] (by decide) (by decide) (by decide) rfl (by decide) (by decide) (by decide)
        (Or.inl (by decide))⟩,
    by decide, by decide⟩

/-- A run of ENDPOINT descriptors on a pending candidate: every candidate it
hands to the sink has the `Info` of the pending one and both endpoints set. -/
theorem runDescs_endpoints_emitted (path : String) (es : List endpointDesc) :
    ∀ (st : WalkState) (d : usbDevice), st.expected UsbDescTypeEndpoint = true →
      st.device = some d → (∀ e ∈ es, e.Std) →
      ∃ d1 l, runDescs path (es.map endpointDesc.encode) st =
          (none, { st with device := some d1, emitted := st.emitted ++ l }) ∧
        d1.info = d.info ∧
        ∀ c ∈ l, c.info = d.info ∧ c.epIn ≠ 0 ∧ c.epOut ≠ 0 := by
  induction es with
  | nil =>
    intro st d _ hd _
    refine ⟨d, [], ?_, rfl, by simp⟩
    simp [runDescs, ← hd]
  | cons e es ih =>
    intro st d hx hd hes
    have hstd := hes e (List.mem_cons_self _ _)
    obtain ⟨e1, hce, ha, hm⟩ := castEndpoint_encode e hstd
    have hstep := walkBody_endpoint path st e.encode e1 d hx (framed_endpoint e hstd).2.2 hce hd
    rw [epApply_congr _ e e1 ha hm] at hstep
    obtain ⟨d1, l1, hrun, hinfo, hl1⟩ :=
      ih { st with
          device := some (epApply (epReset d) e)
          emitted := if d.epIn ≠ 0 ∧ d.epOut ≠ 0 then st.emitted ++ [d] else st.emitted }
        (epApply (epReset d) e) hx rfl (fun x hx => hes x (List.mem_cons_of_mem _ hx))
    have hi0 : (epApply (epReset d) e).info = d.info :=
      (epApply_info _ e).1.trans (epReset_info d).1
    by_cases hboth : d.epIn ≠ 0 ∧ d.epOut ≠ 0
    · refine ⟨d1, d :: l1, ?_, hinfo.trans hi0, ?_⟩
      · simp only [List.map_cons, runDescs, hstep]
        rw [hrun]
        simp [hboth]
      · intro c hc
        rcases List.mem_cons.mp hc with rfl | hc
        · exact ⟨rfl, hboth.1, hboth.2⟩
        · have := hl1 c hc
          exact ⟨this.1.trans hi0, this.2⟩
    · refine ⟨d1, l1, ?_, hinfo.trans hi0, ?_⟩
      · simp only [List.map_cons, runDescs, hstep]
        rw [hrun]
        simp only [if_neg hboth]
      · intro c hc
        have := hl1 c hc
        exact ⟨this.1.trans hi0, this.2⟩

/-- C17, counterexample: an INTERFACE descriptor followed by the three IN
endpoints 0x81, 0x83, 0x85 (more than two endpoints) yields a single
candidate; and followed by 0x81, 0x02, 0x81, 0x02, 0x81 it yields three
candidates of which the first two carry the same endpoint pair. -/
theorem endpoint_accumulation_counterexample :
    (walker "/dev/bus/usb/006/003" (.ok (scenDevice.encode ++ scenConfig ++
        (scenInterface 0 3).encode ++ (scenEndpoint 0x81 64).encode ++
        (scenEndpoint 0x83 64).encode ++ (scenEndpoint 0x85 64).encode))).emitted.map
      (fun c => (c.epIn, c.epOut)) = [(0x81, 0)] ∧
    (walker "/dev/bus/usb/006/003" (.ok (scenDevice.encode ++ scenConfig ++
        (scenInterface 0 3).encode ++ (scenEndpoint 0x81 64).encode ++
        (scenEndpoint 0x02 32).encode ++ (scenEndpoint 0x81 64).encode ++
        (scenEndpoint 0x02 32).encode ++ (scenEndpoint 0x81 64).encode))).emitted.map
      (fun c => (c.epIn, c.epOut)) = [(0x81, 0x02), (0x81, 0x02), (0x81, 0)] := by
  decide

/-- C17, amended: when an ENDPOINT descriptor arrives while the pending
candidate has both IN and OUT set, the pending candidate is handed to the
sink with that endpoint pair and the candidate goes on with the same `Info`
and both endpoint addresses cleared, to which the arriving endpoint is then
applied. Consequently a HID INTERFACE descriptor followed by any number of
endpoints yields one or more candidates that all share its `Info`, each but
the last carrying a complete (IN, OUT) pair. -/
theorem endpoint_accumulation (path : String) :
    (∀ (st : WalkState) (d0 : usbDevice) (e : endpointDesc) (rest : List Byte),
      st.expected UsbDescTypeEndpoint = true → st.device = some d0 → e.Std →
      d0.epIn ≠ 0 → d0.epOut ≠ 0 →
      ∃ d1, walkLoop path 1 (e.encode ++ rest) st =
          (none, rest, { st with device := some d1, emitted := st.emitted ++ [d0] }) ∧
        d1.info = d0.info ∧ d1.path = d0.path ∧
        d1.epIn = (if 0x80 < e.Address then e.Address else 0) ∧
        d1.epOut = (if e.Address < 0x80 then e.Address else 0)) ∧
    (∀ (dd : deviceDesc) (cfg : List Byte) (i : interfaceDesc) (es : List endpointDesc),
      dd.Std → Framed UsbDescTypeConfig cfg → i.Std → i.InterfaceClass = UsbHidClass →
      (∀ e ∈ es, e.Std) →
      ∃ cs c, walker path (.ok (dd.encode ++ cfg ++ i.encode ++
          (es.map endpointDesc.encode).flatten)) = ⟨none, cs ++ [c]⟩ ∧
        (∀ x ∈ cs ++ [c], x.info = (newDevice path dd i).info) ∧
        ∀ x ∈ cs, x.epIn ≠ 0 ∧ x.epOut ≠ 0) := by
  constructor
  · intro st d0 e rest hx hd hstd hin hout
    obtain ⟨e1, hce, ha, hm⟩ := castEndpoint_encode e hstd
    have hfr := framed_endpoint e hstd
    have hstep := walkBody_endpoint path st e.encode e1 d0 hx hfr.2.2 hce hd
    rw [epApply_congr _ e e1 ha hm] at hstep
    have hboth : d0.epIn ≠ 0 ∧ d0.epOut ≠ 0 := ⟨hin, hout⟩
    refine ⟨epApply (epReset d0) e, ?_, ?_, ?_, ?_, ?_⟩
    · rw [walkLoop_framed path 0 e.encode rest st hfr.1 hfr.2.1, hstep]
      simp only [if_pos hboth, walkLoop]
    · exact (epApply_info _ e).1.trans (epReset_info d0).1
    · exact (epApply_info _ e).2.trans (epReset_info d0).2
    · rw [epApply_epIn]
      simp only [epReset, if_pos hboth, and_true]
    · rw [epApply_epOut]
      simp only [epReset, if_pos hboth, and_true]
  · intro dd cfg i es hdd hcfg hi hcls hes
    have hblob : dd.encode ++ cfg ++ i.encode ++ (es.map endpointDesc.encode).flatten =
        ([dd.encode, cfg] ++ ([i.encode] ++ es.map endpointDesc.encode)).flatten := by simp
    obtain ⟨dd1, hhead, hv, hp, hr⟩ := runDescs_head path dd cfg hdd hcfg
    obtain ⟨i1, hci, hn, hc, hs, hq⟩ := castInterface_encode i hi
    have hstep := walkBody_interface path ⟨headExpected, dd1, none, []⟩ i.encode i1 rfl
      (framed_interface i hi).2.2 hci
    rw [hc, hcls, if_pos rfl, flushDevice_emitted] at hstep
    obtain ⟨d1, l, hrun, hinfo, hl⟩ := runDescs_endpoints_emitted path es
      ⟨setExpected (setExpected headExpected UsbDescTypeEndpoint true) UsbDescTypeReport true,
        dd1, some (newDevice path dd1 i1), []⟩ (newDevice path dd1 i1) rfl rfl hes
    have hnew : (newDevice path dd1 i1).info = (newDevice path dd i).info := by
      simp [newDevice, hv, hp, hr, hn, hs, hq]
    refine ⟨l, d1, ?_, ?_, ?_⟩
    · rw [hblob, walker_flatten]
      · rw [runDescs_append, hhead]
        simp only
        rw [runDescs_append]
        simp only [runDescs, hstep]
        simp only [List.append_nil, Option.toList_none] at hrun ⊢
        rw [hrun]
        simp [flushDevice]
      · intro d hd
        simp only [List.mem_append, List.mem_cons, List.mem_singleton, List.not_mem_nil,
          or_false, List.mem_map] at hd
        rcases hd with (rfl | rfl) | rfl | ⟨e, he, rfl⟩
        · have := framed_device dd hdd
          exact ⟨this.1, this.2.1⟩
        · exact ⟨hcfg.1, hcfg.2.1⟩
        · have := framed_interface i hi
          exact ⟨this.1, this.2.1⟩
        · have := framed_endpoint e (hes e he)
          exact ⟨this.1, this.2.1⟩
    · intro x hx
      rw [List.mem_append, List.mem_singleton] at hx
      rcases hx with hx | rfl
      · exact (hl x hx).1.trans hnew
      · exact hinfo.trans hnew
    · intro x hx
      exact (hl x hx).2

/-- C17, witness of the amended claim: IN 0x81, OUT 0x02, IN 0x83 yields
the pair (0x81, 0x02) and then (0x83, none). -/
theorem endpoint_accumulation_witness :
    (∃ cs c, walker "/dev/bus/usb/006/003" (.ok (scenDevice.encode ++ scenConfig ++
        (scenInterface 0 3).encode ++
        ([scenEndpoint 0x81 64, scenEndpoint 0x02 32, scenEndpoint 0x83 8].map
          endpointDesc.encode).flatten)) = ⟨none, cs ++ [c]⟩ ∧
      (∀ x ∈ cs ++ [c],
        x.info = (newDevice "/dev/bus/usb/006/003" scenDevice (scenInterface 0 3)).info) ∧
      ∀ x ∈ cs, x.epIn ≠ 0 ∧ x.epOut ≠ 0) ∧
    (walker "/dev/bus/usb/006/003" (.ok (scenDevice.encode ++ scenConfig ++
        (scenInterface 0 3).encode ++
        ([scenEndpoint 0x81 64, scenEndpoint 0x02 32, scenEndpoint 0x83 8].map
          endpointDesc.encode).flatten))).emitted.map (fun c => (c.epIn, c.epOut)) =
      [(0x81, 0x02), (0x83, 0)] :=
  ⟨(endpoint_accumulation "/dev/bus/usb/006/003").2 scenDevice scenConfig (scenInterface 0 3)
      [scenEndpoint 0x81 64, scenEndpoint 0x02 32, scenEndpoint 0x83 8]
      (by decide) (by decide) (by decide) rfl (by decide), by decide⟩

end Hid
